import Mathlib

/-!
Bluetooth Classic SPP for MicroPython on ESP32 : byte pipe and connection state

A shallow embedding of `bt_spp_client.c` (module `btm`, the master) and
`bt_spp_server.c` (module `bts`, the slave).

Conventions of the embedding

* C `int` values are `Int`; `uint8_t`, `uint32_t`, `size_t` values are `Nat`.
* A byte is a `Nat` below 256.  The casts `(char)` and `(uint8_t)` that the
  source applies when a byte enters and leaves the pipe keep its bit pattern,
  so a byte is stored and returned as the same number.
* `pipe->buffer` is a pointer: `buffer i` is the byte at address `buffer + i`.
  The number of bytes `malloc` handed out for it is recorded next to it in
  `alloc`; the source itself never looks at that number.
* The FreeRTOS mutex `pipe->lock` is represented by the flag `lock`, true
  while another task holds the mutex.  A zero-wait `xSemaphoreTake` succeeds
  exactly when the flag is false, and the matching `xSemaphoreGive` restores it.
* A fixed-size C array is the list of its elements; a C string argument is the
  list of the bytes of the Python string it comes from, of which the C
  functions see those before the first NUL.
* What the environment supplies is an argument of the function that uses it:
  the object handed out by `m_new_obj`, the result of `malloc`, the status
  codes returned by the stack, and the ESP-IDF constant
  `ESP_BT_GAP_MAX_BDNAME_LEN` (`maxlen`).
* Commands given to the Bluetooth stack are collected in a list of `Cmd`.
-/

namespace BtSpp

/-! ## C strings and arrays -/

/-- A C array of bytes is the list of its elements.  `memcpy(dst, src, n)`
replaces the first `n` elements of `dst` by the first `n` elements of `src`;
a copy longer than `dst` runs past its end, and the list then is longer than
the array was declared. -/
def memcpy (dst src : List Nat) (n : Nat) : List Nat := src.take n ++ dst.drop n

/-- The bytes of a C string: those before the first NUL. -/
def cstr (s : List Nat) : List Nat := s.takeWhile (fun c => c != 0)

/-- The C function `strlen`. -/
def strlen (s : List Nat) : Nat := (cstr s).length

/-- The C function `strncmp`; the end of a list reads as NUL. -/
def strncmp : List Nat → List Nat → Nat → Int
  | _, _, 0 => 0
  | s1, s2, n + 1 =>
    if s1.headD 0 ≠ s2.headD 0 then (s1.headD 0 : Int) - (s2.headD 0 : Int)
    else if s1.headD 0 = 0 then 0
    else strncmp s1.tail s2.tail n

/-- The size of `spp_data`; the source states its value in the comment
`/* ESP_SPP_MAX_MTU = 990 bytes */` (client line 74, server line 63). -/
def ESP_SPP_MAX_MTU : Nat := 990

/-! ## The Bluetooth stack: commands and events

The stack is ESP-IDF, outside the repository.  Its enumerations are kept as
symbols, its status codes as the three values the source tells apart. -/

/-- Status codes of type `esp_err_t`, as far as `btm_start` / `bts_start`
distinguish them. -/
inductive esp_err_t where
  | ESP_OK
  | ESP_ERR_NVS_NO_FREE_PAGES
  | ESP_ERR_NVS_NEW_VERSION_FOUND
  | ESP_FAIL (code : Nat)
  deriving DecidableEq, Repr

/-- Connection modes of `esp_bt_gap_set_scan_mode`. -/
inductive esp_bt_connection_mode_t where
  | ESP_BT_NON_CONNECTABLE
  | ESP_BT_CONNECTABLE
  deriving DecidableEq, Repr

/-- Discovery modes of `esp_bt_gap_set_scan_mode`. -/
inductive esp_bt_discovery_mode_t where
  | ESP_BT_NON_DISCOVERABLE
  | ESP_BT_GENERAL_DISCOVERABLE
  deriving DecidableEq, Repr

/-- The role argument of `esp_spp_connect` and `esp_spp_start_srv`. -/
inductive esp_spp_role_t where
  | ESP_SPP_ROLE_MASTER
  | ESP_SPP_ROLE_SLAVE
  deriving DecidableEq, Repr

/-- A call into the stack, with its arguments.  Pointer arguments are
recorded as the contents of the array they point to. -/
inductive Cmd where
  | nvs_flash_init
  | nvs_flash_erase
  | esp_bt_controller_mem_release
  | esp_bt_controller_init
  | esp_bt_controller_enable
  | esp_bluedroid_init
  | esp_bluedroid_enable
  | esp_bt_gap_register_callback
  | esp_spp_register_callback
  | esp_spp_init
  | esp_bt_dev_set_device_name (name : List Nat)
  | esp_bt_gap_set_scan_mode (c_mode : esp_bt_connection_mode_t) (d_mode : esp_bt_discovery_mode_t)
  | esp_bt_gap_set_pin (fixed : Bool) (pin_code_len : Nat) (pin_code : List Nat)
  | esp_spp_start_srv (authenticate : Bool) (role : esp_spp_role_t) (local_scn : Nat)
      (name : List Nat)
  | esp_bt_gap_start_discovery (general_inquiry : Bool) (inq_len : Nat) (num_rsps : Nat)
  | esp_bt_gap_cancel_discovery
  | esp_spp_start_discovery (bd_addr : List Nat)
  | esp_spp_connect (authenticate : Bool) (role : esp_spp_role_t) (remote_scn : Nat)
      (peer_bd_addr : List Nat)
  | esp_bt_gap_pin_reply (bd_addr : List Nat) (accept : Bool) (pin_code_len : Nat)
      (pin_code : List Nat)
  | esp_spp_write (handle : Nat) (len : Nat) (p_data : List Nat)
  | esp_spp_disconnect (handle : Nat)
  | esp_spp_deinit
  | esp_bluedroid_disable
  | esp_bluedroid_deinit
  | esp_bt_controller_disable
  | esp_bt_controller_deinit
  deriving DecidableEq, Repr

/-- The status codes that the calls of `btm_start` / `bts_start` return;
`nvs_flash_init2` is the result of the second call of `nvs_flash_init`. -/
structure StartRets where
  nvs_flash_init : esp_err_t
  nvs_flash_erase : esp_err_t
  nvs_flash_init2 : esp_err_t
  esp_bt_controller_mem_release : esp_err_t
  esp_bt_controller_init : esp_err_t
  esp_bt_controller_enable : esp_err_t
  esp_bluedroid_init : esp_err_t
  esp_bluedroid_enable : esp_err_t
  esp_bt_gap_register_callback : esp_err_t
  esp_spp_register_callback : esp_err_t
  esp_spp_init : esp_err_t

/-- The events of `esp_spp_cb`, each with the fields of `param` that the
source reads.  `success` says that the status is `ESP_SPP_SUCCESS`. -/
inductive esp_spp_cb_event_t where
  | ESP_SPP_INIT_EVT
  | ESP_SPP_DISCOVERY_COMP_EVT (success : Bool) (scn0 : Nat)
  | ESP_SPP_OPEN_EVT (handle : Nat)
  | ESP_SPP_CLOSE_EVT
  | ESP_SPP_START_EVT
  | ESP_SPP_CL_INIT_EVT
  | ESP_SPP_DATA_IND_EVT (handle : Nat) (data : List Nat)
  | ESP_SPP_CONG_EVT (handle : Nat)
  | ESP_SPP_WRITE_EVT (handle : Nat)
  | ESP_SPP_SRV_OPEN_EVT
  | other

/-- An extended inquiry response, seen through `esp_bt_gap_resolve_eir_data`:
the data it resolves for the complete and for the short local name
(`none` when it returns `NULL`). -/
structure eir_t where
  cmpl_local_name : Option (List Nat)
  short_local_name : Option (List Nat)

/-- A device property of an inquiry result: whether its type is
`ESP_BT_GAP_DEV_PROP_EIR`, and its value (`none` for a `NULL` pointer). -/
structure esp_bt_gap_dev_prop_t where
  is_eir : Bool
  val : Option eir_t

/-- The events of `esp_bt_gap_cb`, each with the fields of `param` that the
source reads.  `success` says that the status is `ESP_BT_STATUS_SUCCESS`. -/
inductive esp_bt_gap_cb_event_t where
  | ESP_BT_GAP_DISC_RES_EVT (bda : List Nat) (prop : List esp_bt_gap_dev_prop_t)
  | ESP_BT_GAP_DISC_STATE_CHANGED_EVT
  | ESP_BT_GAP_RMT_SRVCS_EVT
  | ESP_BT_GAP_RMT_SRVC_REC_EVT
  | ESP_BT_GAP_AUTH_CMPL_EVT (success : Bool)
  | ESP_BT_GAP_PIN_REQ_EVT (bda : List Nat) (min_16_digit : Bool)
  | ESP_BT_GAP_CFM_REQ_EVT
  | ESP_BT_GAP_KEY_NOTIF_EVT
  | ESP_BT_GAP_KEY_REQ_EVT
  | other

/-! ## The pipe -/

/-- The constant `DEFAULT_PIPE_SIZE`, defined as 1024 in both files (line 50). -/
def DEFAULT_PIPE_SIZE : Int := 1024

/-- The struct `pipe_obj_t` (both files), with the size of the allocation behind
`buffer` recorded in `alloc`. -/
structure pipe_obj_t where
  buffer : Int → Nat
  alloc : Int
  head : Int
  tail : Int
  size : Int
  lock : Bool

/-- The test `xSemaphoreTake(pipe->lock, (TickType_t) NON_BLOCKING) == pdTRUE`. -/
def xSemaphoreTake (p : pipe_obj_t) : Bool := !p.lock

/-- The pipe object built by the first `btm_init` / `bts_init`
(client lines 286-300, server lines 239-253).  `buff` is what
`malloc(sizeof(char) * size)` returned: `none` for `NULL`, otherwise the
initial contents of the memory at the returned address. -/
def new_pipe (buff : Option (Int → Nat)) : pipe_obj_t :=
  let size : Int := DEFAULT_PIPE_SIZE
  match buff with
  | none => { buffer := fun _ => 0, alloc := 0, head := 0, tail := 0, size := 0, lock := false }
  | some mem =>
    { buffer := mem, alloc := 1 * size, head := 0, tail := 0, size := size + 1, lock := false }

namespace Client

/-- The `for` loop of `ESP_SPP_DATA_IND_EVT` in `esp_spp_cb` (client lines 159-167).
The second component is the final value of `i`, the number of bytes stored. -/
def data_ind_loop : List Nat → pipe_obj_t → pipe_obj_t × Nat
  | [], p => (p, 0)
  | x :: items, p =>
    let next_tail := (p.tail + 1) % p.size
    if next_tail = p.head then (p, 0)
    else
      let r := data_ind_loop items
        { p with buffer := Function.update p.buffer p.tail x, tail := next_tail }
      (r.1, r.2 + 1)

/-- The pipe part of `ESP_SPP_DATA_IND_EVT` (client lines 155-169); `items` are
the `param->data_ind.len` bytes at `param->data_ind.data`. -/
def data_ind_pipe (items : List Nat) (p : pipe_obj_t) : pipe_obj_t × Nat :=
  if xSemaphoreTake p then data_ind_loop items p else (p, 0)

/-- The function `btm_data` (client lines 316-327). -/
def btm_data (p : pipe_obj_t) : Int :=
  if xSemaphoreTake p then
    if p.tail ≥ p.head then p.tail - p.head else p.size - p.head + p.tail
  else 0

/-- The `for` loop shared by `btm_get_str` and `btm_get_bin`
(client lines 336-343 and 361-368), for `count` remaining iterations.  The
second component is `items[0 .. removed-1]`. -/
def get_loop : Nat → pipe_obj_t → pipe_obj_t × List Nat
  | 0, p => (p, [])
  | n + 1, p =>
    if p.head = p.tail then (p, [])
    else
      let r := get_loop n { p with head := (p.head + 1) % p.size }
      (r.1, p.buffer p.head :: r.2)

/-- The function `btm_get_str` (client lines 330-352); `none` is `mp_const_none`,
`some items` the bytes handed to `mp_obj_new_str`. -/
def btm_get_str (count : Int) (p : pipe_obj_t) : pipe_obj_t × Option (List Nat) :=
  if count > 0 then
    if xSemaphoreTake p then
      let r := get_loop count.toNat p
      if r.2.length > 0 then (r.1, some r.2) else (r.1, none)
    else (p, none)
  else (p, none)

/-- The function `btm_get_bin` (client lines 355-377); `none` is `mp_const_none`,
`some items` the bytes handed to `mp_obj_new_bytes`. -/
def btm_get_bin (count : Int) (p : pipe_obj_t) : pipe_obj_t × Option (List Nat) :=
  if count > 0 then
    if xSemaphoreTake p then
      let r := get_loop count.toNat p
      if r.2.length > 0 then (r.1, some r.2) else (r.1, none)
    else (p, none)
  else (p, none)

end Client

namespace Server

/-- The `for` loop of `ESP_SPP_DATA_IND_EVT` in `esp_spp_cb` (server lines 113-122). -/
def data_ind_loop : List Nat → pipe_obj_t → pipe_obj_t × Nat
  | [], p => (p, 0)
  | x :: items, p =>
    let next_tail := (p.tail + 1) % p.size
    if next_tail = p.head then (p, 0)
    else
      let r := data_ind_loop items
        { p with buffer := Function.update p.buffer p.tail x, tail := next_tail }
      (r.1, r.2 + 1)

/-- The pipe part of `ESP_SPP_DATA_IND_EVT` (server lines 109-124). -/
def data_ind_pipe (items : List Nat) (p : pipe_obj_t) : pipe_obj_t × Nat :=
  if xSemaphoreTake p then data_ind_loop items p else (p, 0)

/-- The function `bts_data` (server lines 269-280). -/
def bts_data (p : pipe_obj_t) : Int :=
  if xSemaphoreTake p then
    if p.tail ≥ p.head then p.tail - p.head else p.size - p.head + p.tail
  else 0

/-- The `for` loop shared by `bts_get_str` and `bts_get_bin`
(server lines 289-296 and 314-321). -/
def get_loop : Nat → pipe_obj_t → pipe_obj_t × List Nat
  | 0, p => (p, [])
  | n + 1, p =>
    if p.head = p.tail then (p, [])
    else
      let r := get_loop n { p with head := (p.head + 1) % p.size }
      (r.1, p.buffer p.head :: r.2)

/-- The function `bts_get_str` (server lines 283-305). -/
def bts_get_str (count : Int) (p : pipe_obj_t) : pipe_obj_t × Option (List Nat) :=
  if count > 0 then
    if xSemaphoreTake p then
      let r := get_loop count.toNat p
      if r.2.length > 0 then (r.1, some r.2) else (r.1, none)
    else (p, none)
  else (p, none)

/-- The function `bts_get_bin` (server lines 308-330). -/
def bts_get_bin (count : Int) (p : pipe_obj_t) : pipe_obj_t × Option (List Nat) :=
  if count > 0 then
    if xSemaphoreTake p then
      let r := get_loop count.toNat p
      if r.2.length > 0 then (r.1, some r.2) else (r.1, none)
    else (p, none)
  else (p, none)

end Server

/-! ## Runs of pipe operations -/

/-- One operation on the pipe: an inbound payload, a read by either facade
function, or another task taking (`true`) or giving back (`false`) the mutex. -/
inductive PipeOp where
  | dataInd (items : List Nat)
  | getStr (count : Int)
  | getBin (count : Int)
  | contend (held : Bool)

/-- What the operations of a run have moved: the pipe, the bytes returned by
the reads so far, and the bytes stored by the data events so far. -/
structure PipeRun where
  pipe : pipe_obj_t
  read : List Nat
  stored : List Nat

/-- One operation of the master's pipe. -/
def Client.pipe_step (r : PipeRun) : PipeOp → PipeRun
  | .dataInd items =>
    let w := Client.data_ind_pipe items r.pipe
    { pipe := w.1, read := r.read, stored := r.stored ++ items.take w.2 }
  | .getStr count =>
    let g := Client.btm_get_str count r.pipe
    { pipe := g.1, read := r.read ++ g.2.getD [], stored := r.stored }
  | .getBin count =>
    let g := Client.btm_get_bin count r.pipe
    { pipe := g.1, read := r.read ++ g.2.getD [], stored := r.stored }
  | .contend held => { r with pipe := { r.pipe with lock := held } }

/-- One operation of the slave's pipe. -/
def Server.pipe_step (r : PipeRun) : PipeOp → PipeRun
  | .dataInd items =>
    let w := Server.data_ind_pipe items r.pipe
    { pipe := w.1, read := r.read, stored := r.stored ++ items.take w.2 }
  | .getStr count =>
    let g := Server.bts_get_str count r.pipe
    { pipe := g.1, read := r.read ++ g.2.getD [], stored := r.stored }
  | .getBin count =>
    let g := Server.bts_get_bin count r.pipe
    { pipe := g.1, read := r.read ++ g.2.getD [], stored := r.stored }
  | .contend held => { r with pipe := { r.pipe with lock := held } }

/-- A run of the master's pipe from the pipe that `init` creates. -/
def Client.pipe_run (mem : Int → Nat) (ops : List PipeOp) : PipeRun :=
  ops.foldl Client.pipe_step { pipe := new_pipe (some mem), read := [], stored := [] }

/-- A run of the slave's pipe from the pipe that `init` creates. -/
def Server.pipe_run (mem : Int → Nat) (ops : List PipeOp) : PipeRun :=
  ops.foldl Server.pipe_step { pipe := new_pipe (some mem), read := [], stored := [] }

/-- The bytes written and not yet read: the slots from `head` up to `tail`,
going round the buffer. -/
def unread (p : pipe_obj_t) : List Nat :=
  (List.range ((p.tail - p.head) % p.size).toNat).map
    (fun (k : Nat) => p.buffer ((p.head + (k : Int)) % p.size))

/-- The index invariant of the pipe that `init` creates with a buffer. -/
def PipeWf (p : pipe_obj_t) : Prop :=
  p.size = DEFAULT_PIPE_SIZE + 1 ∧ 0 ≤ p.head ∧ p.head < p.size ∧ 0 ≤ p.tail ∧ p.tail < p.size

/-! ## The master (`bt_spp_client.c`) -/

namespace Client

/-- The struct `master_obj_t` (client lines 77-86). -/
structure master_obj_t where
  name : List Nat
  slave_name : List Nat
  slave_name_len : Nat
  slave_pin_code : List Nat
  slave_addr : List Nat
  ready : Bool
  handle : Nat
  c_handle : Nat

/-- The globals of `bt_spp_client.c`: the objects behind the pointers `pipe`
and `master`, the static arrays and the flags (client lines 60-93). -/
structure State where
  pipe : pipe_obj_t
  master : master_obj_t
  slave_device_name : List Nat
  slave_device_name_len : Nat
  spp_data : List Nat
  master_storage : Bool
  master_up : Bool
  master_auth : Bool

/-- The function `get_name_from_eir` (client lines 95-125), called with non-null
`bdname` and `bdname_len`.  `maxlen` is `ESP_BT_GAP_MAX_BDNAME_LEN`, a
constant of ESP-IDF.  The result is the returned flag and the new contents of
`bdname` and `*bdname_len`. -/
def get_name_from_eir (maxlen : Nat) (eir : Option eir_t) (bdname : List Nat)
    (bdname_len : Nat) : Bool × List Nat × Nat :=
  match eir with
  | none => (false, bdname, bdname_len)
  | some e =>
    let rmt_bdname :=
      match e.cmpl_local_name with
      | some d => some d
      | none => e.short_local_name
    match rmt_bdname with
    | some d =>
      let rmt_bdname_len := if d.length > maxlen then maxlen else d.length
      (true, (memcpy bdname d rmt_bdname_len).set rmt_bdname_len 0, rmt_bdname_len)
    | none => (false, bdname, bdname_len)

/-- The function `esp_spp_cb` of the master (client lines 127-183). -/
def esp_spp_cb (event : esp_spp_cb_event_t) (s : State) : State × List Cmd :=
  match event with
  | .ESP_SPP_DISCOVERY_COMP_EVT success scn0 =>
    if success then (s, [Cmd.esp_spp_connect true .ESP_SPP_ROLE_MASTER scn0 s.master.slave_addr])
    else (s, [])
  | .ESP_SPP_OPEN_EVT handle =>
    ({ s with master := { s.master with handle := handle, c_handle := handle, ready := true } }, [])
  | .ESP_SPP_CLOSE_EVT =>
    ({ s with master := { s.master with ready := false, handle := 0, c_handle := 0 } }, [])
  | .ESP_SPP_DATA_IND_EVT handle data =>
    ({ s with pipe := (data_ind_pipe data s.pipe).1,
              master := { s.master with handle := handle } }, [])
  | .ESP_SPP_CONG_EVT handle => ({ s with master := { s.master with handle := handle } }, [])
  | .ESP_SPP_WRITE_EVT handle => ({ s with master := { s.master with handle := handle } }, [])
  | _ => (s, [])

/-- The `for` loop of `ESP_BT_GAP_DISC_RES_EVT` (client lines 189-199) over the
properties `prop[i]`, `i < num_prop`.  The address type `esp_bd_addr_t` has
`ESP_BD_ADDR_LEN` bytes, so the `memcpy` of line 194 copies the whole of `bda`. -/
def disc_res_loop (maxlen : Nat) (bda : List Nat) :
    List esp_bt_gap_dev_prop_t → State → State × List Cmd
  | [], s => (s, [])
  | pr :: rest, s =>
    if pr.is_eir then
      let g := get_name_from_eir maxlen pr.val s.slave_device_name s.slave_device_name_len
      let s1 := { s with slave_device_name := g.2.1, slave_device_name_len := g.2.2 }
      if g.1 then
        if strlen s1.slave_device_name = s1.master.slave_name_len
            ∧ strncmp s1.master.slave_name s1.slave_device_name s1.master.slave_name_len = 0 then
          let s2 := { s1 with master := { s1.master with slave_addr := bda } }
          let r := disc_res_loop maxlen bda rest s2
          (r.1, [Cmd.esp_spp_start_discovery s2.master.slave_addr,
                 Cmd.esp_bt_gap_cancel_discovery] ++ r.2)
        else disc_res_loop maxlen bda rest s1
      else disc_res_loop maxlen bda rest s1
    else disc_res_loop maxlen bda rest s

/-- The function `esp_bt_gap_cb` of the master (client lines 185-227). -/
def esp_bt_gap_cb (maxlen : Nat) (event : esp_bt_gap_cb_event_t) (s : State) :
    State × List Cmd :=
  match event with
  | .ESP_BT_GAP_DISC_RES_EVT bda prop => disc_res_loop maxlen bda prop s
  | .ESP_BT_GAP_AUTH_CMPL_EVT success =>
    if success then ({ s with master_auth := true }, [])
    else ({ s with master_auth := false }, [])
  | .ESP_BT_GAP_PIN_REQ_EVT bda min_16_digit =>
    if min_16_digit then (s, [Cmd.esp_bt_gap_pin_reply bda true 16 s.master.slave_pin_code])
    else (s, [Cmd.esp_bt_gap_pin_reply bda true 4 s.master.slave_pin_code])
  | _ => (s, [])

/-- The function `btm_start` (client lines 229-273).  The result is the list of
calls made, in order, and whether an `ESP_ERROR_CHECK` aborted the program. -/
def btm_start (r : StartRets) (master : master_obj_t) : List Cmd × Bool :=
  let c0 := [Cmd.nvs_flash_init]
  let again := r.nvs_flash_init = .ESP_ERR_NVS_NO_FREE_PAGES
    ∨ r.nvs_flash_init = .ESP_ERR_NVS_NEW_VERSION_FOUND
  if again ∧ r.nvs_flash_erase ≠ .ESP_OK then (c0 ++ [Cmd.nvs_flash_erase], true) else
  let c1 := if again then c0 ++ [Cmd.nvs_flash_erase, Cmd.nvs_flash_init] else c0
  let ret := if again then r.nvs_flash_init2 else r.nvs_flash_init
  if ret ≠ .ESP_OK then (c1, true) else
  let c2 := c1 ++ [Cmd.esp_bt_controller_mem_release]
  if r.esp_bt_controller_mem_release ≠ .ESP_OK then (c2, true) else
  let c3 := c2 ++ [Cmd.esp_bt_controller_init]
  if r.esp_bt_controller_init ≠ .ESP_OK then (c3, false) else
  let c4 := c3 ++ [Cmd.esp_bt_controller_enable]
  if r.esp_bt_controller_enable ≠ .ESP_OK then (c4, false) else
  let c5 := c4 ++ [Cmd.esp_bluedroid_init]
  if r.esp_bluedroid_init ≠ .ESP_OK then (c5, false) else
  let c6 := c5 ++ [Cmd.esp_bluedroid_enable]
  if r.esp_bluedroid_enable ≠ .ESP_OK then (c6, false) else
  let c7 := c6 ++ [Cmd.esp_bt_gap_register_callback]
  if r.esp_bt_gap_register_callback ≠ .ESP_OK then (c7, false) else
  let c8 := c7 ++ [Cmd.esp_spp_register_callback]
  if r.esp_spp_register_callback ≠ .ESP_OK then (c8, false) else
  let c9 := c8 ++ [Cmd.esp_spp_init]
  if r.esp_spp_init ≠ .ESP_OK then (c9, false) else
  (c9 ++ [Cmd.esp_bt_dev_set_device_name (cstr master.name),
          Cmd.esp_bt_gap_set_scan_mode .ESP_BT_CONNECTABLE .ESP_BT_GENERAL_DISCOVERABLE], false)

/-- The function `btm_init` (client lines 275-313).  `mo` is the object that
`m_new_obj(master_obj_t)` hands out, `buff` the result of `malloc`, `r` the
status codes met by `btm_start`.  The last component is the returned boolean,
`none` when the program was aborted inside `btm_start`. -/
def btm_init (mo : master_obj_t) (buff : Option (Int → Nat)) (r : StartRets)
    (name : List Nat) (s : State) : State × List Cmd × Option Bool :=
  if s.master_up = true then (s, [], some false) else
  let mn := name
  let s1 : State :=
    if s.master_storage = false then
      { s with master := { mo with name := memcpy mo.name mn (strlen mn) },
               pipe := new_pipe buff,
               master_storage := true }
    else
      { s with master := { s.master with name := memcpy s.master.name mn (strlen mn),
                                         ready := false, handle := 0, c_handle := 0 },
               pipe := { s.pipe with head := 0, tail := 0 } }
  let st := btm_start r s1.master
  if st.2 then (s1, st.1, none)
  else ({ s1 with master_up := true }, st.1, some true)

/-- The function `btm_send_str` (client lines 380-387); `data` are the bytes of
the Python string, of which C sees those before the first NUL. -/
def btm_send_str (data : List Nat) (s : State) : State × List Cmd :=
  if s.master.ready = true then
    let str := data
    let s1 := { s with spp_data := memcpy s.spp_data str (strlen str) }
    (s1, [Cmd.esp_spp_write s1.master.handle (strlen str) s1.spp_data])
  else (s, [])

/-- The function `btm_send_bin` (client lines 390-398); `len` is the length
that `mp_obj_str_get_data` reports, the number of bytes of `data`. -/
def btm_send_bin (data : List Nat) (s : State) : State × List Cmd :=
  if s.master.ready = true then
    let len := data.length
    let s1 := { s with spp_data := memcpy s.spp_data data len }
    (s1, [Cmd.esp_spp_write s1.master.handle len s1.spp_data])
  else (s, [])

/-- The function `btm_open` (client lines 401-409); `slave_name_len` is a
`uint8_t`. -/
def btm_open (name pin : List Nat) (s : State) : State × List Cmd :=
  let sn := name
  let sp := pin
  ({ s with master := { s.master with
      slave_name := memcpy s.master.slave_name sn (strlen sn),
      slave_name_len := strlen sn % 256,
      slave_pin_code := memcpy s.master.slave_pin_code sp (strlen sp) } },
   [Cmd.esp_bt_gap_start_discovery true 30 0])

/-- The function `btm_close` (client lines 412-420). -/
def btm_close (s : State) : State × List Cmd × Bool :=
  if s.master.ready = true then
    ({ s with master := { s.master with ready := false, handle := 0, c_handle := 0 } },
     [Cmd.esp_spp_disconnect s.master.c_handle], true)
  else (s, [], true)

/-- The function `btm_ready` (client lines 423-425). -/
def btm_ready (s : State) : Bool := s.master.ready

/-- The function `btm_up` (client lines 428-430). -/
def btm_up (s : State) : Bool := s.master_up

/-- The function `btm_deinit` (client lines 433-447). -/
def btm_deinit (s : State) : State × List Cmd × Bool :=
  if s.master_up = false then (s, [], false) else
  ({ s with master := { s.master with ready := false, handle := 0, c_handle := 0 },
            master_up := false },
   [Cmd.esp_spp_deinit, Cmd.esp_bluedroid_disable, Cmd.esp_bluedroid_deinit,
    Cmd.esp_bt_controller_disable, Cmd.esp_bt_controller_deinit], true)

/-- The statics of `bt_spp_client.c` at program start: flags false, arrays
zero-filled.  `pipe` and `master` point nowhere yet; the objects standing
for them here are replaced by the first `btm_init`. -/
def boot (maxlen : Nat) : State :=
  { pipe := new_pipe none,
    master := { name := [], slave_name := [], slave_name_len := 0, slave_pin_code := [],
                slave_addr := [], ready := false, handle := 0, c_handle := 0 },
    slave_device_name := List.replicate (maxlen + 1) 0,
    slave_device_name_len := 0,
    spp_data := List.replicate ESP_SPP_MAX_MTU 0,
    master_storage := false, master_up := false, master_auth := false }

/-- A step of the master: a call of the module `btm` or an event from the stack. -/
inductive Call where
  | init (name : List Nat) (mo : master_obj_t) (buff : Option (Int → Nat)) (r : StartRets)
  | up
  | data
  | get_str (count : Int)
  | get_bin (count : Int)
  | send_str (data : List Nat)
  | send_bin (data : List Nat)
  | open_ (name pin : List Nat)
  | ready
  | close
  | deinit
  | spp (event : esp_spp_cb_event_t)
  | gap (event : esp_bt_gap_cb_event_t)
  | contend (held : Bool)

/-- The state after a step and the commands it gave to the stack; `none` when
the program was aborted. -/
def step (maxlen : Nat) (s : State) : Call → Option (State × List Cmd)
  | .init name mo buff r =>
    let i := btm_init mo buff r name s
    match i.2.2 with
    | some _ => some (i.1, i.2.1)
    | none => none
  | .up => some (s, [])
  | .data => some (s, [])
  | .get_str count => some ({ s with pipe := (btm_get_str count s.pipe).1 }, [])
  | .get_bin count => some ({ s with pipe := (btm_get_bin count s.pipe).1 }, [])
  | .send_str data => some (btm_send_str data s)
  | .send_bin data => some (btm_send_bin data s)
  | .open_ name pin => some (btm_open name pin s)
  | .ready => some (s, [])
  | .close => some ((btm_close s).1, (btm_close s).2.1)
  | .deinit => some ((btm_deinit s).1, (btm_deinit s).2.1)
  | .spp event => some (esp_spp_cb event s)
  | .gap event => some (esp_bt_gap_cb maxlen event s)
  | .contend held => some ({ s with pipe := { s.pipe with lock := held } }, [])

/-- The state after a sequence of steps, `none` when one of them aborted. -/
def run (maxlen : Nat) : List Call → State → Option State
  | [], s => some s
  | c :: cs, s =>
    match step maxlen s c with
    | some r => run maxlen cs r.1
    | none => none

end Client

/-! ## The slave (`bt_spp_server.c`) -/

namespace Server

/-- The struct `slave_obj_t` (server lines 70-76). -/
structure slave_obj_t where
  name : List Nat
  pin_code : List Nat
  ready : Bool
  handle : Nat

/-- The globals of `bt_spp_server.c`: the objects behind the pointers `pipe`
and `slave`, the static array and the flags (server lines 60-84). -/
structure State where
  pipe : pipe_obj_t
  slave : slave_obj_t
  spp_data : List Nat
  slave_storage : Bool
  slave_up : Bool
  slave_auth : Bool

/-- The function `esp_spp_cb` of the slave (server lines 86-139). -/
def esp_spp_cb (event : esp_spp_cb_event_t) (s : State) : State × List Cmd :=
  match event with
  | .ESP_SPP_CLOSE_EVT =>
    ({ s with slave := { s.slave with ready := false, handle := 0 } },
     [Cmd.esp_bt_gap_set_scan_mode .ESP_BT_CONNECTABLE .ESP_BT_GENERAL_DISCOVERABLE])
  | .ESP_SPP_DATA_IND_EVT handle data =>
    ({ s with pipe := (data_ind_pipe data s.pipe).1,
              slave := { s.slave with handle := handle, ready := true } }, [])
  | .ESP_SPP_SRV_OPEN_EVT =>
    (s, [Cmd.esp_bt_gap_set_scan_mode .ESP_BT_NON_CONNECTABLE .ESP_BT_NON_DISCOVERABLE])
  | _ => (s, [])

/-- The function `esp_bt_gap_cb` of the slave (server lines 141-170). -/
def esp_bt_gap_cb (event : esp_bt_gap_cb_event_t) (s : State) : State × List Cmd :=
  match event with
  | .ESP_BT_GAP_AUTH_CMPL_EVT success =>
    if success then ({ s with slave_auth := true }, [])
    else ({ s with slave_auth := false }, [])
  | _ => (s, [])

/-- The function `bts_start` (server lines 172-223).  The result is the list of
calls made, in order, and whether an `ESP_ERROR_CHECK` aborted the program. -/
def bts_start (r : StartRets) (slave : slave_obj_t) : List Cmd × Bool :=
  let c0 := [Cmd.nvs_flash_init]
  let again := r.nvs_flash_init = .ESP_ERR_NVS_NO_FREE_PAGES
    ∨ r.nvs_flash_init = .ESP_ERR_NVS_NEW_VERSION_FOUND
  if again ∧ r.nvs_flash_erase ≠ .ESP_OK then (c0 ++ [Cmd.nvs_flash_erase], true) else
  let c1 := if again then c0 ++ [Cmd.nvs_flash_erase, Cmd.nvs_flash_init] else c0
  let ret := if again then r.nvs_flash_init2 else r.nvs_flash_init
  if ret ≠ .ESP_OK then (c1, true) else
  let c2 := c1 ++ [Cmd.esp_bt_controller_mem_release]
  if r.esp_bt_controller_mem_release ≠ .ESP_OK then (c2, true) else
  let c3 := c2 ++ [Cmd.esp_bt_controller_init]
  if r.esp_bt_controller_init ≠ .ESP_OK then (c3, false) else
  let c4 := c3 ++ [Cmd.esp_bt_controller_enable]
  if r.esp_bt_controller_enable ≠ .ESP_OK then (c4, false) else
  let c5 := c4 ++ [Cmd.esp_bluedroid_init]
  if r.esp_bluedroid_init ≠ .ESP_OK then (c5, false) else
  let c6 := c5 ++ [Cmd.esp_bluedroid_enable]
  if r.esp_bluedroid_enable ≠ .ESP_OK then (c6, false) else
  let c7 := c6 ++ [Cmd.esp_bt_gap_register_callback]
  if r.esp_bt_gap_register_callback ≠ .ESP_OK then (c7, false) else
  let c8 := c7 ++ [Cmd.esp_spp_register_callback]
  if r.esp_spp_register_callback ≠ .ESP_OK then (c8, false) else
  let c9 := c8 ++ [Cmd.esp_spp_init]
  if r.esp_spp_init ≠ .ESP_OK then (c9, false) else
  (c9 ++ [Cmd.esp_bt_gap_set_pin true 4 slave.pin_code,
          Cmd.esp_bt_dev_set_device_name (cstr slave.name),
          Cmd.esp_bt_gap_set_scan_mode .ESP_BT_CONNECTABLE .ESP_BT_GENERAL_DISCOVERABLE,
          Cmd.esp_spp_start_srv true .ESP_SPP_ROLE_SLAVE 0 (cstr slave.name)], false)

/-- The function `bts_init` (server lines 225-266).  `so` is the object that
`m_new_obj(slave_obj_t)` hands out, `buff` the result of `malloc`, `r` the
status codes met by `bts_start`.  The last component is the returned boolean,
`none` when the program was aborted inside `bts_start`. -/
def bts_init (so : slave_obj_t) (buff : Option (Int → Nat)) (r : StartRets)
    (name pin : List Nat) (s : State) : State × List Cmd × Option Bool :=
  if s.slave_up = true then (s, [], some false) else
  let sn := name
  let sp := pin
  let s1 : State :=
    if s.slave_storage = false then
      { s with slave := { so with name := memcpy so.name sn (strlen sn),
                                  pin_code := memcpy so.pin_code sp (strlen sp),
                                  ready := false },
               pipe := new_pipe buff,
               slave_storage := true }
    else
      { s with slave := { s.slave with name := memcpy s.slave.name sn (strlen sn),
                                       pin_code := memcpy s.slave.pin_code sp (strlen sp),
                                       ready := false, handle := 0 },
               pipe := { s.pipe with head := 0, tail := 0 } }
  let st := bts_start r s1.slave
  if st.2 then (s1, st.1, none)
  else ({ s1 with slave_up := true }, st.1, some true)

/-- The function `bts_send_str` (server lines 334-341). -/
def bts_send_str (data : List Nat) (s : State) : State × List Cmd :=
  if s.slave.ready = true then
    let str := data
    let s1 := { s with spp_data := memcpy s.spp_data str (strlen str) }
    (s1, [Cmd.esp_spp_write s1.slave.handle (strlen str) s1.spp_data])
  else (s, [])

/-- The function `bts_send_bin` (server lines 344-352). -/
def bts_send_bin (data : List Nat) (s : State) : State × List Cmd :=
  if s.slave.ready = true then
    let len := data.length
    let s1 := { s with spp_data := memcpy s.spp_data data len }
    (s1, [Cmd.esp_spp_write s1.slave.handle len s1.spp_data])
  else (s, [])

/-- The function `bts_close` (server lines 355-362). -/
def bts_close (s : State) : State × List Cmd × Bool :=
  if s.slave.ready = true then
    ({ s with slave := { s.slave with ready := false, handle := 0 } },
     [Cmd.esp_spp_disconnect s.slave.handle], true)
  else (s, [], true)

/-- The function `bts_ready` (server lines 365-367). -/
def bts_ready (s : State) : Bool := s.slave.ready

/-- The function `bts_up` (server lines 370-372). -/
def bts_up (s : State) : Bool := s.slave_up

/-- The function `bts_deinit` (server lines 375-388). -/
def bts_deinit (s : State) : State × List Cmd × Bool :=
  if s.slave_up = false then (s, [], false) else
  ({ s with slave := { s.slave with ready := false, handle := 0 }, slave_up := false },
   [Cmd.esp_spp_deinit, Cmd.esp_bluedroid_disable, Cmd.esp_bluedroid_deinit,
    Cmd.esp_bt_controller_disable, Cmd.esp_bt_controller_deinit], true)

/-- The statics of `bt_spp_server.c` at program start: flags false, array
zero-filled.  `pipe` and `slave` point nowhere yet; the objects standing
for them here are replaced by the first `bts_init`. -/
def boot : State :=
  { pipe := new_pipe none,
    slave := { name := [], pin_code := [], ready := false, handle := 0 },
    spp_data := List.replicate ESP_SPP_MAX_MTU 0,
    slave_storage := false, slave_up := false, slave_auth := false }

/-- A step of the slave: a call of the module `bts` or an event from the stack. -/
inductive Call where
  | init (name pin : List Nat) (so : slave_obj_t) (buff : Option (Int → Nat)) (r : StartRets)
  | up
  | data
  | get_str (count : Int)
  | get_bin (count : Int)
  | send_str (data : List Nat)
  | send_bin (data : List Nat)
  | close
  | ready
  | deinit
  | spp (event : esp_spp_cb_event_t)
  | gap (event : esp_bt_gap_cb_event_t)
  | contend (held : Bool)

/-- The state after a step and the commands it gave to the stack; `none` when
the program was aborted. -/
def step (s : State) : Call → Option (State × List Cmd)
  | .init name pin so buff r =>
    let i := bts_init so buff r name pin s
    match i.2.2 with
    | some _ => some (i.1, i.2.1)
    | none => none
  | .up => some (s, [])
  | .data => some (s, [])
  | .get_str count => some ({ s with pipe := (bts_get_str count s.pipe).1 }, [])
  | .get_bin count => some ({ s with pipe := (bts_get_bin count s.pipe).1 }, [])
  | .send_str data => some (bts_send_str data s)
  | .send_bin data => some (bts_send_bin data s)
  | .close => some ((bts_close s).1, (bts_close s).2.1)
  | .ready => some (s, [])
  | .deinit => some ((bts_deinit s).1, (bts_deinit s).2.1)
  | .spp event => some (esp_spp_cb event s)
  | .gap event => some (esp_bt_gap_cb event s)
  | .contend held => some ({ s with pipe := { s.pipe with lock := held } }, [])

/-- The state after a sequence of steps, `none` when one of them aborted. -/
def run : List Call → State → Option State
  | [], s => some s
  | c :: cs, s =>
    match step s c with
    | some r => run cs r.1
    | none => none

end Server

/-! ## Bookkeeping for the temporal claims -/

/-- Whether a data-indication event has occurred since the most recent `init`,
`close()`, `deinit()` or channel-close event, after one more step `c` taken in
state `s`.  An `init` turned down because the slave is up, and a `deinit`
turned down because it is not, return false without doing anything and do not
count. -/
def Server.heard_step (s : Server.State) (heard : Bool) : Server.Call → Bool
  | .init _ _ _ _ _ => if s.slave_up = true then heard else false
  | .close => false
  | .deinit => if s.slave_up = false then heard else false
  | .spp .ESP_SPP_CLOSE_EVT => false
  | .spp (.ESP_SPP_DATA_IND_EVT _ _) => true
  | _ => heard

/-- The run of the slave together with the flag of `Server.heard_step`. -/
def Server.run_heard : List Server.Call → Server.State → Bool → Option (Server.State × Bool)
  | [], s, heard => some (s, heard)
  | c :: cs, s, heard =>
    match Server.step s c with
    | some r => Server.run_heard cs r.1 (Server.heard_step s heard c)
    | none => none

/-- Status codes of a bring-up in which every call succeeds. -/
def StartRets.ok : StartRets :=
  { nvs_flash_init := .ESP_OK, nvs_flash_erase := .ESP_OK, nvs_flash_init2 := .ESP_OK,
    esp_bt_controller_mem_release := .ESP_OK, esp_bt_controller_init := .ESP_OK,
    esp_bt_controller_enable := .ESP_OK, esp_bluedroid_init := .ESP_OK,
    esp_bluedroid_enable := .ESP_OK, esp_bt_gap_register_callback := .ESP_OK,
    esp_spp_register_callback := .ESP_OK, esp_spp_init := .ESP_OK }

/-- A zero-filled `slave_obj_t`, as the MicroPython heap hands it out;
`n` is the length of the name array. -/
def Server.zero_obj (n : Nat) : Server.slave_obj_t :=
  { name := List.replicate n 0, pin_code := List.replicate 17 0, ready := false, handle := 0 }

/-- A zero-filled `master_obj_t`, as the MicroPython heap hands it out;
`n` is the length of the two name arrays. -/
def Client.zero_obj (n : Nat) : Client.master_obj_t :=
  { name := List.replicate n 0, slave_name := List.replicate n 0, slave_name_len := 0,
    slave_pin_code := List.replicate 17 0, slave_addr := List.replicate 6 0,
    ready := false, handle := 0, c_handle := 0 }

/-- The name that `get_name_from_eir` resolves from an extended inquiry
response: the complete local name, else the short one. -/
def resolved_name (e : eir_t) : Option (List Nat) :=
  match e.cmpl_local_name with
  | some d => some d
  | none => e.short_local_name

/-- The stack reports a channel handle other than zero with the event. -/
def handle_nonzero : esp_spp_cb_event_t → Bool
  | .ESP_SPP_OPEN_EVT handle => handle != 0
  | .ESP_SPP_DATA_IND_EVT handle _ => handle != 0
  | .ESP_SPP_CONG_EVT handle => handle != 0
  | .ESP_SPP_WRITE_EVT handle => handle != 0
  | _ => true

/-- A step of the master in which the stack reports no zero handle. -/
def Client.Call.handles_nonzero : Client.Call → Bool
  | .spp event => handle_nonzero event
  | _ => true

/-- A step of the slave in which the stack reports no zero handle. -/
def Server.Call.handles_nonzero : Server.Call → Bool
  | .spp event => handle_nonzero event
  | _ => true

/-- The master after `init("M")` on the freshly booted module and a
channel-open event with handle 5. -/
def Client.connected : Client.State :=
  (Client.esp_spp_cb (.ESP_SPP_OPEN_EVT 5)
    (Client.btm_init (Client.zero_obj 249) (some fun _ => 0) StartRets.ok [77]
      (Client.boot 248)).1).1

/-- The slave after `init("S", "1")` on the freshly booted module and a
data-indication event with handle 5. -/
def Server.connected : Server.State :=
  (Server.esp_spp_cb (.ESP_SPP_DATA_IND_EVT 5 [1])
    (Server.bts_init (Server.zero_obj 249) (some fun _ => 0) StartRets.ok [83] [49]
      Server.boot).1).1

/-! ## Bookkeeping for the bring-up, teardown and discovery claims -/

/-- An `ESP_ERROR_CHECK` of `btm_start` / `bts_start` fails and aborts the
program: the flash erase or the decisive `nvs_flash_init` or
`esp_bt_controller_mem_release` does not return `ESP_OK`. -/
def StartRets.aborts (r : StartRets) : Bool :=
  if r.nvs_flash_init = .ESP_ERR_NVS_NO_FREE_PAGES
      ∨ r.nvs_flash_init = .ESP_ERR_NVS_NEW_VERSION_FOUND then
    decide (r.nvs_flash_erase ≠ .ESP_OK) || decide (r.nvs_flash_init2 ≠ .ESP_OK)
      || decide (r.esp_bt_controller_mem_release ≠ .ESP_OK)
  else
    decide (r.nvs_flash_init ≠ .ESP_OK) || decide (r.esp_bt_controller_mem_release ≠ .ESP_OK)

/-- The calls of the bring-up whose status the source looks at, in order, each
with whether its status lets the bring-up go on.  A first `nvs_flash_init`
that reports no free pages or a new version is followed by `nvs_flash_erase`
and a second `nvs_flash_init`. -/
def checked_calls (r : StartRets) : List (Cmd × Bool) :=
  (if r.nvs_flash_init = .ESP_ERR_NVS_NO_FREE_PAGES
      ∨ r.nvs_flash_init = .ESP_ERR_NVS_NEW_VERSION_FOUND then
    [(Cmd.nvs_flash_init, true),
     (Cmd.nvs_flash_erase, decide (r.nvs_flash_erase = .ESP_OK)),
     (Cmd.nvs_flash_init, decide (r.nvs_flash_init2 = .ESP_OK))]
  else [(Cmd.nvs_flash_init, decide (r.nvs_flash_init = .ESP_OK))]) ++
  [(Cmd.esp_bt_controller_mem_release, decide (r.esp_bt_controller_mem_release = .ESP_OK)),
   (Cmd.esp_bt_controller_init, decide (r.esp_bt_controller_init = .ESP_OK)),
   (Cmd.esp_bt_controller_enable, decide (r.esp_bt_controller_enable = .ESP_OK)),
   (Cmd.esp_bluedroid_init, decide (r.esp_bluedroid_init = .ESP_OK)),
   (Cmd.esp_bluedroid_enable, decide (r.esp_bluedroid_enable = .ESP_OK)),
   (Cmd.esp_bt_gap_register_callback, decide (r.esp_bt_gap_register_callback = .ESP_OK)),
   (Cmd.esp_spp_register_callback, decide (r.esp_spp_register_callback = .ESP_OK)),
   (Cmd.esp_spp_init, decide (r.esp_spp_init = .ESP_OK))]

/-- Fail-fast execution as the specification words it: the calls are made in
order, the first one that does not let the bring-up go on is the last call
made, and the calls `rest` follow only when every checked call went through. -/
def fail_fast : List (Cmd × Bool) → List Cmd → List Cmd
  | [], rest => rest
  | (c, ok) :: cs, rest => if ok then c :: fail_fast cs rest else [c]

/-- The teardown call that undoes a bring-up call, paired as the ESP-IDF names
pair them (`init` with `deinit`, `enable` with `disable`); `none` for a call
that has no teardown in the source. -/
def teardown_of : Cmd → Option Cmd
  | .esp_bt_controller_init => some .esp_bt_controller_deinit
  | .esp_bt_controller_enable => some .esp_bt_controller_disable
  | .esp_bluedroid_init => some .esp_bluedroid_deinit
  | .esp_bluedroid_enable => some .esp_bluedroid_disable
  | .esp_spp_init => some .esp_spp_deinit
  | _ => none

/-- The step is a call of `open`. -/
def Client.Call.is_open : Client.Call → Bool
  | .open_ _ _ => true
  | _ => false

/-- The state after a sequence of inquiry results, each given by the address
and the properties of its `ESP_BT_GAP_DISC_RES_EVT`. -/
def Client.inquiry_results (maxlen : Nat) :
    List (List Nat × List esp_bt_gap_dev_prop_t) → Client.State → Client.State
  | [], s => s
  | ev :: evs, s =>
    Client.inquiry_results maxlen evs
      (Client.esp_bt_gap_cb maxlen (.ESP_BT_GAP_DISC_RES_EVT ev.1 ev.2) s).1

/-- The step is another task taking or giving back the mutex of the pipe. -/
def Client.Call.is_contend : Client.Call → Bool
  | .contend _ => true
  | _ => false

/-- The step is another task taking or giving back the mutex of the pipe. -/
def Server.Call.is_contend : Server.Call → Bool
  | .contend _ => true
  | _ => false

/-- The master after `init("M")` on the freshly booted module, a
data-indication event with three bytes, `get_bin(1)`, `deinit()` and a second
`init("M")`, followed by a data-indication event with two bytes. -/
def Client.reinitialised : Client.State :=
  (Client.esp_spp_cb (.ESP_SPP_DATA_IND_EVT 5 [4, 5])
    (Client.btm_init (Client.zero_obj 249) none StartRets.ok [77]
      (Client.btm_deinit
        { (Client.esp_spp_cb (.ESP_SPP_DATA_IND_EVT 5 [1, 2, 3])
            (Client.btm_init (Client.zero_obj 249) (some fun _ => 0) StartRets.ok [77]
              (Client.boot 248)).1).1 with
          pipe := (Client.btm_get_bin 1
            (Client.esp_spp_cb (.ESP_SPP_DATA_IND_EVT 5 [1, 2, 3])
              (Client.btm_init (Client.zero_obj 249) (some fun _ => 0) StartRets.ok [77]
                (Client.boot 248)).1).1.pipe).1 }).1).1).1

/-- The slave after `init("S", "1")` on the freshly booted module, a
data-indication event with three bytes, `get_str(1)`, `deinit()` and a second
`init("S", "1")`, followed by a data-indication event with two bytes. -/
def Server.reinitialised : Server.State :=
  (Server.esp_spp_cb (.ESP_SPP_DATA_IND_EVT 5 [4, 5])
    (Server.bts_init (Server.zero_obj 249) none StartRets.ok [83] [49]
      (Server.bts_deinit
        { (Server.esp_spp_cb (.ESP_SPP_DATA_IND_EVT 5 [1, 2, 3])
            (Server.bts_init (Server.zero_obj 249) (some fun _ => 0) StartRets.ok [83] [49]
              Server.boot).1).1 with
          pipe := (Server.bts_get_str 1
            (Server.esp_spp_cb (.ESP_SPP_DATA_IND_EVT 5 [1, 2, 3])
              (Server.bts_init (Server.zero_obj 249) (some fun _ => 0) StartRets.ok [83] [49]
                Server.boot).1).1.pipe).1 }).1).1).1

/-- The `for` loop of `ESP_SPP_DATA_IND_EVT` (client lines 159-167) with the
operation `%` of C made explicit: the result is `none` when line 160 is
reached with `pipe->size` equal to zero, for which C defines no result. -/
def Client.data_ind_loop_checked : List Nat → pipe_obj_t → Option (pipe_obj_t × Nat)
  | [], p => some (p, 0)
  | x :: items, p =>
    if p.size = 0 then none
    else
      let next_tail := (p.tail + 1) % p.size
      if next_tail = p.head then some (p, 0)
      else
        match Client.data_ind_loop_checked items
          { p with buffer := Function.update p.buffer p.tail x, tail := next_tail } with
        | some r => some (r.1, r.2 + 1)
        | none => none

/-- The pipe part of `ESP_SPP_DATA_IND_EVT` (client lines 155-169) with the
operation `%` of C made explicit. -/
def Client.data_ind_pipe_checked (items : List Nat) (p : pipe_obj_t) :
    Option (pipe_obj_t × Nat) :=
  if xSemaphoreTake p then Client.data_ind_loop_checked items p else some (p, 0)

/-- The `for` loop of `ESP_SPP_DATA_IND_EVT` (server lines 113-122) with the
operation `%` of C made explicit: the result is `none` when line 114 is
reached with `pipe->size` equal to zero, for which C defines no result. -/
def Server.data_ind_loop_checked : List Nat → pipe_obj_t → Option (pipe_obj_t × Nat)
  | [], p => some (p, 0)
  | x :: items, p =>
    if p.size = 0 then none
    else
      let next_tail := (p.tail + 1) % p.size
      if next_tail = p.head then some (p, 0)
      else
        match Server.data_ind_loop_checked items
          { p with buffer := Function.update p.buffer p.tail x, tail := next_tail } with
        | some r => some (r.1, r.2 + 1)
        | none => none

/-- The pipe part of `ESP_SPP_DATA_IND_EVT` (server lines 109-124) with the
operation `%` of C made explicit. -/
def Server.data_ind_pipe_checked (items : List Nat) (p : pipe_obj_t) :
    Option (pipe_obj_t × Nat) :=
  if xSemaphoreTake p then Server.data_ind_loop_checked items p else some (p, 0)

/-! ## Theorems -/


/-! ## The pipe as a queue -/

theorem PipeWf.size_eq {p : pipe_obj_t} (h : PipeWf p) : p.size = 1025 := by
  have := h.1
  simp only [DEFAULT_PIPE_SIZE] at this
  omega

theorem new_pipe_wf (mem : Int → Nat) : PipeWf (new_pipe (some mem)) := by
  simp [PipeWf, new_pipe, DEFAULT_PIPE_SIZE]

theorem unread_length (p : pipe_obj_t) (h : PipeWf p) :
    ((unread p).length : Int) = (p.tail - p.head) % 1025 := by
  have hs := h.size_eq
  obtain ⟨-, h1, h2, h3, h4⟩ := h
  simp only [unread, List.length_map, List.length_range]
  rw [hs] at h2 h4 ⊢
  omega

theorem unread_length_le (p : pipe_obj_t) (h : PipeWf p) : (unread p).length ≤ 1024 := by
  have := unread_length p h
  omega

theorem unread_push (p : pipe_obj_t) (h : PipeWf p) (x : Nat)
    (hne : (p.tail + 1) % p.size ≠ p.head) :
    PipeWf { p with buffer := Function.update p.buffer p.tail x, tail := (p.tail + 1) % p.size } ∧
    unread { p with buffer := Function.update p.buffer p.tail x, tail := (p.tail + 1) % p.size }
      = unread p ++ [x] := by
  have hs := h.size_eq
  obtain ⟨hs0, h1, h2, h3, h4⟩ := h
  rw [hs] at h2 h4 hne
  refine ⟨⟨hs0, h1, ?_, ?_, ?_⟩, ?_⟩
  · show p.head < p.size
    rw [hs]; exact h2
  · show 0 ≤ (p.tail + 1) % p.size
    rw [hs]; omega
  · show (p.tail + 1) % p.size < p.size
    rw [hs]; omega
  · simp only [unread]
    rw [hs]
    have hd : (((p.tail + 1) % 1025 - p.head) % 1025).toNat
        = ((p.tail - p.head) % 1025).toNat + 1 := by omega
    rw [hd, List.range_succ, List.map_append]
    congr 1
    · apply List.map_congr_left
      intro k hk
      rw [List.mem_range] at hk
      apply Function.update_noteq
      omega
    · simp only [List.map_cons, List.map_nil]
      have : (p.head + ((((p.tail - p.head) % 1025).toNat : Nat) : Int)) % 1025 = p.tail := by omega
      rw [this, Function.update_same]

theorem unread_pop (p : pipe_obj_t) (h : PipeWf p) (hne : p.head ≠ p.tail) :
    PipeWf { p with head := (p.head + 1) % p.size } ∧
    unread p = p.buffer p.head :: unread { p with head := (p.head + 1) % p.size } := by
  have hs := h.size_eq
  obtain ⟨hs0, h1, h2, h3, h4⟩ := h
  rw [hs] at h2 h4
  refine ⟨⟨hs0, ?_, ?_, h3, ?_⟩, ?_⟩
  · show 0 ≤ (p.head + 1) % p.size
    rw [hs]; omega
  · show (p.head + 1) % p.size < p.size
    rw [hs]; omega
  · show p.tail < p.size
    rw [hs]; exact h4
  · simp only [unread]
    rw [hs]
    have hd : ((p.tail - p.head) % 1025).toNat
        = ((p.tail - (p.head + 1) % 1025) % 1025).toNat + 1 := by omega
    rw [hd, List.range_succ_eq_map, List.map_cons, List.map_map]
    congr 1
    · congr 1; simp; omega
    · apply List.map_congr_left
      intro k _
      simp only [Function.comp]
      congr 1
      push_cast
      omega

theorem unread_nil_of_eq (p : pipe_obj_t) (h : p.head = p.tail) : unread p = [] := by
  simp [unread, h]


theorem Client.data_ind_loop_spec (items : List Nat) (p : pipe_obj_t) (h : PipeWf p) :
    PipeWf (Client.data_ind_loop items p).1 ∧
    (Client.data_ind_loop items p).1.head = p.head ∧
    (Client.data_ind_loop items p).1.lock = p.lock ∧
    (Client.data_ind_loop items p).1.alloc = p.alloc ∧
    unread (Client.data_ind_loop items p).1
      = unread p ++ items.take (Client.data_ind_loop items p).2 ∧
    (Client.data_ind_loop items p).2 = min items.length (1024 - (unread p).length) := by
  induction items generalizing p with
  | nil => simp [Client.data_ind_loop, h]
  | cons x items ih =>
    have hlen := unread_length p h
    have hs := h.size_eq
    have h2 := h.2.2.1
    have h4 := h.2.2.2.2
    rw [hs] at h2 h4
    by_cases hfull : (p.tail + 1) % p.size = p.head
    · simp only [Client.data_ind_loop, hfull, if_true, List.take_zero, List.append_nil,
        List.length_cons]
      refine ⟨h, trivial, trivial, trivial, trivial, ?_⟩
      rw [hs] at hfull
      have h1 := h.2.1
      have h3 := h.2.2.2.1
      omega
    · obtain ⟨hwf, hpush⟩ := unread_push p h x hfull
      obtain ⟨i1, i2, i3, i4, i5, i6⟩ := ih _ hwf
      have hle := unread_length_le _ hwf
      rw [hpush] at i5 i6 hle
      simp only [List.length_append, List.length_singleton] at i6 hle
      simp only [Client.data_ind_loop, hfull, if_false, List.length_cons, List.take_succ_cons]
      refine ⟨i1, i2, i3, i4, ?_, ?_⟩
      · rw [i5]; simp
      · rw [i6]; omega

theorem Client.get_loop_spec (n : Nat) (p : pipe_obj_t) (h : PipeWf p) :
    PipeWf (Client.get_loop n p).1 ∧
    (Client.get_loop n p).1.tail = p.tail ∧
    (Client.get_loop n p).1.buffer = p.buffer ∧
    (Client.get_loop n p).1.lock = p.lock ∧
    (Client.get_loop n p).1.alloc = p.alloc ∧
    (Client.get_loop n p).2 = (unread p).take n ∧
    unread (Client.get_loop n p).1 = (unread p).drop n := by
  induction n generalizing p with
  | zero => simp [Client.get_loop, h]
  | succ n ih =>
    by_cases hemp : p.head = p.tail
    · simp [Client.get_loop, hemp, h, unread_nil_of_eq p hemp]
    · obtain ⟨hwf, hpop⟩ := unread_pop p h hemp
      obtain ⟨i1, i2, i3, i4, i5, i6, i7⟩ := ih _ hwf
      simp only [Client.get_loop, hemp, if_false]
      refine ⟨i1, i2, i3, i4, i5, ?_, ?_⟩
      · rw [hpop, List.take_succ_cons, i6]
      · rw [hpop, List.drop_succ_cons, i7]

theorem Server.data_ind_loop_eq (items : List Nat) (p : pipe_obj_t) :
    Server.data_ind_loop items p = Client.data_ind_loop items p := by
  induction items generalizing p with
  | nil => rfl
  | cons x items ih => simp only [Server.data_ind_loop, Client.data_ind_loop, ih]

theorem Server.get_loop_eq (n : Nat) (p : pipe_obj_t) :
    Server.get_loop n p = Client.get_loop n p := by
  induction n generalizing p with
  | zero => rfl
  | succ n ih => simp only [Server.get_loop, Client.get_loop, ih]

theorem Server.data_ind_pipe_eq (items : List Nat) (p : pipe_obj_t) :
    Server.data_ind_pipe items p = Client.data_ind_pipe items p := by
  simp only [Server.data_ind_pipe, Client.data_ind_pipe, Server.data_ind_loop_eq]

theorem Server.bts_data_eq (p : pipe_obj_t) : Server.bts_data p = Client.btm_data p := rfl

theorem Server.bts_get_str_eq (count : Int) (p : pipe_obj_t) :
    Server.bts_get_str count p = Client.btm_get_str count p := by
  simp only [Server.bts_get_str, Client.btm_get_str, Server.get_loop_eq]

theorem Server.bts_get_bin_eq (count : Int) (p : pipe_obj_t) :
    Server.bts_get_bin count p = Client.btm_get_bin count p := by
  simp only [Server.bts_get_bin, Client.btm_get_bin, Server.get_loop_eq]

theorem Server.pipe_step_eq (r : PipeRun) (op : PipeOp) :
    Server.pipe_step r op = Client.pipe_step r op := by
  cases op <;>
    simp only [Server.pipe_step, Client.pipe_step, Server.data_ind_pipe_eq,
      Server.bts_get_str_eq, Server.bts_get_bin_eq]

theorem Server.pipe_run_eq (mem : Int → Nat) (ops : List PipeOp) :
    Server.pipe_run mem ops = Client.pipe_run mem ops := by
  have : Server.pipe_step = Client.pipe_step := by
    funext r op; exact Server.pipe_step_eq r op
  simp only [Server.pipe_run, Client.pipe_run, this]

theorem Client.btm_data_free (p : pipe_obj_t) (h : PipeWf p) (hl : p.lock = false) :
    Client.btm_data p = (unread p).length := by
  have hlen := unread_length p h
  have hs := h.size_eq
  obtain ⟨-, h1, h2, h3, h4⟩ := h
  rw [hs] at h2 h4
  simp only [Client.btm_data, xSemaphoreTake, hl, Bool.not_false, if_true, hs]
  split <;> omega

theorem Client.btm_data_le (p : pipe_obj_t) (h : PipeWf p) :
    0 ≤ Client.btm_data p ∧ Client.btm_data p ≤ 1024 := by
  have hs := h.size_eq
  obtain ⟨-, h1, h2, h3, h4⟩ := h
  rw [hs] at h2 h4
  simp only [Client.btm_data, hs]
  split
  · split <;> omega
  · omega

/-- The read functions on a well-formed pipe with the mutex free. -/
theorem Client.btm_get_bin_spec (count : Int) (p : pipe_obj_t) (h : PipeWf p) :
    PipeWf (Client.btm_get_bin count p).1 ∧
    (Client.btm_get_bin count p).1.lock = p.lock ∧
    (Client.btm_get_bin count p).2.getD [] ++ unread (Client.btm_get_bin count p).1
      = unread p := by
  obtain ⟨i1, i2, i3, i4, i5, i6, i7⟩ := Client.get_loop_spec count.toNat p h
  simp only [Client.btm_get_bin]
  split
  · split
    · split
      · simp only [Option.getD_some]
        exact ⟨i1, i4, by rw [i6, i7, List.take_append_drop]⟩
      · rename_i hz
        have : (Client.get_loop count.toNat p).2 = [] := by
          simpa using hz
        rw [i6] at this
        refine ⟨i1, i4, ?_⟩
        rw [i7]
        simp only [Option.getD_none, List.nil_append]
        conv_rhs => rw [← List.take_append_drop count.toNat (unread p), this]
        simp
    · simp [h]
  · simp [h]

theorem Client.btm_get_str_eq_bin (count : Int) (p : pipe_obj_t) :
    Client.btm_get_str count p = Client.btm_get_bin count p := rfl

theorem Client.pipe_step_inv (r : PipeRun) (op : PipeOp) (h : PipeWf r.pipe)
    (hq : r.read ++ unread r.pipe = r.stored) :
    PipeWf (Client.pipe_step r op).pipe ∧
    (Client.pipe_step r op).read ++ unread (Client.pipe_step r op).pipe
      = (Client.pipe_step r op).stored := by
  cases op with
  | dataInd items =>
    simp only [Client.pipe_step, Client.data_ind_pipe]
    split
    · obtain ⟨i1, -, -, -, i5, -⟩ := Client.data_ind_loop_spec items r.pipe h
      exact ⟨i1, by rw [i5, ← List.append_assoc, hq]⟩
    · exact ⟨h, by simpa using hq⟩
  | getStr count =>
    obtain ⟨i1, -, i3⟩ := Client.btm_get_bin_spec count r.pipe h
    simp only [Client.pipe_step, Client.btm_get_str_eq_bin]
    exact ⟨i1, by rw [List.append_assoc, i3, hq]⟩
  | getBin count =>
    obtain ⟨i1, -, i3⟩ := Client.btm_get_bin_spec count r.pipe h
    simp only [Client.pipe_step]
    exact ⟨i1, by rw [List.append_assoc, i3, hq]⟩
  | contend held => exact ⟨h, hq⟩

theorem Client.pipe_run_snoc (mem : Int → Nat) (ops : List PipeOp) (op : PipeOp) :
    Client.pipe_run mem (ops ++ [op]) = Client.pipe_step (Client.pipe_run mem ops) op := by
  simp [Client.pipe_run, List.foldl_append]

theorem Client.pipe_run_inv (mem : Int → Nat) (ops : List PipeOp) :
    PipeWf (Client.pipe_run mem ops).pipe ∧
    (Client.pipe_run mem ops).read ++ unread (Client.pipe_run mem ops).pipe
      = (Client.pipe_run mem ops).stored := by
  induction ops using List.reverseRecOn with
  | nil =>
    refine ⟨new_pipe_wf mem, ?_⟩
    simp [Client.pipe_run, unread, new_pipe]
  | append_singleton ops op ih =>
    rw [Client.pipe_run_snoc]
    exact Client.pipe_step_inv _ op ih.1 ih.2


theorem Client.btm_get_bin_drain (p : pipe_obj_t) (h : PipeWf p) (hl : p.lock = false) :
    (Client.btm_get_bin DEFAULT_PIPE_SIZE p).2.getD [] = unread p := by
  obtain ⟨-, -, -, -, -, i6, -⟩ := Client.get_loop_spec (DEFAULT_PIPE_SIZE).toNat p h
  have hle := unread_length_le p h
  have htake : (unread p).take (DEFAULT_PIPE_SIZE).toNat = unread p := by
    apply List.take_of_length_le
    simp only [DEFAULT_PIPE_SIZE]
    omega
  simp only [Client.btm_get_bin, xSemaphoreTake, hl, i6, htake]
  simp only [DEFAULT_PIPE_SIZE]
  cases hu : unread p <;> simp

/-- C1 (pipe capacity invariant).  In every pipe state reached from the pipe
that `init` creates (head = tail = 0, size = DEFAULT_PIPE_SIZE + 1) by any
sequence of data-indication events and `get_str` / `get_bin` calls, whoever
holds the mutex in between, the value returned by `data()` is at most
DEFAULT_PIPE_SIZE = 1024; for the master and for the slave. -/
theorem C1_pipe_capacity (mem : Int → Nat) (ops : List PipeOp) :
    Client.btm_data (Client.pipe_run mem ops).pipe ≤ DEFAULT_PIPE_SIZE ∧
    Server.bts_data (Server.pipe_run mem ops).pipe ≤ DEFAULT_PIPE_SIZE := by
  have h := (Client.btm_data_le _ (Client.pipe_run_inv mem ops).1).2
  rw [Server.pipe_run_eq, Server.bts_data_eq]
  exact ⟨h, h⟩

/-- C2 (FIFO order).  For every sequence of data-indication events and
`get_bin` / `get_str` calls on a freshly initialised pipe, the bytes returned
by the reads, in order, followed by the bytes still unread in the pipe, are
the bytes that the data events stored (the accepted part of each payload), in
event order; and reading DEFAULT_PIPE_SIZE bytes with the mutex free after the
run returns what was still unread, so that all reads together return exactly
the stored bytes.  For the master and for the slave. -/
theorem C2_fifo_order (mem : Int → Nat) (ops : List PipeOp) :
    ((Client.pipe_run mem ops).read ++ unread (Client.pipe_run mem ops).pipe
      = (Client.pipe_run mem ops).stored) ∧
    ((Client.pipe_run mem (ops ++ [.contend false, .getBin DEFAULT_PIPE_SIZE])).read
      = (Client.pipe_run mem ops).stored) ∧
    ((Server.pipe_run mem ops).read ++ unread (Server.pipe_run mem ops).pipe
      = (Server.pipe_run mem ops).stored) ∧
    ((Server.pipe_run mem (ops ++ [.contend false, .getBin DEFAULT_PIPE_SIZE])).read
      = (Server.pipe_run mem ops).stored) := by
  have h := Client.pipe_run_inv mem ops
  have hd : (Client.pipe_run mem (ops ++ [.contend false, .getBin DEFAULT_PIPE_SIZE])).read
      = (Client.pipe_run mem ops).stored := by
    have hwf : PipeWf { (Client.pipe_run mem ops).pipe with lock := false } := h.1
    have := Client.btm_get_bin_drain _ hwf rfl
    simp only [Client.pipe_run, List.foldl_append, List.foldl_cons, List.foldl_nil,
      Client.pipe_step] at this ⊢
    rw [this]
    exact h.2
  simp only [Server.pipe_run_eq]
  exact ⟨h.2, hd, h.2, hd⟩

/-- C3 (overflow drop policy).  For every pipe state satisfying the index
invariant, holding `a` unread bytes, and every payload of length `n` arriving
with the mutex free: afterwards `data()` is min (a + n) C with C = 1024, the
unread bytes are the old ones followed by the first min n (C - a) bytes of the
payload, and that many bytes were stored; in particular a payload of at least
C bytes into an empty pipe leaves `data() = C` with its first C bytes.  The
slave's handler does the same. -/
theorem C3_overflow_drop (p : pipe_obj_t) (items : List Nat) (h : PipeWf p)
    (hl : p.lock = false) :
    Client.btm_data (Client.data_ind_pipe items p).1
      = min (Client.btm_data p + items.length) DEFAULT_PIPE_SIZE ∧
    unread (Client.data_ind_pipe items p).1
      = unread p ++ items.take (min items.length (DEFAULT_PIPE_SIZE - Client.btm_data p).toNat) ∧
    (Client.data_ind_pipe items p).2
      = min items.length (DEFAULT_PIPE_SIZE - Client.btm_data p).toNat ∧
    (p.head = p.tail → DEFAULT_PIPE_SIZE ≤ items.length →
      Client.btm_data (Client.data_ind_pipe items p).1 = DEFAULT_PIPE_SIZE ∧
      unread (Client.data_ind_pipe items p).1 = items.take (DEFAULT_PIPE_SIZE).toNat) ∧
    Server.data_ind_pipe items p = Client.data_ind_pipe items p ∧
    Server.bts_data (Server.data_ind_pipe items p).1
      = Client.btm_data (Client.data_ind_pipe items p).1 := by
  obtain ⟨i1, i2, i3, i4, i5, i6⟩ := Client.data_ind_loop_spec items p h
  have hle := unread_length_le p h
  have ha := Client.btm_data_free p h hl
  have hw : Client.data_ind_pipe items p = Client.data_ind_loop items p := by
    simp [Client.data_ind_pipe, xSemaphoreTake, hl]
  have hb := Client.btm_data_free _ i1 (i3.trans hl)
  have hcnt : min items.length (DEFAULT_PIPE_SIZE - Client.btm_data p).toNat
      = (Client.data_ind_loop items p).2 := by
    rw [i6, ha]; simp only [DEFAULT_PIPE_SIZE]; omega
  have hdata : Client.btm_data (Client.data_ind_loop items p).1
      = min (Client.btm_data p + items.length) DEFAULT_PIPE_SIZE := by
    rw [hb, i5, ha, List.length_append, List.length_take, i6]
    simp only [DEFAULT_PIPE_SIZE]
    omega
  rw [Server.data_ind_pipe_eq, Server.bts_data_eq, hw, hcnt]
  refine ⟨hdata, i5, rfl, ?_, rfl, rfl⟩
  intro hemp hlen
  have hnil := unread_nil_of_eq p hemp
  have h0 : Client.btm_data p = 0 := by rw [ha, hnil]; rfl
  constructor
  · rw [hdata, h0]; simp only [DEFAULT_PIPE_SIZE] at hlen ⊢; omega
  · rw [i5, hnil, List.nil_append, i6, hnil]
    congr 1
    simp only [DEFAULT_PIPE_SIZE, List.length_nil] at hlen ⊢
    omega

set_option maxRecDepth 100000 in
/-- Witness of C3: 1030 bytes arriving at the pipe that `init` creates. -/
theorem C3_overflow_drop_witness :
    PipeWf (new_pipe (some fun _ => 0)) ∧ (new_pipe (some fun _ => 0)).lock = false ∧
    Client.btm_data
      (Client.data_ind_pipe (List.replicate 1030 5) (new_pipe (some fun _ => 0))).1 = 1024 ∧
    unread (Client.data_ind_pipe (List.replicate 1030 5) (new_pipe (some fun _ => 0))).1
      = List.replicate 1024 5 :=
  ⟨new_pipe_wf _, rfl,
   ((C3_overflow_drop (new_pipe (some fun _ => 0)) (List.replicate 1030 5)
      (new_pipe_wf _) rfl).2.2.2.1 rfl (by simp [DEFAULT_PIPE_SIZE])).1,
   by
    rw [((C3_overflow_drop (new_pipe (some fun _ => 0)) (List.replicate 1030 5)
      (new_pipe_wf _) rfl).2.2.2.1 rfl (by simp [DEFAULT_PIPE_SIZE])).2]
    simp [DEFAULT_PIPE_SIZE]⟩

/-- Filling an empty stretch of the buffer: `n` bytes arriving while
`head = 0` and `tail + n ≤ 1024` are all stored, and no slot from `tail + n`
on is touched. -/
theorem Client.data_ind_loop_fill (n x : Nat) (p : pipe_obj_t) (hs : p.size = 1025)
    (hh : p.head = 0) (ht0 : 0 ≤ p.tail) (ht : p.tail + n ≤ 1024) :
    (Client.data_ind_loop (List.replicate n x) p).1.tail = p.tail + n ∧
    (Client.data_ind_loop (List.replicate n x) p).1.head = 0 ∧
    (Client.data_ind_loop (List.replicate n x) p).1.size = 1025 ∧
    (Client.data_ind_loop (List.replicate n x) p).1.alloc = p.alloc ∧
    (Client.data_ind_loop (List.replicate n x) p).1.lock = p.lock ∧
    ∀ j, p.tail + n ≤ j →
      (Client.data_ind_loop (List.replicate n x) p).1.buffer j = p.buffer j := by
  induction n generalizing p with
  | zero => simp [Client.data_ind_loop, hs, hh]
  | succ n ih =>
    have hne : ¬ ((p.tail + 1) % p.size = p.head) := by rw [hs, hh]; omega
    have hnt : (p.tail + 1) % p.size = p.tail + 1 := by rw [hs]; omega
    simp only [List.replicate_succ, Client.data_ind_loop, hne, if_false]
    obtain ⟨i1, i2, i3, i4, i5, i6⟩ := ih
      { p with buffer := Function.update p.buffer p.tail x, tail := (p.tail + 1) % p.size }
      hs hh (by show 0 ≤ (p.tail + 1) % p.size; omega)
      (by show (p.tail + 1) % p.size + (n : Int) ≤ 1024; push_cast at ht; omega)
    refine ⟨?_, i2, i3, i4, i5, ?_⟩
    · rw [i1]; show (p.tail + 1) % p.size + (n : Int) = _; push_cast; omega
    · intro j hj
      rw [i6 j (by show (p.tail + 1) % p.size + (n : Int) ≤ j; push_cast at hj; omega)]
      show Function.update p.buffer p.tail x j = p.buffer j
      apply Function.update_noteq
      push_cast at hj
      omega

/-- The three steps behind C4, for any payload that leaves the pipe with
head = 0 and tail = 1024. -/
theorem Client.write_at_1024 (items : List Nat) (p0 : pipe_obj_t) (hn : p0.lock = false)
    (i2 : (Client.data_ind_loop items p0).1.head = 0)
    (i3 : (Client.data_ind_loop items p0).1.size = 1025)
    (ht : (Client.data_ind_loop items p0).1.tail = 1024)
    (ha : (Client.data_ind_loop items p0).1.alloc = 1024)
    (hl : (Client.data_ind_loop items p0).1.lock = false)
    (hb : (Client.data_ind_loop items p0).1.buffer 1024 = 0) (r : PipeRun)
    (hr : r = Client.pipe_step
      (Client.pipe_step { pipe := p0, read := [], stored := [] } (.dataInd items)) (.getBin 1)) :
    r.pipe.alloc = 1024 ∧ r.pipe.size = 1025 ∧ r.pipe.head = 1 ∧ r.pipe.tail = 1024 ∧
    r.pipe.buffer 1024 = 0 ∧ (Client.pipe_step r (.dataInd [7])).pipe.buffer 1024 = 7 := by
  have e1 : Client.data_ind_pipe items p0 = Client.data_ind_loop items p0 := by
    simp [Client.data_ind_pipe, xSemaphoreTake, hn]
  subst hr
  simp only [Client.pipe_step, e1]
  generalize (Client.data_ind_loop items p0).1 = q at *
  simp [Client.btm_get_bin, Client.data_ind_pipe, xSemaphoreTake, Client.get_loop,
    Client.data_ind_loop, i2, i3, ht, ha, hl, hb]

/-- C4 (no access outside the allocation) fails on the code.  `init` asks
`malloc` for DEFAULT_PIPE_SIZE = 1024 bytes and sets `size` to 1025.  After a
data event of 1024 bytes and a `get_bin(1)` the pipe has head = 1 and
tail = 1024, and the next data event stores its byte at `buffer[1024]`, the
first byte behind the allocation; in the master and in the slave. -/
theorem C4_write_behind_allocation :
    (Client.pipe_run (fun _ => 0) [.dataInd (List.replicate 1024 1), .getBin 1]).pipe.alloc = 1024 ∧
    (Client.pipe_run (fun _ => 0) [.dataInd (List.replicate 1024 1), .getBin 1]).pipe.size = 1025 ∧
    (Client.pipe_run (fun _ => 0) [.dataInd (List.replicate 1024 1), .getBin 1]).pipe.head = 1 ∧
    (Client.pipe_run (fun _ => 0) [.dataInd (List.replicate 1024 1), .getBin 1]).pipe.tail = 1024 ∧
    (Client.pipe_run (fun _ => 0)
      [.dataInd (List.replicate 1024 1), .getBin 1]).pipe.buffer 1024 = 0 ∧
    (Client.pipe_run (fun _ => 0)
      [.dataInd (List.replicate 1024 1), .getBin 1, .dataInd [7]]).pipe.buffer 1024 = 7 ∧
    (Server.pipe_run (fun _ => 0)
      [.dataInd (List.replicate 1024 1), .getBin 1, .dataInd [7]]).pipe.buffer 1024 = 7 := by
  obtain ⟨i1, i2, i3, i4, i5, i6⟩ := Client.data_ind_loop_fill 1024 1
    (new_pipe (some fun _ => 0)) rfl rfl (le_refl _) (le_refl _)
  obtain ⟨h1, h2, h3, h4, h5, h6⟩ := Client.write_at_1024 (List.replicate 1024 1)
    (new_pipe (some fun _ => 0)) rfl i2 i3 i1 i4 i5 (i6 1024 (le_refl _))
    (Client.pipe_run (fun _ => 0) [.dataInd (List.replicate 1024 1), .getBin 1]) rfl
  have e : ([.dataInd (List.replicate 1024 1), .getBin 1, .dataInd [7]] : List PipeOp)
      = [.dataInd (List.replicate 1024 1), .getBin 1] ++ [.dataInd [7]] := rfl
  rw [Server.pipe_run_eq, e, Client.pipe_run_snoc]
  exact ⟨h1, h2, h3, h4, h5, h6, h6⟩

/-! ### The slave's readiness -/

theorem Server.bts_init_ready (so : Server.slave_obj_t) (buff : Option (Int → Nat))
    (rets : StartRets) (name pin : List Nat) (s : Server.State) :
    (Server.bts_init so buff rets name pin s).1.slave.ready
      = if s.slave_up = true then s.slave.ready else false := by
  unfold Server.bts_init
  simp only []
  split_ifs <;> rfl

theorem Server.step_ready (s : Server.State) (c : Server.Call) (r : Server.State × List Cmd)
    (h : Server.step s c = some r) :
    r.1.slave.ready = Server.heard_step s s.slave.ready c := by
  cases c with
  | init name pin so buff rets =>
    simp only [Server.step] at h
    split at h
    · simp only [Option.some.injEq] at h
      rw [← h]
      exact Server.bts_init_ready so buff rets name pin s
    · simp at h
  | close =>
    simp only [Server.step, Server.bts_close, Option.some.injEq] at h
    subst h
    by_cases hr : s.slave.ready = true <;> simp_all [Server.heard_step]
  | deinit =>
    simp only [Server.step, Server.bts_deinit, Option.some.injEq] at h
    subst h
    by_cases hu : s.slave_up = false <;> simp [Server.heard_step, hu]
  | spp event =>
    simp only [Server.step, Option.some.injEq] at h
    subst h
    cases event <;> simp [Server.esp_spp_cb, Server.heard_step]
  | gap event =>
    simp only [Server.step, Option.some.injEq] at h
    subst h
    cases event <;> simp [Server.esp_bt_gap_cb, Server.heard_step]
    split <;> rfl
  | send_str data =>
    simp only [Server.step, Server.bts_send_str, Option.some.injEq] at h
    subst h
    by_cases hr : s.slave.ready = true <;> simp [Server.heard_step, hr]
  | send_bin data =>
    simp only [Server.step, Server.bts_send_bin, Option.some.injEq] at h
    subst h
    by_cases hr : s.slave.ready = true <;> simp [Server.heard_step, hr]
  | up => simp only [Server.step, Option.some.injEq] at h; subst h; rfl
  | data => simp only [Server.step, Option.some.injEq] at h; subst h; rfl
  | ready => simp only [Server.step, Option.some.injEq] at h; subst h; rfl
  | get_str count => simp only [Server.step, Option.some.injEq] at h; subst h; rfl
  | get_bin count => simp only [Server.step, Option.some.injEq] at h; subst h; rfl
  | contend held => simp only [Server.step, Option.some.injEq] at h; subst h; rfl

theorem Server.run_heard_ready (calls : List Server.Call) (s s' : Server.State)
    (heard heard' : Bool) (h0 : s.slave.ready = heard)
    (h : Server.run_heard calls s heard = some (s', heard')) : s'.slave.ready = heard' := by
  induction calls generalizing s heard with
  | nil =>
    simp only [Server.run_heard, Option.some.injEq, Prod.mk.injEq] at h
    rw [← h.1, ← h.2]; exact h0
  | cons c cs ih =>
    simp only [Server.run_heard] at h
    cases hs : Server.step s c with
    | none => rw [hs] at h; simp at h
    | some r =>
      rw [hs] at h
      exact ih r.1 _ (by rw [Server.step_ready s c r hs, h0]) h

/-- C5 (slave speaks after master).  Take any run of the slave that starts
with `bts_init` on the freshly booted module and is not aborted, and let
`heard` say whether a data-indication event has occurred since the most recent
`init`, `close()`, `deinit()` or channel-close event that took effect.  Then
`ready()` equals `heard`; so while nothing has been heard `ready()` is false
and `send_str` / `send_bin` give no command to the stack.  After any
data-indication event on the state reached, `ready()` is true and `send_str` /
`send_bin` give exactly one command, a write addressed to the handle that the
event carried. -/
theorem C5_slave_speaks_after_master (name pin : List Nat) (so : Server.slave_obj_t)
    (buff : Option (Int → Nat)) (rets : StartRets) (calls : List Server.Call)
    (s : Server.State) (heard : Bool)
    (hrun : Server.run_heard (.init name pin so buff rets :: calls) Server.boot false
      = some (s, heard)) :
    Server.bts_ready s = heard ∧
    (heard = false → ∀ d, (Server.bts_send_str d s).2 = [] ∧ (Server.bts_send_bin d s).2 = []) ∧
    (∀ handle data d,
      Server.bts_ready (Server.esp_spp_cb (.ESP_SPP_DATA_IND_EVT handle data) s).1 = true ∧
      (Server.bts_send_str d (Server.esp_spp_cb (.ESP_SPP_DATA_IND_EVT handle data) s).1).2
        = [Cmd.esp_spp_write handle (strlen d) (memcpy s.spp_data d (strlen d))] ∧
      (Server.bts_send_bin d (Server.esp_spp_cb (.ESP_SPP_DATA_IND_EVT handle data) s).1).2
        = [Cmd.esp_spp_write handle d.length (memcpy s.spp_data d d.length)]) := by
  have hr : s.slave.ready = heard := Server.run_heard_ready _ Server.boot s false heard rfl hrun
  refine ⟨hr, ?_, ?_⟩
  · intro hf d
    rw [hf] at hr
    simp [Server.bts_send_str, Server.bts_send_bin, hr]
  · intro handle data d
    simp [Server.bts_ready, Server.esp_spp_cb, Server.bts_send_str, Server.bts_send_bin]

/-- Witness of C5: `init("SLV", "1234")` with every bring-up call succeeding,
then `send_str("hi")`. -/
theorem C5_slave_speaks_after_master_witness :
    Server.run_heard
      [.init [83, 76, 86] [49, 50, 51, 52] (Server.zero_obj 249) (some fun _ => 0) StartRets.ok,
       .send_str [104, 105]] Server.boot false
      = some ((Server.bts_init (Server.zero_obj 249) (some fun _ => 0) StartRets.ok
                [83, 76, 86] [49, 50, 51, 52] Server.boot).1, false) ∧
    Server.bts_ready (Server.bts_init (Server.zero_obj 249) (some fun _ => 0) StartRets.ok
                [83, 76, 86] [49, 50, 51, 52] Server.boot).1 = false :=
  ⟨rfl, (C5_slave_speaks_after_master [83, 76, 86] [49, 50, 51, 52] (Server.zero_obj 249)
     (some fun _ => 0) StartRets.ok [.send_str [104, 105]] _ false rfl).1⟩

/-! ### Name matching in the master's discovery -/

theorem cstr_append_zero (l t : List Nat) : cstr (l ++ 0 :: t) = cstr l := by
  induction l with
  | nil => simp [cstr]
  | cons a l ih =>
    simp only [cstr] at ih ⊢
    by_cases ha : a = 0
    · simp [ha]
    · simp [List.takeWhile_cons, ha, ih]

theorem cstr_append_self (l t : List Nat) : (cstr l ++ t).take (strlen l) = cstr l := by
  simp [strlen]

theorem cstr_ne_zero (l : List Nat) : ∀ c ∈ cstr l, c ≠ 0 := by
  intro c hc
  have := List.mem_takeWhile_imp hc
  simpa using this

theorem cstr_of_ne_zero (l : List Nat) (h : ∀ c ∈ l, c ≠ 0) : cstr l = l := by
  simp only [cstr]
  rw [List.takeWhile_eq_self_iff]
  intro c hc
  simpa using h c hc

theorem strncmp_eq_zero_iff (n : Nat) (a b : List Nat) (h : strlen b = n) :
    strncmp a b n = 0 ↔ a.take n = cstr b := by
  induction n generalizing a b with
  | zero =>
    have : cstr b = [] := List.length_eq_zero.mp h
    simp [strncmp, this]
  | succ n ih =>
    cases b with
    | nil => simp [strlen, cstr] at h
    | cons c b =>
      by_cases hc : c = 0
      · simp [strlen, cstr, hc] at h
      · have hb : strlen b = n := by
          simp only [strlen, cstr, List.takeWhile_cons] at h ⊢
          simpa [hc] using h
        have hcs : cstr (c :: b) = c :: cstr b := by
          simp [cstr, List.takeWhile_cons, hc]
        rw [hcs]
        cases a with
        | nil =>
          simp only [strncmp, List.headD_nil, List.headD_cons, List.take_nil]
          have : (0 : Nat) ≠ c := fun h => hc h.symm
          simp only [this, ne_eq, not_false_eq_true, if_true]
          constructor
          · intro h0; exfalso; omega
          · intro h0; simp at h0
        | cons x a =>
          simp only [strncmp, List.headD_cons, List.tail_cons, List.take_succ_cons]
          by_cases hx : x = c
          · subst hx
            simp only [ne_eq, not_true_eq_false, if_false, hc]
            rw [ih a b hb]
            simp
          · simp only [ne_eq, hx, not_false_eq_true, if_true]
            constructor
            · intro h0; exfalso; omega
            · intro h0; simp at h0; exact absurd h0.1 hx

theorem Client.get_name_from_eir_some (maxlen : Nat) (e : eir_t) (d bdname : List Nat)
    (n : Nat) (hd : resolved_name e = some d) (hlen : maxlen < bdname.length) :
    (Client.get_name_from_eir maxlen (some e) bdname n).1 = true ∧
    cstr (Client.get_name_from_eir maxlen (some e) bdname n).2.1 = cstr (d.take maxlen) ∧
    (Client.get_name_from_eir maxlen (some e) bdname n).2.1.length = bdname.length := by
  have hres : (match e.cmpl_local_name with
      | some d => some d
      | none => e.short_local_name) = some d := hd
  simp only [Client.get_name_from_eir, hres]
  refine ⟨trivial, ?_, ?_⟩
  · have hk : (if d.length > maxlen then maxlen else d.length) ≤ d.length := by
      split <;> omega
    have hk2 : (if d.length > maxlen then maxlen else d.length) ≤ maxlen := by
      split <;> omega
    have hk3 : d.take (if d.length > maxlen then maxlen else d.length) = d.take maxlen := by
      split
      · rfl
      · rw [List.take_of_length_le (le_refl _), List.take_of_length_le (by omega)]
    generalize (if d.length > maxlen then maxlen else d.length) = k at hk hk2 hk3
    have hdrop : bdname.drop k = bdname.getD k 0 :: bdname.drop (k + 1) := by
      rw [List.getD_eq_getElem _ _ (by omega)]
      exact List.drop_eq_getElem_cons (by omega)
    have : (memcpy bdname d k).set k 0 = d.take k ++ 0 :: bdname.drop (k + 1) := by
      simp only [memcpy]
      rw [List.set_append]
      have hl : (d.take k).length = k := by simp [hk]
      simp only [hl, lt_irrefl, if_false, Nat.sub_self]
      rw [hdrop]
      rfl
    rw [this, cstr_append_zero, hk3]
  · simp only [memcpy, List.length_set, List.length_append, List.length_take, List.length_drop]
    split <;> omega

theorem take_strlen (l : List Nat) : l.take (strlen l) = cstr l := by
  have h := List.takeWhile_append_dropWhile (fun c => c != 0) l
  have e : l.take (strlen l)
      = (List.takeWhile (fun c => c != 0) l ++ List.dropWhile (fun c => c != 0) l).take
          (strlen l) := by rw [h]
  rw [e]
  exact List.take_left' rfl

theorem Client.disc_res_loop_filter (maxlen : Nat) (bda : List Nat)
    (prop : List esp_bt_gap_dev_prop_t) (s : Client.State) :
    Client.disc_res_loop maxlen bda prop s
      = Client.disc_res_loop maxlen bda (prop.filter (fun pr => pr.is_eir)) s := by
  induction prop generalizing s with
  | nil => rfl
  | cons pr rest ih =>
    by_cases hp : pr.is_eir = true
    · simp only [List.filter_cons, hp, if_true, Client.disc_res_loop]
      split
      · split
        · rw [ih]
        · rw [ih]
      · rw [ih]
    · simp only [List.filter_cons, hp, if_false, Client.disc_res_loop, Bool.false_eq_true]
      exact ih s

/-- What the handler does with an inquiry result that has one EIR property,
in a state whose target name was stored by `btm_open`. -/
theorem Client.disc_res_one (maxlen : Nat) (bda target rest d : List Nat) (e : eir_t)
    (pr : esp_bt_gap_dev_prop_t) (s : Client.State)
    (hdev : maxlen < s.slave_device_name.length)
    (hname : s.master.slave_name = cstr target ++ rest)
    (hlen : s.master.slave_name_len = strlen target)
    (hp : pr.is_eir = true) (hv : pr.val = some e) (hd : resolved_name e = some d) :
    (cstr (d.take maxlen) = cstr target →
      (Client.disc_res_loop maxlen bda [pr] s).1.master.slave_addr = bda ∧
      (Client.disc_res_loop maxlen bda [pr] s).2
        = [Cmd.esp_spp_start_discovery bda, Cmd.esp_bt_gap_cancel_discovery]) ∧
    (cstr (d.take maxlen) ≠ cstr target →
      (Client.disc_res_loop maxlen bda [pr] s).1.master = s.master ∧
      (Client.disc_res_loop maxlen bda [pr] s).2 = []) := by
  obtain ⟨g1, g2, -⟩ :=
    Client.get_name_from_eir_some maxlen e d s.slave_device_name s.slave_device_name_len hd hdev
  have hiff : (strlen (Client.get_name_from_eir maxlen (some e) s.slave_device_name
        s.slave_device_name_len).2.1 = s.master.slave_name_len
      ∧ strncmp s.master.slave_name (Client.get_name_from_eir maxlen (some e)
        s.slave_device_name s.slave_device_name_len).2.1 s.master.slave_name_len = 0)
      ↔ cstr (d.take maxlen) = cstr target := by
    rw [hlen, hname]
    constructor
    · rintro ⟨h1, h2⟩
      rw [strncmp_eq_zero_iff _ _ _ h1, cstr_append_self, g2] at h2
      exact h2.symm
    · intro h
      have h1 : strlen (Client.get_name_from_eir maxlen (some e) s.slave_device_name
          s.slave_device_name_len).2.1 = strlen target := by
        simp only [strlen, g2, h]
      refine ⟨h1, ?_⟩
      rw [strncmp_eq_zero_iff _ _ _ h1, cstr_append_self, g2, h]
  simp only [Client.disc_res_loop, hp, hv, if_true, g1]
  constructor
  · intro h
    rw [if_pos (hiff.mpr h)]
    exact ⟨rfl, rfl⟩
  · intro h
    rw [if_neg (fun hc => h (hiff.mp hc))]
    exact ⟨rfl, rfl⟩

theorem Client.btm_open_target (target pin : List Nat) (s : Client.State)
    (h : strlen target < 256) :
    (Client.btm_open target pin s).1.master.slave_name
      = cstr target ++ s.master.slave_name.drop (strlen target) ∧
    (Client.btm_open target pin s).1.master.slave_name_len = strlen target ∧
    (Client.btm_open target pin s).1.slave_device_name = s.slave_device_name ∧
    (Client.btm_open target pin s).1.master.slave_addr = s.master.slave_addr := by
  simp only [Client.btm_open, memcpy, take_strlen]
  exact ⟨trivial, Nat.mod_eq_of_lt h, trivial, trivial⟩

/-- Counterexample to C6 as stated, after `init("M")` and
`open("TARGET", "1234")`.  An inquiry result whose advertised name is the
eight bytes `TARGET\0X`, which differs from the target, makes the handler
issue the service-discovery and the cancel-discovery command and store the
peer address.  An inquiry result that carries the name `TARGET` in two EIR
properties makes the handler issue the service-discovery command twice. -/
theorem C6_counterexample :
    ([84, 65, 82, 71, 69, 84, 0, 88] : List Nat) ≠ [84, 65, 82, 71, 69, 84] ∧
    (Client.esp_bt_gap_cb 248
      (.ESP_BT_GAP_DISC_RES_EVT [1, 2, 3, 4, 5, 6]
        [{ is_eir := true,
           val := some { cmpl_local_name := some [84, 65, 82, 71, 69, 84, 0, 88],
                         short_local_name := none } }])
      (Client.btm_open [84, 65, 82, 71, 69, 84] [49, 50, 51, 52]
        (Client.btm_init (Client.zero_obj 249) (some fun _ => 0) StartRets.ok [77]
          (Client.boot 248)).1).1).2
      = [Cmd.esp_spp_start_discovery [1, 2, 3, 4, 5, 6], Cmd.esp_bt_gap_cancel_discovery] ∧
    (Client.esp_bt_gap_cb 248
      (.ESP_BT_GAP_DISC_RES_EVT [1, 2, 3, 4, 5, 6]
        [{ is_eir := true,
           val := some { cmpl_local_name := some [84, 65, 82, 71, 69, 84, 0, 88],
                         short_local_name := none } }])
      (Client.btm_open [84, 65, 82, 71, 69, 84] [49, 50, 51, 52]
        (Client.btm_init (Client.zero_obj 249) (some fun _ => 0) StartRets.ok [77]
          (Client.boot 248)).1).1).1.master.slave_addr = [1, 2, 3, 4, 5, 6] ∧
    (Client.esp_bt_gap_cb 248
      (.ESP_BT_GAP_DISC_RES_EVT [1, 2, 3, 4, 5, 6]
        [{ is_eir := true,
           val := some { cmpl_local_name := some [84, 65, 82, 71, 69, 84],
                         short_local_name := none } },
         { is_eir := true,
           val := some { cmpl_local_name := some [84, 65, 82, 71, 69, 84],
                         short_local_name := none } }])
      (Client.btm_open [84, 65, 82, 71, 69, 84] [49, 50, 51, 52]
        (Client.btm_init (Client.zero_obj 249) (some fun _ => 0) StartRets.ok [77]
          (Client.boot 248)).1).1).2
      = [Cmd.esp_spp_start_discovery [1, 2, 3, 4, 5, 6], Cmd.esp_bt_gap_cancel_discovery,
         Cmd.esp_spp_start_discovery [1, 2, 3, 4, 5, 6], Cmd.esp_bt_gap_cancel_discovery] := by
  decide

/-- C6 as amended (master discovery match count).  After `open(target, secret)`
with a target shorter than 256 bytes, take an inquiry result with exactly one
EIR property, advertising the name `d`, and read `d` the way the handler does:
cut after `maxlen` = ESP_BT_GAP_MAX_BDNAME_LEN bytes and at its first NUL byte.
If that equals the target, the handler issues the service-discovery command
exactly once, for the result's address, followed by the cancel-discovery
command, and stores the address.  If it differs, the handler issues no
command and leaves the stored peer address unchanged. -/
theorem C6_discovery_match (maxlen : Nat) (s : Client.State) (target secret bda : List Nat)
    (prop : List esp_bt_gap_dev_prop_t) (pr : esp_bt_gap_dev_prop_t) (e : eir_t) (d : List Nat)
    (hdev : maxlen < s.slave_device_name.length) (htl : strlen target < 256)
    (hone : prop.filter (fun q => q.is_eir) = [pr]) (hv : pr.val = some e)
    (hd : resolved_name e = some d) :
    (cstr (d.take maxlen) = cstr target →
      (Client.esp_bt_gap_cb maxlen (.ESP_BT_GAP_DISC_RES_EVT bda prop)
        (Client.btm_open target secret s).1).2
        = [Cmd.esp_spp_start_discovery bda, Cmd.esp_bt_gap_cancel_discovery] ∧
      (Client.esp_bt_gap_cb maxlen (.ESP_BT_GAP_DISC_RES_EVT bda prop)
        (Client.btm_open target secret s).1).1.master.slave_addr = bda) ∧
    (cstr (d.take maxlen) ≠ cstr target →
      (Client.esp_bt_gap_cb maxlen (.ESP_BT_GAP_DISC_RES_EVT bda prop)
        (Client.btm_open target secret s).1).2 = [] ∧
      (Client.esp_bt_gap_cb maxlen (.ESP_BT_GAP_DISC_RES_EVT bda prop)
        (Client.btm_open target secret s).1).1.master.slave_addr = s.master.slave_addr) := by
  obtain ⟨o1, o2, o3, o4⟩ := Client.btm_open_target target secret s htl
  have hp : pr.is_eir = true := by
    have : pr ∈ prop.filter (fun q => q.is_eir) := by rw [hone]; simp
    simpa using (List.mem_filter.mp this).2
  obtain ⟨a1, a2⟩ := Client.disc_res_one maxlen bda target _ d e pr
    (Client.btm_open target secret s).1 (by rw [o3]; exact hdev) o1 o2 hp hv hd
  simp only [Client.esp_bt_gap_cb]
  rw [Client.disc_res_loop_filter, hone]
  constructor
  · intro h
    exact ⟨(a1 h).2, (a1 h).1⟩
  · intro h
    refine ⟨(a2 h).2, ?_⟩
    rw [(a2 h).1, o4]

set_option maxRecDepth 100000 in
/-- Witness of C6: `init("M")`, `open("TARGET", "1234")`, then an inquiry result
named `TARGET`. -/
theorem C6_discovery_match_witness :
    248 < (Client.btm_init (Client.zero_obj 249) (some fun _ => 0) StartRets.ok [77]
      (Client.boot 248)).1.slave_device_name.length ∧
    strlen [84, 65, 82, 71, 69, 84] < 256 ∧
    (Client.esp_bt_gap_cb 248
      (.ESP_BT_GAP_DISC_RES_EVT [1, 2, 3, 4, 5, 6]
        [{ is_eir := false, val := none },
         { is_eir := true,
           val := some { cmpl_local_name := none,
                         short_local_name := some [84, 65, 82, 71, 69, 84] } }])
      (Client.btm_open [84, 65, 82, 71, 69, 84] [49, 50, 51, 52]
        (Client.btm_init (Client.zero_obj 249) (some fun _ => 0) StartRets.ok [77]
          (Client.boot 248)).1).1).2
      = [Cmd.esp_spp_start_discovery [1, 2, 3, 4, 5, 6], Cmd.esp_bt_gap_cancel_discovery] :=
  ⟨by decide, by decide,
   ((C6_discovery_match 248 _ [84, 65, 82, 71, 69, 84] [49, 50, 51, 52] [1, 2, 3, 4, 5, 6]
      [{ is_eir := false, val := none },
       { is_eir := true,
         val := some { cmpl_local_name := none,
                       short_local_name := some [84, 65, 82, 71, 69, 84] } }]
      { is_eir := true,
        val := some { cmpl_local_name := none,
                      short_local_name := some [84, 65, 82, 71, 69, 84] } }
      { cmpl_local_name := none, short_local_name := some [84, 65, 82, 71, 69, 84] }
      [84, 65, 82, 71, 69, 84] (by decide) (by decide) rfl rfl rfl).1 (by decide)).1⟩

/-- Counterexample to C7 as stated: with the target `A` stored by `open`, an
inquiry result whose EIR resolves to the two bytes `A\0` makes the master
record the peer address and start service discovery, although the resolved
name is one byte longer than the target. -/
theorem C7_counterexample :
    ([65, 0] : List Nat).length ≠ ([65] : List Nat).length ∧
    resolved_name { cmpl_local_name := some [65, 0], short_local_name := none } = some [65, 0] ∧
    (Client.esp_bt_gap_cb 248
      (.ESP_BT_GAP_DISC_RES_EVT [9, 8, 7, 6, 5, 4]
        [{ is_eir := true,
           val := some { cmpl_local_name := some [65, 0], short_local_name := none } }])
      (Client.btm_open [65] [48, 48, 48, 48]
        (Client.btm_init (Client.zero_obj 249) (some fun _ => 0) StartRets.ok [77]
          (Client.boot 248)).1).1).1.master.slave_addr = [9, 8, 7, 6, 5, 4] ∧
    Cmd.esp_spp_start_discovery [9, 8, 7, 6, 5, 4] ∈
      (Client.esp_bt_gap_cb 248
        (.ESP_BT_GAP_DISC_RES_EVT [9, 8, 7, 6, 5, 4]
          [{ is_eir := true,
             val := some { cmpl_local_name := some [65, 0], short_local_name := none } }])
        (Client.btm_open [65] [48, 48, 48, 48]
          (Client.btm_init (Client.zero_obj 249) (some fun _ => 0) StartRets.ok [77]
            (Client.boot 248)).1).1).2 := by
  decide

/-- C7 as amended (name match).  For every target stored by `open` (shorter
than 256 bytes) and every byte string `d` that the EIR of an inquiry result
resolves to (complete name, else short name), the master records the peer
address and starts service discovery if and only if `d`, cut after `maxlen` =
ESP_BT_GAP_MAX_BDNAME_LEN bytes and at its first NUL byte, equals the stored
target.  For a target and a resolved name without NUL bytes, the name no
longer than `maxlen`, that is: if and only if the two are the same byte
string. -/
theorem C7_name_match (maxlen : Nat) (s : Client.State) (target secret bda : List Nat)
    (e : eir_t) (d : List Nat)
    (hdev : maxlen < s.slave_device_name.length) (htl : strlen target < 256)
    (hd : resolved_name e = some d) :
    ((Cmd.esp_spp_start_discovery bda ∈
        (Client.esp_bt_gap_cb maxlen
          (.ESP_BT_GAP_DISC_RES_EVT bda [{ is_eir := true, val := some e }])
          (Client.btm_open target secret s).1).2 ∧
      (Client.esp_bt_gap_cb maxlen
          (.ESP_BT_GAP_DISC_RES_EVT bda [{ is_eir := true, val := some e }])
          (Client.btm_open target secret s).1).1.master.slave_addr = bda)
      ↔ cstr (d.take maxlen) = cstr target) ∧
    ((∀ c ∈ target, c ≠ 0) → (∀ c ∈ d, c ≠ 0) → d.length ≤ maxlen →
      ((Cmd.esp_spp_start_discovery bda ∈
          (Client.esp_bt_gap_cb maxlen
            (.ESP_BT_GAP_DISC_RES_EVT bda [{ is_eir := true, val := some e }])
            (Client.btm_open target secret s).1).2 ∧
        (Client.esp_bt_gap_cb maxlen
            (.ESP_BT_GAP_DISC_RES_EVT bda [{ is_eir := true, val := some e }])
            (Client.btm_open target secret s).1).1.master.slave_addr = bda)
        ↔ d = target)) := by
  obtain ⟨o1, o2, o3, o4⟩ := Client.btm_open_target target secret s htl
  obtain ⟨a1, a2⟩ := Client.disc_res_one maxlen bda target _ d e
    { is_eir := true, val := some e }
    (Client.btm_open target secret s).1 (by rw [o3]; exact hdev) o1 o2 rfl rfl hd
  have key : (Cmd.esp_spp_start_discovery bda ∈
        (Client.esp_bt_gap_cb maxlen
          (.ESP_BT_GAP_DISC_RES_EVT bda [{ is_eir := true, val := some e }])
          (Client.btm_open target secret s).1).2 ∧
      (Client.esp_bt_gap_cb maxlen
          (.ESP_BT_GAP_DISC_RES_EVT bda [{ is_eir := true, val := some e }])
          (Client.btm_open target secret s).1).1.master.slave_addr = bda)
      ↔ cstr (d.take maxlen) = cstr target := by
    simp only [Client.esp_bt_gap_cb]
    constructor
    · rintro ⟨hm, -⟩
      by_contra hne
      rw [(a2 hne).2] at hm
      simp at hm
    · intro h
      rw [(a1 h).2, (a1 h).1]
      simp
  refine ⟨key, ?_⟩
  intro ht hdz hdl
  rw [key, List.take_of_length_le hdl, cstr_of_ne_zero d hdz, cstr_of_ne_zero target ht]

set_option maxRecDepth 100000 in
/-- Witness of C7: the target `AB` and a result whose EIR resolves to `AB`. -/
theorem C7_name_match_witness :
    248 < (Client.btm_init (Client.zero_obj 249) (some fun _ => 0) StartRets.ok [77]
      (Client.boot 248)).1.slave_device_name.length ∧
    strlen [65, 66] < 256 ∧
    resolved_name { cmpl_local_name := some [65, 66], short_local_name := none }
      = some [65, 66] ∧
    (Client.esp_bt_gap_cb 248
      (.ESP_BT_GAP_DISC_RES_EVT [9, 8, 7, 6, 5, 4]
        [{ is_eir := true,
           val := some { cmpl_local_name := some [65, 66], short_local_name := none } }])
      (Client.btm_open [65, 66] [48, 48, 48, 48]
        (Client.btm_init (Client.zero_obj 249) (some fun _ => 0) StartRets.ok [77]
          (Client.boot 248)).1).1).1.master.slave_addr = [9, 8, 7, 6, 5, 4] :=
  ⟨by decide, by decide, rfl,
   (((C7_name_match 248 _ [65, 66] [48, 48, 48, 48] [9, 8, 7, 6, 5, 4]
      { cmpl_local_name := some [65, 66], short_local_name := none } [65, 66]
      (by decide) (by decide) rfl).2 (by decide) (by decide) (by decide)).mpr rfl).2⟩

/-! ### Re-initialisation and sending -/

set_option maxRecDepth 100000 in
/-- C8 (re-init overwrites state) fails on the code for the name.  After
`init("AB")`, a channel-open event, `deinit()` and `init("C")`, the name array
holds `CB` followed by NUL, because `memcpy(master->name, mn, strlen(mn))`
copies no terminator: the name registered with the stack by the second `init`
is `CB`, not `C`.  The slave keeps the tail of the old name and of the old PIN
in the same way (`init("AB", "1234")`, `deinit()`, `init("C", "9")` registers
the name `CB` and the PIN `9234`).  The other parts of the claim hold at this
input: `ready()` is false, both handles are zero and `data()` is 0. -/
theorem C8_reinit_keeps_tail_of_old_name :
    ((Client.run 248
        [.init [65, 66] (Client.zero_obj 249) (some fun _ => 0) StartRets.ok,
         .spp (.ESP_SPP_OPEN_EVT 5),
         .deinit,
         .init [67] (Client.zero_obj 249) (some fun _ => 0) StartRets.ok]
        (Client.boot 248)).map
      (fun s => (cstr s.master.name, s.master.ready, s.master.handle, s.master.c_handle,
        Client.btm_data s.pipe)))
      = some ([67, 66], false, 0, 0, 0) ∧
    ((Client.run 248
        [.init [65, 66] (Client.zero_obj 249) (some fun _ => 0) StartRets.ok,
         .spp (.ESP_SPP_OPEN_EVT 5),
         .deinit]
        (Client.boot 248)).map
      (fun s => (Client.btm_init (Client.zero_obj 249) (some fun _ => 0) StartRets.ok [67]
        s).2.1.drop 9))
      = some [Cmd.esp_bt_dev_set_device_name [67, 66],
              Cmd.esp_bt_gap_set_scan_mode .ESP_BT_CONNECTABLE .ESP_BT_GENERAL_DISCOVERABLE] ∧
    ((Server.run
        [.init [65, 66] [49, 50, 51, 52] (Server.zero_obj 249) (some fun _ => 0) StartRets.ok,
         .spp (.ESP_SPP_DATA_IND_EVT 5 [1]),
         .deinit,
         .init [67] [57] (Server.zero_obj 249) (some fun _ => 0) StartRets.ok]
        Server.boot).map
      (fun s => (cstr s.slave.name, s.slave.pin_code.take 4, s.slave.ready, s.slave.handle,
        Server.bts_data s.pipe)))
      = some ([67, 66], [57, 50, 51, 52], false, 0, 0) := by
  refine ⟨by decide, by decide, by decide⟩

theorem Client.btm_send_bin_ready (data : List Nat) (s : Client.State)
    (h : s.master.ready = true) :
    (Client.btm_send_bin data s).2
      = [Cmd.esp_spp_write s.master.handle data.length (data ++ s.spp_data.drop data.length)] ∧
    (Client.btm_send_bin data s).1.spp_data = data ++ s.spp_data.drop data.length := by
  simp [Client.btm_send_bin, h, memcpy]

theorem Client.btm_send_str_ready (data : List Nat) (s : Client.State)
    (h : s.master.ready = true) :
    (Client.btm_send_str data s).2
      = [Cmd.esp_spp_write s.master.handle (strlen data)
          (cstr data ++ s.spp_data.drop (strlen data))] ∧
    (Client.btm_send_str data s).1.spp_data = cstr data ++ s.spp_data.drop (strlen data) := by
  simp [Client.btm_send_str, h, memcpy, take_strlen]

theorem Server.bts_send_bin_ready (data : List Nat) (s : Server.State)
    (h : s.slave.ready = true) :
    (Server.bts_send_bin data s).2
      = [Cmd.esp_spp_write s.slave.handle data.length (data ++ s.spp_data.drop data.length)] ∧
    (Server.bts_send_bin data s).1.spp_data = data ++ s.spp_data.drop data.length := by
  simp [Server.bts_send_bin, h, memcpy]

theorem Server.bts_send_str_ready (data : List Nat) (s : Server.State)
    (h : s.slave.ready = true) :
    (Server.bts_send_str data s).2
      = [Cmd.esp_spp_write s.slave.handle (strlen data)
          (cstr data ++ s.spp_data.drop (strlen data))] ∧
    (Server.bts_send_str data s).1.spp_data = cstr data ++ s.spp_data.drop (strlen data) := by
  simp [Server.bts_send_str, h, memcpy, take_strlen]

theorem cstr_replicate_one (n : Nat) : cstr (List.replicate n 1) = List.replicate n 1 :=
  cstr_of_ne_zero _ (fun c hc => by rw [List.eq_of_mem_replicate hc]; decide)

/-- C9 (send truncation) fails on the code.  With the channel open, a payload
of 991 bytes is copied whole into `spp_data`, which was declared with
ESP_SPP_MAX_MTU = 990 bytes, and the write command is given the length 991:
nothing is cut to 990 bytes.  So for `send_bin` and `send_str`, in the master
and in the slave. -/
theorem C9_send_copies_whole_payload :
    ESP_SPP_MAX_MTU = 990 ∧ Client.connected.spp_data.length = 990 ∧
    Server.connected.spp_data.length = 990 ∧
    (Client.btm_send_bin (List.replicate 991 1) Client.connected).2
      = [Cmd.esp_spp_write 5 991 (List.replicate 991 1)] ∧
    (Client.btm_send_bin (List.replicate 991 1) Client.connected).1.spp_data.length = 991 ∧
    (Client.btm_send_str (List.replicate 991 1) Client.connected).2
      = [Cmd.esp_spp_write 5 991 (List.replicate 991 1)] ∧
    (Client.btm_send_str (List.replicate 991 1) Client.connected).1.spp_data.length = 991 ∧
    (Server.bts_send_bin (List.replicate 991 1) Server.connected).2
      = [Cmd.esp_spp_write 5 991 (List.replicate 991 1)] ∧
    (Server.bts_send_str (List.replicate 991 1) Server.connected).2
      = [Cmd.esp_spp_write 5 991 (List.replicate 991 1)] := by
  have hsm : Client.connected.spp_data = List.replicate 990 0 := rfl
  have hss : Server.connected.spp_data = List.replicate 990 0 := rfl
  have hmr : Client.connected.master.ready = true := rfl
  have hsr : Server.connected.slave.ready = true := rfl
  have hmh : Client.connected.master.handle = 5 := rfl
  have hsh : Server.connected.slave.handle = 5 := rfl
  obtain ⟨b1, b2⟩ := Client.btm_send_bin_ready (List.replicate 991 1) Client.connected hmr
  obtain ⟨c1, c2⟩ := Client.btm_send_str_ready (List.replicate 991 1) Client.connected hmr
  obtain ⟨d1, -⟩ := Server.bts_send_bin_ready (List.replicate 991 1) Server.connected hsr
  obtain ⟨e1, -⟩ := Server.bts_send_str_ready (List.replicate 991 1) Server.connected hsr
  have hl : strlen (List.replicate 991 1) = 991 := by
    simp only [strlen, cstr_replicate_one, List.length_replicate]
  have hdrop : (List.replicate 990 0 : List Nat).drop 991 = [] := by
    apply List.drop_of_length_le
    rw [List.length_replicate]
    decide
  simp only [List.length_replicate] at b1 b2 d1
  simp only [hl, cstr_replicate_one] at c1 c2 e1
  rw [hsm, hdrop, List.append_nil] at b1 b2 c1 c2
  rw [hss, hdrop, List.append_nil] at d1 e1
  rw [hmh] at b1 c1
  rw [hsh] at d1 e1
  refine ⟨rfl, ?_, ?_, b1, ?_, c1, ?_, d1, e1⟩
  · rw [hsm, List.length_replicate]
  · rw [hss, List.length_replicate]
  · rw [b2, List.length_replicate]
  · rw [c2, List.length_replicate]

/-! ### Readiness and handles -/

/-- The inquiry-result loop leaves the readiness flag, the handles and the
storage flag alone. -/
theorem Client.disc_res_loop_frame (maxlen : Nat) (bda : List Nat)
    (prop : List esp_bt_gap_dev_prop_t) (s : Client.State) :
    (Client.disc_res_loop maxlen bda prop s).1.master.ready = s.master.ready ∧
    (Client.disc_res_loop maxlen bda prop s).1.master.handle = s.master.handle ∧
    (Client.disc_res_loop maxlen bda prop s).1.master.c_handle = s.master.c_handle ∧
    (Client.disc_res_loop maxlen bda prop s).1.master_storage = s.master_storage := by
  induction prop generalizing s with
  | nil => exact ⟨rfl, rfl, rfl, rfl⟩
  | cons pr rest ih =>
    simp only [Client.disc_res_loop]
    split
    · split
      · split
        · exact ih _
        · exact ih _
      · exact ih _
    · exact ih _

theorem Client.btm_init_inv (mo : Client.master_obj_t) (buff : Option (Int → Nat))
    (rets : StartRets) (name : List Nat) (s : Client.State)
    (h : s.master_storage = true ∧ (s.master.ready = true ↔ s.master.c_handle ≠ 0)
      ∧ (s.master.ready = true → s.master.handle ≠ 0)) :
    (Client.btm_init mo buff rets name s).1.master_storage = true ∧
    ((Client.btm_init mo buff rets name s).1.master.ready = true
      ↔ (Client.btm_init mo buff rets name s).1.master.c_handle ≠ 0) ∧
    ((Client.btm_init mo buff rets name s).1.master.ready = true
      → (Client.btm_init mo buff rets name s).1.master.handle ≠ 0) := by
  unfold Client.btm_init
  simp only [h.1]
  split_ifs <;> first | exact h | contradiction | simp

theorem Client.master_step_inv (maxlen : Nat) (s : Client.State) (c : Client.Call)
    (r : Client.State × List Cmd) (hc : c.handles_nonzero = true)
    (h : s.master_storage = true ∧ (s.master.ready = true ↔ s.master.c_handle ≠ 0)
      ∧ (s.master.ready = true → s.master.handle ≠ 0))
    (hs : Client.step maxlen s c = some r) :
    r.1.master_storage = true ∧ (r.1.master.ready = true ↔ r.1.master.c_handle ≠ 0)
      ∧ (r.1.master.ready = true → r.1.master.handle ≠ 0) := by
  cases c with
  | init name mo buff rets =>
    simp only [Client.step] at hs
    split at hs
    · simp only [Option.some.injEq] at hs
      rw [← hs]
      exact Client.btm_init_inv mo buff rets name s h
    · simp at hs
  | spp event =>
    simp only [Client.step, Option.some.injEq] at hs
    subst hs
    cases event <;>
      simp_all [Client.esp_spp_cb, Client.Call.handles_nonzero, handle_nonzero]
    split <;> simp_all
  | gap event =>
    simp only [Client.step, Option.some.injEq] at hs
    subst hs
    cases event with
    | ESP_BT_GAP_DISC_RES_EVT bda prop =>
      obtain ⟨f1, f2, f3, f4⟩ := Client.disc_res_loop_frame maxlen bda prop s
      simp only [Client.esp_bt_gap_cb, f1, f2, f3, f4]
      exact h
    | ESP_BT_GAP_AUTH_CMPL_EVT success =>
      simp only [Client.esp_bt_gap_cb]
      split <;> exact h
    | ESP_BT_GAP_PIN_REQ_EVT bda m =>
      simp only [Client.esp_bt_gap_cb]
      split <;> exact h
    | _ => exact h
  | close =>
    simp only [Client.step, Client.btm_close, Option.some.injEq] at hs
    subst hs
    by_cases hr : s.master.ready = true
    · simp [hr, h.1]
    · simp only [hr, if_false]; exact h
  | deinit =>
    simp only [Client.step, Client.btm_deinit, Option.some.injEq] at hs
    subst hs
    by_cases hu : s.master_up = false
    · simp only [hu, if_true]; exact h
    · simp [hu, h.1]
  | send_str data =>
    simp only [Client.step, Client.btm_send_str, Option.some.injEq] at hs
    subst hs
    split <;> exact h
  | send_bin data =>
    simp only [Client.step, Client.btm_send_bin, Option.some.injEq] at hs
    subst hs
    split <;> exact h
  | open_ name pin =>
    simp only [Client.step, Client.btm_open, Option.some.injEq] at hs
    subst hs
    exact h
  | up => simp only [Client.step, Option.some.injEq] at hs; subst hs; exact h
  | data => simp only [Client.step, Option.some.injEq] at hs; subst hs; exact h
  | ready => simp only [Client.step, Option.some.injEq] at hs; subst hs; exact h
  | get_str count => simp only [Client.step, Option.some.injEq] at hs; subst hs; exact h
  | get_bin count => simp only [Client.step, Option.some.injEq] at hs; subst hs; exact h
  | contend held => simp only [Client.step, Option.some.injEq] at hs; subst hs; exact h

theorem Client.master_run_inv (maxlen : Nat) (calls : List Client.Call) (s s' : Client.State)
    (hc : ∀ c ∈ calls, c.handles_nonzero = true)
    (h : s.master_storage = true ∧ (s.master.ready = true ↔ s.master.c_handle ≠ 0)
      ∧ (s.master.ready = true → s.master.handle ≠ 0))
    (hr : Client.run maxlen calls s = some s') :
    s'.master_storage = true ∧ (s'.master.ready = true ↔ s'.master.c_handle ≠ 0)
      ∧ (s'.master.ready = true → s'.master.handle ≠ 0) := by
  induction calls generalizing s with
  | nil =>
    simp only [Client.run, Option.some.injEq] at hr
    rw [← hr]; exact h
  | cons c cs ih =>
    simp only [Client.run] at hr
    cases hs : Client.step maxlen s c with
    | none => rw [hs] at hr; simp at hr
    | some r =>
      rw [hs] at hr
      exact ih r.1 (fun c' hc' => hc c' (List.mem_cons_of_mem _ hc'))
        (Client.master_step_inv maxlen s c r (hc c (List.mem_cons_self _ _)) h hs) hr

theorem Server.bts_init_inv (so : Server.slave_obj_t) (buff : Option (Int → Nat))
    (rets : StartRets) (name pin : List Nat) (s : Server.State)
    (h : s.slave_storage = true ∧ (s.slave.ready = true ↔ s.slave.handle ≠ 0)) :
    (Server.bts_init so buff rets name pin s).1.slave_storage = true ∧
    ((Server.bts_init so buff rets name pin s).1.slave.ready = true
      ↔ (Server.bts_init so buff rets name pin s).1.slave.handle ≠ 0) := by
  unfold Server.bts_init
  simp only [h.1]
  split_ifs <;> first | exact h | contradiction | simp

theorem Server.slave_step_inv (s : Server.State) (c : Server.Call)
    (r : Server.State × List Cmd) (hc : c.handles_nonzero = true)
    (h : s.slave_storage = true ∧ (s.slave.ready = true ↔ s.slave.handle ≠ 0))
    (hs : Server.step s c = some r) :
    r.1.slave_storage = true ∧ (r.1.slave.ready = true ↔ r.1.slave.handle ≠ 0) := by
  cases c with
  | init name pin so buff rets =>
    simp only [Server.step] at hs
    split at hs
    · simp only [Option.some.injEq] at hs
      rw [← hs]
      exact Server.bts_init_inv so buff rets name pin s h
    · simp at hs
  | spp event =>
    simp only [Server.step, Option.some.injEq] at hs
    subst hs
    cases event <;>
      simp_all [Server.esp_spp_cb, Server.Call.handles_nonzero, handle_nonzero]
  | gap event =>
    simp only [Server.step, Option.some.injEq] at hs
    subst hs
    cases event with
    | ESP_BT_GAP_AUTH_CMPL_EVT success =>
      simp only [Server.esp_bt_gap_cb]
      split <;> exact h
    | _ => exact h
  | close =>
    simp only [Server.step, Server.bts_close, Option.some.injEq] at hs
    subst hs
    by_cases hr : s.slave.ready = true
    · simp [hr, h.1]
    · simp only [hr, if_false]; exact h
  | deinit =>
    simp only [Server.step, Server.bts_deinit, Option.some.injEq] at hs
    subst hs
    by_cases hu : s.slave_up = false
    · simp only [hu, if_true]; exact h
    · simp [hu, h.1]
  | send_str data =>
    simp only [Server.step, Server.bts_send_str, Option.some.injEq] at hs
    subst hs
    split <;> exact h
  | send_bin data =>
    simp only [Server.step, Server.bts_send_bin, Option.some.injEq] at hs
    subst hs
    split <;> exact h
  | up => simp only [Server.step, Option.some.injEq] at hs; subst hs; exact h
  | data => simp only [Server.step, Option.some.injEq] at hs; subst hs; exact h
  | ready => simp only [Server.step, Option.some.injEq] at hs; subst hs; exact h
  | get_str count => simp only [Server.step, Option.some.injEq] at hs; subst hs; exact h
  | get_bin count => simp only [Server.step, Option.some.injEq] at hs; subst hs; exact h
  | contend held => simp only [Server.step, Option.some.injEq] at hs; subst hs; exact h

theorem Server.slave_run_inv (calls : List Server.Call) (s s' : Server.State)
    (hc : ∀ c ∈ calls, c.handles_nonzero = true)
    (h : s.slave_storage = true ∧ (s.slave.ready = true ↔ s.slave.handle ≠ 0))
    (hr : Server.run calls s = some s') :
    s'.slave_storage = true ∧ (s'.slave.ready = true ↔ s'.slave.handle ≠ 0) := by
  induction calls generalizing s with
  | nil =>
    simp only [Server.run, Option.some.injEq] at hr
    rw [← hr]; exact h
  | cons c cs ih =>
    simp only [Server.run] at hr
    cases hs : Server.step s c with
    | none => rw [hs] at hr; simp at hr
    | some r =>
      rw [hs] at hr
      exact ih r.1 (fun c' hc' => hc c' (List.mem_cons_of_mem _ hc'))
        (Server.slave_step_inv s c r (hc c (List.mem_cons_self _ _)) h hs) hr

/-- Counterexample to C10 as stated: after `init("M")`, a channel-open event
with handle 5, `close()` and a write-complete event with handle 5 (every
handle reported is non-zero), the master is not ready while its stored write
handle is 5. -/
theorem C10_counterexample :
    (∀ c ∈ ([.spp (.ESP_SPP_OPEN_EVT 5), .close, .spp (.ESP_SPP_WRITE_EVT 5)] : List Client.Call),
      c.handles_nonzero = true) ∧
    (Client.run 248
      [.init [77] (Client.zero_obj 249) (some fun _ => 0) StartRets.ok,
       .spp (.ESP_SPP_OPEN_EVT 5), .close, .spp (.ESP_SPP_WRITE_EVT 5)]
      (Client.boot 248)).map (fun s => (s.master.ready, s.master.handle, s.master.c_handle))
      = some (false, 5, 0) := by
  constructor
  · intro c hc
    simp only [List.mem_cons, List.mem_singleton, List.not_mem_nil, or_false] at hc
    rcases hc with h | h | h <;> subst h <;> rfl
  · decide

theorem Client.master_first_init_inv (maxlen : Nat) (mo : Client.master_obj_t)
    (buff : Option (Int → Nat)) (rets : StartRets) (name : List Nat)
    (hmo : mo.ready = false ∧ mo.handle = 0 ∧ mo.c_handle = 0) :
    (Client.btm_init mo buff rets name (Client.boot maxlen)).1.master_storage = true ∧
    ((Client.btm_init mo buff rets name (Client.boot maxlen)).1.master.ready = true
      ↔ (Client.btm_init mo buff rets name (Client.boot maxlen)).1.master.c_handle ≠ 0) ∧
    ((Client.btm_init mo buff rets name (Client.boot maxlen)).1.master.ready = true
      → (Client.btm_init mo buff rets name (Client.boot maxlen)).1.master.handle ≠ 0) := by
  unfold Client.btm_init
  simp only [Client.boot]
  split_ifs <;> first | contradiction | simp [hmo.1, hmo.2.2]

theorem Server.slave_first_init_inv (so : Server.slave_obj_t)
    (buff : Option (Int → Nat)) (rets : StartRets) (name pin : List Nat)
    (hso : so.handle = 0) :
    (Server.bts_init so buff rets name pin Server.boot).1.slave_storage = true ∧
    ((Server.bts_init so buff rets name pin Server.boot).1.slave.ready = true
      ↔ (Server.bts_init so buff rets name pin Server.boot).1.slave.handle ≠ 0) := by
  unfold Server.bts_init
  simp only [Server.boot]
  split_ifs <;> first | contradiction | simp [hso]

/-- C10 as amended (readiness invariant).  Take any run of the master that
starts with `init` on the freshly booted module, with a zero-filled object
from the allocator, is not aborted, and in which the stack reports only
non-zero handles.  In the state reached, `ready` is true if and only if the
connection handle `c_handle` is non-zero, and whenever `ready` is true the
write handle `handle` is non-zero (`handle` can stay non-zero while `ready` is
false).  In any such run of the slave, `ready` is true if and only if `handle`
is non-zero. -/
theorem C10_readiness (maxlen : Nat) (name : List Nat) (mo : Client.master_obj_t)
    (buff : Option (Int → Nat)) (rets : StartRets) (calls : List Client.Call) (s : Client.State)
    (sname spin : List Nat) (so : Server.slave_obj_t) (sbuff : Option (Int → Nat))
    (srets : StartRets) (scalls : List Server.Call) (ss : Server.State)
    (hmo : mo.ready = false ∧ mo.handle = 0 ∧ mo.c_handle = 0)
    (hc : ∀ c ∈ calls, c.handles_nonzero = true)
    (hrun : Client.run maxlen (.init name mo buff rets :: calls) (Client.boot maxlen) = some s)
    (hso : so.handle = 0)
    (hsc : ∀ c ∈ scalls, c.handles_nonzero = true)
    (hsrun : Server.run (.init sname spin so sbuff srets :: scalls) Server.boot = some ss) :
    (s.master.ready = true ↔ s.master.c_handle ≠ 0) ∧
    (s.master.ready = true → s.master.handle ≠ 0) ∧
    (ss.slave.ready = true ↔ ss.slave.handle ≠ 0) := by
  have hm : s.master_storage = true ∧ (s.master.ready = true ↔ s.master.c_handle ≠ 0)
      ∧ (s.master.ready = true → s.master.handle ≠ 0) := by
    simp only [Client.run] at hrun
    cases hs : Client.step maxlen (Client.boot maxlen) (.init name mo buff rets) with
    | none => rw [hs] at hrun; simp at hrun
    | some r =>
      rw [hs] at hrun
      simp only [Client.step] at hs
      split at hs
      · simp only [Option.some.injEq] at hs
        refine Client.master_run_inv maxlen calls r.1 s hc ?_ hrun
        rw [← hs]
        exact Client.master_first_init_inv maxlen mo buff rets name hmo
      · simp at hs
  have hsl : ss.slave_storage = true ∧ (ss.slave.ready = true ↔ ss.slave.handle ≠ 0) := by
    simp only [Server.run] at hsrun
    cases hs : Server.step Server.boot (.init sname spin so sbuff srets) with
    | none => rw [hs] at hsrun; simp at hsrun
    | some r =>
      rw [hs] at hsrun
      simp only [Server.step] at hs
      split at hs
      · simp only [Option.some.injEq] at hs
        refine Server.slave_run_inv scalls r.1 ss hsc ?_ hsrun
        rw [← hs]
        exact Server.slave_first_init_inv so sbuff srets sname spin hso
      · simp at hs
  exact ⟨hm.2.1, hm.2.2, hsl.2⟩

set_option maxRecDepth 100000 in
/-- Witness of C10: the master after `init("M")` and a channel-open event, the
slave after `init("S", "1")` and a data-indication event. -/
theorem C10_readiness_witness :
    (Client.zero_obj 249).ready = false ∧ (Client.zero_obj 249).handle = 0 ∧
    (Client.zero_obj 249).c_handle = 0 ∧ (Server.zero_obj 249).handle = 0 ∧
    Client.run 248 [.init [77] (Client.zero_obj 249) (some fun _ => 0) StartRets.ok,
      .spp (.ESP_SPP_OPEN_EVT 5)] (Client.boot 248) = some Client.connected ∧
    Server.run [.init [83] [49] (Server.zero_obj 249) (some fun _ => 0) StartRets.ok,
      .spp (.ESP_SPP_DATA_IND_EVT 5 [1])] Server.boot = some Server.connected ∧
    ((Client.connected.master.ready = true ↔ Client.connected.master.c_handle ≠ 0) ∧
     (Client.connected.master.ready = true → Client.connected.master.handle ≠ 0) ∧
     (Server.connected.slave.ready = true ↔ Server.connected.slave.handle ≠ 0)) :=
  ⟨rfl, rfl, rfl, rfl, rfl, rfl,
   C10_readiness 248 [77] (Client.zero_obj 249) (some fun _ => 0) StartRets.ok
     [.spp (.ESP_SPP_OPEN_EVT 5)] Client.connected
     [83] [49] (Server.zero_obj 249) (some fun _ => 0) StartRets.ok
     [.spp (.ESP_SPP_DATA_IND_EVT 5 [1])] Server.connected
     ⟨rfl, rfl, rfl⟩
     (by intro c hc; simp only [List.mem_singleton] at hc; subst hc; rfl) rfl rfl
     (by intro c hc; simp only [List.mem_singleton] at hc; subst hc; rfl) rfl⟩

/-! ### Reading from the pipe -/

theorem head_eq_tail_of_unread_nil (p : pipe_obj_t) (h : PipeWf p) (hu : unread p = []) :
    p.head = p.tail := by
  have hlen := unread_length p h
  have hs := h.size_eq
  obtain ⟨-, h1, h2, h3, h4⟩ := h
  rw [hs] at h2 h4
  rw [hu] at hlen
  simp only [List.length_nil, Nat.cast_zero] at hlen
  omega

theorem Client.get_loop_empty (n : Nat) (p : pipe_obj_t) (h : p.head = p.tail) :
    Client.get_loop n p = (p, []) := by
  cases n with
  | zero => rfl
  | succ n => simp [Client.get_loop, h]

theorem Client.btm_get_bin_free (count : Int) (p : pipe_obj_t) (h : PipeWf p)
    (hc : count > 0) (hl : p.lock = false) :
    (unread p = [] → Client.btm_get_bin count p = (p, none)) ∧
    (unread p ≠ [] → Client.btm_get_bin count p
      = ((Client.get_loop count.toNat p).1, some ((unread p).take count.toNat))) := by
  obtain ⟨-, -, -, -, -, i6, -⟩ := Client.get_loop_spec count.toNat p h
  have hn : 0 < count.toNat := by omega
  constructor
  · intro hu
    have he := Client.get_loop_empty count.toNat p (head_eq_tail_of_unread_nil p h hu)
    simp [Client.btm_get_bin, xSemaphoreTake, hc, hl, he]
  · intro hu
    have hpos : 0 < (Client.get_loop count.toNat p).2.length := by
      rw [i6, List.length_take]
      have : 0 < (unread p).length := List.length_pos.mpr hu
      omega
    simp only [Client.btm_get_bin, xSemaphoreTake, hc, hl, Bool.not_false, if_true, hpos]
    rw [i6]

/-- C11 (read result).  For every pipe state satisfying the index invariant,
holding the unread bytes `unread p`, and every requested count: `get_bin` and
`get_str` return no data exactly when the count is not positive or the mutex
is held elsewhere or nothing is unread, and then leave the pipe as it was;
otherwise they return the oldest min (count, a) unread bytes in order, these
are gone from the pipe, and `data()` afterwards is a - min (count, a).  The
four read functions of master and slave agree. -/
theorem C11_read_result (count : Int) (p : pipe_obj_t) (h : PipeWf p) :
    ((Client.btm_get_bin count p).2 = none
      ↔ (count ≤ 0 ∨ p.lock = true ∨ (unread p).length = 0)) ∧
    ((Client.btm_get_bin count p).2 = none → (Client.btm_get_bin count p).1 = p) ∧
    ((Client.btm_get_bin count p).2 ≠ none →
      (Client.btm_get_bin count p).2 = some ((unread p).take count.toNat) ∧
      ((unread p).take count.toNat).length = min count.toNat (unread p).length ∧
      unread (Client.btm_get_bin count p).1 = (unread p).drop count.toNat ∧
      (Client.btm_get_bin count p).1.tail = p.tail ∧
      (Client.btm_get_bin count p).1.buffer = p.buffer ∧
      Client.btm_data (Client.btm_get_bin count p).1
        = ((unread p).length : Int) - (min count.toNat (unread p).length : Nat)) ∧
    Client.btm_get_str count p = Client.btm_get_bin count p ∧
    Server.bts_get_bin count p = Client.btm_get_bin count p ∧
    Server.bts_get_str count p = Client.btm_get_bin count p := by
  obtain ⟨i1, i2, i3, i4, i5, i6, i7⟩ := Client.get_loop_spec count.toNat p h
  have hnil : (unread p).length = 0 ↔ unread p = [] := List.length_eq_zero
  have key : (Client.btm_get_bin count p).2 = none
      ↔ (count ≤ 0 ∨ p.lock = true ∨ (unread p).length = 0) := by
    by_cases hc : count > 0
    · by_cases hl : p.lock = true
      · simp [Client.btm_get_bin, xSemaphoreTake, hc, hl]
      · have hl' : p.lock = false := by simpa using hl
        obtain ⟨f1, f2⟩ := Client.btm_get_bin_free count p h hc hl'
        by_cases hu : unread p = []
        · rw [f1 hu]
          exact ⟨fun _ => Or.inr (Or.inr (hnil.mpr hu)), fun _ => rfl⟩
        · rw [f2 hu]
          constructor
          · intro hx; simp at hx
          · rintro (h1 | h2 | h3)
            · omega
            · exact absurd h2 hl
            · exact absurd (hnil.mp h3) hu
    · have : (Client.btm_get_bin count p).2 = none := by simp [Client.btm_get_bin, hc]
      exact ⟨fun _ => Or.inl (by omega), fun _ => this⟩
  refine ⟨key, ?_, ?_, rfl, Server.bts_get_bin_eq count p, ?_⟩
  · intro hnone
    rcases key.mp hnone with h1 | h2 | h3
    · have hc : ¬ count > 0 := by omega
      simp [Client.btm_get_bin, hc]
    · by_cases hc : count > 0
      · simp [Client.btm_get_bin, xSemaphoreTake, hc, h2]
      · simp [Client.btm_get_bin, hc]
    · by_cases hc : count > 0
      · by_cases hl : p.lock = true
        · simp [Client.btm_get_bin, xSemaphoreTake, hc, hl]
        · have hl' : p.lock = false := by simpa using hl
          rw [(Client.btm_get_bin_free count p h hc hl').1 (hnil.mp h3)]
      · simp [Client.btm_get_bin, hc]
  · intro hsome
    have hk : ¬ (count ≤ 0 ∨ p.lock = true ∨ (unread p).length = 0) := fun hx => hsome (key.mpr hx)
    have hc : count > 0 := by
      by_contra hc
      exact hk (Or.inl (by omega))
    have hl : p.lock = false := by
      by_contra hl
      exact hk (Or.inr (Or.inl (by simpa using hl)))
    have hu : unread p ≠ [] := fun hu => hk (Or.inr (Or.inr (hnil.mpr hu)))
    rw [(Client.btm_get_bin_free count p h hc hl).2 hu]
    refine ⟨rfl, by simp, i7, i2, i3, ?_⟩
    rw [Client.btm_data_free _ i1 (i4.trans hl), i7, List.length_drop]
    omega
  · rw [Server.bts_get_str_eq]
    rfl

/-- Witness of C11: three bytes arrive at the pipe that `init` creates and two
are read. -/
theorem C11_read_result_witness :
    PipeWf (Client.data_ind_pipe [10, 20, 30] (new_pipe (some fun _ => 0))).1 ∧
    (Client.btm_get_bin 2 (Client.data_ind_pipe [10, 20, 30] (new_pipe (some fun _ => 0))).1).2
      = some [10, 20] ∧
    ((Client.btm_get_bin 2 (Client.data_ind_pipe [10, 20, 30] (new_pipe (some fun _ => 0))).1).2
        = none
      ↔ ((2 : Int) ≤ 0 ∨
        (Client.data_ind_pipe [10, 20, 30] (new_pipe (some fun _ => 0))).1.lock = true ∨
        (unread (Client.data_ind_pipe [10, 20, 30] (new_pipe (some fun _ => 0))).1).length = 0)) :=
  ⟨(Client.data_ind_loop_spec [10, 20, 30] _ (new_pipe_wf _)).1, by decide,
   (C11_read_result 2 (Client.data_ind_pipe [10, 20, 30] (new_pipe (some fun _ => 0))).1
     (Client.data_ind_loop_spec [10, 20, 30] _ (new_pipe_wf _)).1).1⟩

/-! ### Sending, init and the lock -/

set_option maxRecDepth 100000 in
/-- Counterexample to C12 as stated: with the channel open (write handle 5),
`send_str` of the three bytes `a\0b`, a payload shorter than the staging area,
issues a write of length 1 carrying the byte `a` only. -/
theorem C12_counterexample :
    Client.connected.master.ready = true ∧
    ([97, 0, 98] : List Nat).length ≤ ESP_SPP_MAX_MTU ∧
    (Client.btm_send_str [97, 0, 98] Client.connected).2
      = [Cmd.esp_spp_write 5 1 (97 :: List.replicate 989 0)] := by
  decide

/-- C12 as amended (send gating).  When `ready` is false, `send_str` and
`send_bin` issue no command and return the state as it was.  When `ready` is
true they issue exactly one write command, addressed to the current write
handle; its length and bytes are those of the payload for `send_bin`, and those
of the payload up to its first NUL byte for `send_str` (so the whole payload
when it has no NUL byte); the staging area is the only part of the state that
changes, and it keeps its size when the payload is no longer than it.  For the
master and for the slave. -/
theorem C12_send_gating (d : List Nat) (sm : Client.State) (ss : Server.State) :
    (sm.master.ready = false →
      Client.btm_send_str d sm = (sm, []) ∧ Client.btm_send_bin d sm = (sm, [])) ∧
    (sm.master.ready = true →
      Client.btm_send_str d sm
        = ({ sm with spp_data := cstr d ++ sm.spp_data.drop (strlen d) },
           [Cmd.esp_spp_write sm.master.handle (strlen d)
             (cstr d ++ sm.spp_data.drop (strlen d))]) ∧
      Client.btm_send_bin d sm
        = ({ sm with spp_data := d ++ sm.spp_data.drop d.length },
           [Cmd.esp_spp_write sm.master.handle d.length (d ++ sm.spp_data.drop d.length)])) ∧
    (ss.slave.ready = false →
      Server.bts_send_str d ss = (ss, []) ∧ Server.bts_send_bin d ss = (ss, [])) ∧
    (ss.slave.ready = true →
      Server.bts_send_str d ss
        = ({ ss with spp_data := cstr d ++ ss.spp_data.drop (strlen d) },
           [Cmd.esp_spp_write ss.slave.handle (strlen d)
             (cstr d ++ ss.spp_data.drop (strlen d))]) ∧
      Server.bts_send_bin d ss
        = ({ ss with spp_data := d ++ ss.spp_data.drop d.length },
           [Cmd.esp_spp_write ss.slave.handle d.length (d ++ ss.spp_data.drop d.length)])) ∧
    (∀ area : List Nat,
      (cstr d ++ area.drop (strlen d)).take (strlen d) = cstr d ∧
      (d ++ area.drop d.length).take d.length = d ∧
      (strlen d ≤ area.length → (cstr d ++ area.drop (strlen d)).length = area.length) ∧
      (d.length ≤ area.length → (d ++ area.drop d.length).length = area.length)) ∧
    ((∀ c ∈ d, c ≠ 0) → cstr d = d ∧ strlen d = d.length) := by
  refine ⟨?_, ?_, ?_, ?_, ?_, ?_⟩
  · intro h
    simp [Client.btm_send_str, Client.btm_send_bin, h]
  · intro h
    simp [Client.btm_send_str, Client.btm_send_bin, h, memcpy, take_strlen]
  · intro h
    simp [Server.bts_send_str, Server.bts_send_bin, h]
  · intro h
    simp [Server.bts_send_str, Server.bts_send_bin, h, memcpy, take_strlen]
  · intro area
    refine ⟨cstr_append_self d _, by simp, ?_, ?_⟩
    · intro hle
      simp only [List.length_append, List.length_drop, strlen] at hle ⊢
      omega
    · intro hle
      simp only [List.length_append, List.length_drop]
      omega
  · intro h
    have := cstr_of_ne_zero d h
    exact ⟨this, by rw [strlen, this]⟩

set_option maxRecDepth 100000 in
/-- Witness of C12: with the channel open (write handle 5), `send_bin` of three
bytes. -/
theorem C12_send_gating_witness :
    Client.connected.master.ready = true ∧
    (Client.btm_send_bin [1, 2, 3] Client.connected).2
      = [Cmd.esp_spp_write 5 3 ([1, 2, 3] ++ List.replicate 987 0)] :=
  ⟨rfl, by
    rw [((C12_send_gating [1, 2, 3] Client.connected Server.connected).2.1 rfl).2]
    decide⟩

theorem Client.btm_start_aborts (r : StartRets) (m : Client.master_obj_t) :
    (Client.btm_start r m).2 = r.aborts := by
  simp only [Client.btm_start, StartRets.aborts, apply_ite Prod.snd, ite_self]
  by_cases h1 : r.nvs_flash_init = .ESP_ERR_NVS_NO_FREE_PAGES
      ∨ r.nvs_flash_init = .ESP_ERR_NVS_NEW_VERSION_FOUND
  · by_cases h2 : r.nvs_flash_erase = .ESP_OK <;>
    by_cases h3 : r.nvs_flash_init2 = .ESP_OK <;>
    by_cases h4 : r.esp_bt_controller_mem_release = .ESP_OK <;>
    simp [h1, h2, h3, h4]
  · by_cases h3 : r.nvs_flash_init = .ESP_OK <;>
    by_cases h4 : r.esp_bt_controller_mem_release = .ESP_OK <;>
    simp [h1, h3, h4]

theorem Server.bts_start_aborts (r : StartRets) (m : Server.slave_obj_t) :
    (Server.bts_start r m).2 = r.aborts := by
  simp only [Server.bts_start, StartRets.aborts, apply_ite Prod.snd, ite_self]
  by_cases h1 : r.nvs_flash_init = .ESP_ERR_NVS_NO_FREE_PAGES
      ∨ r.nvs_flash_init = .ESP_ERR_NVS_NEW_VERSION_FOUND
  · by_cases h2 : r.nvs_flash_erase = .ESP_OK <;>
    by_cases h3 : r.nvs_flash_init2 = .ESP_OK <;>
    by_cases h4 : r.esp_bt_controller_mem_release = .ESP_OK <;>
    simp [h1, h2, h3, h4]
  · by_cases h3 : r.nvs_flash_init = .ESP_OK <;>
    by_cases h4 : r.esp_bt_controller_mem_release = .ESP_OK <;>
    simp [h1, h3, h4]

/-- Counterexample to C13 as stated: on the freshly booted module (not up), an
`init` during which `nvs_flash_init` fails does not return true: the
`ESP_ERROR_CHECK` in the bring-up aborts the program.  For the master and for
the slave. -/
theorem C13_counterexample :
    (Client.boot 248).master_up = false ∧
    (Client.btm_init (Client.zero_obj 249) (some fun _ => 0)
      { StartRets.ok with nvs_flash_init := .ESP_FAIL 1 } [77] (Client.boot 248)).2.2 = none ∧
    Server.boot.slave_up = false ∧
    (Server.bts_init (Server.zero_obj 249) (some fun _ => 0)
      { StartRets.ok with nvs_flash_init := .ESP_FAIL 1 } [83] [49] Server.boot).2.2 = none := by
  decide

/-- C13 as amended (init lifecycle gate).  `init` returns false if and only if
the role is already up, and then it changes nothing and issues no command.
When the role is not up and no `ESP_ERROR_CHECK` of the bring-up aborts the
program, `init` returns true and the role is up afterwards; it is aborted
exactly when such a check fails.  For the master and for the slave. -/
theorem C13_init_gate (mo : Client.master_obj_t) (so : Server.slave_obj_t)
    (buff : Option (Int → Nat)) (r : StartRets) (name pin : List Nat)
    (sm : Client.State) (ss : Server.State) :
    ((Client.btm_init mo buff r name sm).2.2 = some false ↔ sm.master_up = true) ∧
    (sm.master_up = true → Client.btm_init mo buff r name sm = (sm, [], some false)) ∧
    (sm.master_up = false → r.aborts = false →
      (Client.btm_init mo buff r name sm).2.2 = some true ∧
      (Client.btm_init mo buff r name sm).1.master_up = true) ∧
    (sm.master_up = false → r.aborts = true →
      (Client.btm_init mo buff r name sm).2.2 = none) ∧
    ((Server.bts_init so buff r name pin ss).2.2 = some false ↔ ss.slave_up = true) ∧
    (ss.slave_up = true → Server.bts_init so buff r name pin ss = (ss, [], some false)) ∧
    (ss.slave_up = false → r.aborts = false →
      (Server.bts_init so buff r name pin ss).2.2 = some true ∧
      (Server.bts_init so buff r name pin ss).1.slave_up = true) ∧
    (ss.slave_up = false → r.aborts = true →
      (Server.bts_init so buff r name pin ss).2.2 = none) := by
  refine ⟨?_, ?_, ?_, ?_, ?_, ?_, ?_, ?_⟩
  · by_cases hup : sm.master_up = true
    · simp [Client.btm_init, hup]
    · by_cases ha : r.aborts = true
      · simp [Client.btm_init, hup, Client.btm_start_aborts, ha]
      · simp [Client.btm_init, hup, Client.btm_start_aborts, ha]
  · intro hup
    simp [Client.btm_init, hup]
  · intro hup ha
    simp [Client.btm_init, hup, Client.btm_start_aborts, ha]
  · intro hup ha
    simp [Client.btm_init, hup, Client.btm_start_aborts, ha]
  · by_cases hup : ss.slave_up = true
    · simp [Server.bts_init, hup]
    · by_cases ha : r.aborts = true
      · simp [Server.bts_init, hup, Server.bts_start_aborts, ha]
      · simp [Server.bts_init, hup, Server.bts_start_aborts, ha]
  · intro hup
    simp [Server.bts_init, hup]
  · intro hup ha
    simp [Server.bts_init, hup, Server.bts_start_aborts, ha]
  · intro hup ha
    simp [Server.bts_init, hup, Server.bts_start_aborts, ha]

set_option maxRecDepth 100000 in
/-- Witness of C13: the first `init` of master and slave with every bring-up
call succeeding returns true and brings the role up; a second `init` returns
false. -/
theorem C13_init_gate_witness :
    (Client.boot 248).master_up = false ∧ StartRets.ok.aborts = false ∧
    (Client.btm_init (Client.zero_obj 249) (some fun _ => 0) StartRets.ok [77]
      (Client.boot 248)).2.2 = some true ∧
    (Client.btm_init (Client.zero_obj 249) (some fun _ => 0) StartRets.ok [77]
      (Client.btm_init (Client.zero_obj 249) (some fun _ => 0) StartRets.ok [77]
        (Client.boot 248)).1).2.2 = some false :=
  ⟨rfl, rfl,
   ((C13_init_gate (Client.zero_obj 249) (Server.zero_obj 249) (some fun _ => 0) StartRets.ok
      [77] [49] (Client.boot 248) Server.boot).2.2.1 rfl rfl).1,
   (C13_init_gate (Client.zero_obj 249) (Server.zero_obj 249) (some fun _ => 0) StartRets.ok
      [77] [49]
      (Client.btm_init (Client.zero_obj 249) (some fun _ => 0) StartRets.ok [77]
        (Client.boot 248)).1 Server.boot).1.mpr rfl⟩

/-- C14 (lock-contention no-op).  For every pipe state, while the mutex is held
elsewhere a data-indication event leaves the pipe as it was and stores none of
its payload, `data()` returns 0, and `get_str` / `get_bin` return no data and
leave the pipe as it was.  For the master and for the slave. -/
theorem C14_lock_contention (p : pipe_obj_t) (items : List Nat) (count : Int)
    (hl : p.lock = true) :
    Client.data_ind_pipe items p = (p, 0) ∧ Client.btm_data p = 0 ∧
    Client.btm_get_str count p = (p, none) ∧ Client.btm_get_bin count p = (p, none) ∧
    Server.data_ind_pipe items p = (p, 0) ∧ Server.bts_data p = 0 ∧
    Server.bts_get_str count p = (p, none) ∧ Server.bts_get_bin count p = (p, none) ∧
    (∀ (sm : Client.State) (handle : Nat), sm.pipe = p →
      (Client.esp_spp_cb (.ESP_SPP_DATA_IND_EVT handle items) sm).1.pipe = p) ∧
    (∀ (ss : Server.State) (handle : Nat), ss.pipe = p →
      (Server.esp_spp_cb (.ESP_SPP_DATA_IND_EVT handle items) ss).1.pipe = p) := by
  have h1 : Client.data_ind_pipe items p = (p, 0) := by
    simp [Client.data_ind_pipe, xSemaphoreTake, hl]
  have h2 : Client.btm_data p = 0 := by simp [Client.btm_data, xSemaphoreTake, hl]
  have h3 : Client.btm_get_bin count p = (p, none) := by
    simp [Client.btm_get_bin, xSemaphoreTake, hl]
  rw [Server.data_ind_pipe_eq, Server.bts_data_eq, Server.bts_get_str_eq,
    Server.bts_get_bin_eq, Client.btm_get_str_eq_bin]
  refine ⟨h1, h2, h3, h3, h1, h2, h3, h3, ?_, ?_⟩
  · intro sm handle hp
    simp only [Client.esp_spp_cb, hp, h1]
  · intro ss handle hp
    simp only [Server.esp_spp_cb, hp, Server.data_ind_pipe_eq, h1]

/-- Witness of C14: the pipe that `init` creates, holding two bytes, with the
mutex taken by another task. -/
theorem C14_lock_contention_witness :
    ({ (Client.data_ind_pipe [1, 2] (new_pipe (some fun _ => 0))).1 with lock := true }
      : pipe_obj_t).lock = true ∧
    Client.btm_data
      { (Client.data_ind_pipe [1, 2] (new_pipe (some fun _ => 0))).1 with lock := true } = 0 ∧
    (Client.btm_get_bin 2
      { (Client.data_ind_pipe [1, 2] (new_pipe (some fun _ => 0))).1 with lock := true }).2
      = none :=
  ⟨rfl,
   (C14_lock_contention
     { (Client.data_ind_pipe [1, 2] (new_pipe (some fun _ => 0))).1 with lock := true }
     [9] 2 rfl).2.1,
   by rw [(C14_lock_contention
     { (Client.data_ind_pipe [1, 2] (new_pipe (some fun _ => 0))).1 with lock := true }
     [9] 2 rfl).2.2.2.1]⟩

/-! ### Reset of the pipe on re-initialisation -/

theorem Client.btm_init_again (mo : Client.master_obj_t) (buff : Option (Int → Nat))
    (r : StartRets) (name : List Nat) (s : Client.State)
    (hst : s.master_storage = true) (hup : s.master_up = false) :
    (Client.btm_init mo buff r name s).1.pipe = { s.pipe with head := 0, tail := 0 } ∧
    (Client.btm_init mo buff r name s).1.master_storage = true := by
  unfold Client.btm_init
  simp only [hst, hup]
  split_ifs <;> first | contradiction | exact ⟨rfl, rfl⟩

theorem Server.bts_init_again (so : Server.slave_obj_t) (buff : Option (Int → Nat))
    (r : StartRets) (name pin : List Nat) (s : Server.State)
    (hst : s.slave_storage = true) (hup : s.slave_up = false) :
    (Server.bts_init so buff r name pin s).1.pipe = { s.pipe with head := 0, tail := 0 } ∧
    (Server.bts_init so buff r name pin s).1.slave_storage = true := by
  unfold Server.bts_init
  simp only [hst, hup]
  split_ifs <;> first | contradiction | exact ⟨rfl, rfl⟩

theorem reset_pipe_reads (p : pipe_obj_t) (n : Int) :
    Client.btm_data { p with head := 0, tail := 0 } = 0 ∧
    Client.btm_get_bin n { p with head := 0, tail := 0 }
      = ({ p with head := 0, tail := 0 }, none) := by
  constructor
  · simp only [Client.btm_data]
    split <;> simp
  · have he := Client.get_loop_empty n.toNat { p with head := 0, tail := 0 } rfl
    simp only [Client.btm_get_bin, he]
    split_ifs <;> first | rfl | simp_all

/-- C15 (reset).  For every prior state of the pipe, an `init` called while
the storage is allocated and the role is not up sets head = tail = 0 and
leaves the rest of the pipe alone, so that `data()` then returns 0 and
`get_bin(n)` and `get_str(n)` return no data for every `n`, whoever holds the
mutex.  A `deinit()` and a second such `init` give the same pipe state again.
For the master and for the slave. -/
theorem C15_reset (mo mo2 : Client.master_obj_t) (so so2 : Server.slave_obj_t)
    (buff buff2 : Option (Int → Nat)) (r r2 : StartRets) (name name2 pin pin2 : List Nat)
    (sm : Client.State) (ss : Server.State)
    (hmst : sm.master_storage = true) (hmup : sm.master_up = false)
    (hsst : ss.slave_storage = true) (hsup : ss.slave_up = false) :
    (Client.btm_init mo buff r name sm).1.pipe = { sm.pipe with head := 0, tail := 0 } ∧
    Client.btm_data (Client.btm_init mo buff r name sm).1.pipe = 0 ∧
    (∀ n, (Client.btm_get_bin n (Client.btm_init mo buff r name sm).1.pipe).2 = none ∧
          (Client.btm_get_str n (Client.btm_init mo buff r name sm).1.pipe).2 = none) ∧
    (Client.btm_init mo2 buff2 r2 name2
        (Client.btm_deinit (Client.btm_init mo buff r name sm).1).1).1.pipe
      = (Client.btm_init mo buff r name sm).1.pipe ∧
    (Server.bts_init so buff r name pin ss).1.pipe = { ss.pipe with head := 0, tail := 0 } ∧
    Server.bts_data (Server.bts_init so buff r name pin ss).1.pipe = 0 ∧
    (∀ n, (Server.bts_get_bin n (Server.bts_init so buff r name pin ss).1.pipe).2 = none ∧
          (Server.bts_get_str n (Server.bts_init so buff r name pin ss).1.pipe).2 = none) ∧
    (Server.bts_init so2 buff2 r2 name2 pin2
        (Server.bts_deinit (Server.bts_init so buff r name pin ss).1).1).1.pipe
      = (Server.bts_init so buff r name pin ss).1.pipe := by
  obtain ⟨m1, m2⟩ := Client.btm_init_again mo buff r name sm hmst hmup
  obtain ⟨s1, s2⟩ := Server.bts_init_again so buff r name pin ss hsst hsup
  have mtwice : (Client.btm_init mo2 buff2 r2 name2
        (Client.btm_deinit (Client.btm_init mo buff r name sm).1).1).1.pipe
      = (Client.btm_init mo buff r name sm).1.pipe := by
    have hd : (Client.btm_deinit (Client.btm_init mo buff r name sm).1).1.master_storage = true
        ∧ (Client.btm_deinit (Client.btm_init mo buff r name sm).1).1.master_up = false
        ∧ (Client.btm_deinit (Client.btm_init mo buff r name sm).1).1.pipe
          = (Client.btm_init mo buff r name sm).1.pipe := by
      simp only [Client.btm_deinit]
      split
      · rename_i hf; exact ⟨m2, hf, rfl⟩
      · exact ⟨m2, rfl, rfl⟩
    rw [(Client.btm_init_again mo2 buff2 r2 name2 _ hd.1 hd.2.1).1, hd.2.2, m1]
  have stwice : (Server.bts_init so2 buff2 r2 name2 pin2
        (Server.bts_deinit (Server.bts_init so buff r name pin ss).1).1).1.pipe
      = (Server.bts_init so buff r name pin ss).1.pipe := by
    have hd : (Server.bts_deinit (Server.bts_init so buff r name pin ss).1).1.slave_storage = true
        ∧ (Server.bts_deinit (Server.bts_init so buff r name pin ss).1).1.slave_up = false
        ∧ (Server.bts_deinit (Server.bts_init so buff r name pin ss).1).1.pipe
          = (Server.bts_init so buff r name pin ss).1.pipe := by
      simp only [Server.bts_deinit]
      split
      · rename_i hf; exact ⟨s2, hf, rfl⟩
      · exact ⟨s2, rfl, rfl⟩
    rw [(Server.bts_init_again so2 buff2 r2 name2 pin2 _ hd.1 hd.2.1).1, hd.2.2, s1]
  refine ⟨m1, ?_, ?_, mtwice, s1, ?_, ?_, stwice⟩
  · rw [m1]; exact (reset_pipe_reads sm.pipe 0).1
  · intro n
    rw [m1, Client.btm_get_str_eq_bin, (reset_pipe_reads sm.pipe n).2]
    exact ⟨rfl, rfl⟩
  · rw [s1, Server.bts_data_eq]; exact (reset_pipe_reads ss.pipe 0).1
  · intro n
    rw [s1, Server.bts_get_str_eq, Server.bts_get_bin_eq, Client.btm_get_str_eq_bin,
      (reset_pipe_reads ss.pipe n).2]
    exact ⟨rfl, rfl⟩

set_option maxRecDepth 100000 in
/-- Witness of C15: master and slave with three unread bytes in the pipe, shut
down by `deinit()`, are initialised again. -/
theorem C15_reset_witness :
    (Client.btm_deinit
      (Client.esp_spp_cb (.ESP_SPP_DATA_IND_EVT 5 [1, 2, 3]) Client.connected).1).1.master_storage
      = true ∧
    (Client.btm_deinit
      (Client.esp_spp_cb (.ESP_SPP_DATA_IND_EVT 5 [1, 2, 3]) Client.connected).1).1.master_up
      = false ∧
    (Client.btm_deinit
      (Client.esp_spp_cb (.ESP_SPP_DATA_IND_EVT 5 [1, 2, 3]) Client.connected).1).1.pipe.tail
      = 3 ∧
    (Server.bts_deinit Server.connected).1.slave_storage = true ∧
    (Server.bts_deinit Server.connected).1.slave_up = false ∧
    Client.btm_data (Client.btm_init (Client.zero_obj 249) none StartRets.ok [78]
      (Client.btm_deinit
        (Client.esp_spp_cb (.ESP_SPP_DATA_IND_EVT 5 [1, 2, 3]) Client.connected).1).1).1.pipe
      = 0 :=
  ⟨rfl, rfl, by decide, rfl, rfl,
   (C15_reset (Client.zero_obj 249) (Client.zero_obj 249) (Server.zero_obj 249)
     (Server.zero_obj 249) none none StartRets.ok StartRets.ok [78] [78] [49] [49]
     (Client.btm_deinit
       (Client.esp_spp_cb (.ESP_SPP_DATA_IND_EVT 5 [1, 2, 3]) Client.connected).1).1
     (Server.bts_deinit Server.connected).1 rfl rfl rfl rfl).2.1⟩

/-! ### Later inquiry results -/

theorem Client.get_name_from_eir_length (maxlen : Nat) (eir : Option eir_t)
    (bdname : List Nat) (n : Nat) (hlen : maxlen < bdname.length) :
    (Client.get_name_from_eir maxlen eir bdname n).2.1.length = bdname.length := by
  cases eir with
  | none => rfl
  | some e =>
    cases hd : resolved_name e with
    | none =>
      have hres : (match e.cmpl_local_name with
          | some d => some d
          | none => e.short_local_name) = none := hd
      simp only [Client.get_name_from_eir, hres]
    | some d => exact (Client.get_name_from_eir_some maxlen e d bdname n hd hlen).2.2

/-- The inquiry-result loop leaves the stored target name alone and keeps the
size of the array `slave_device_name`. -/
theorem Client.disc_res_loop_target (maxlen : Nat) (bda : List Nat)
    (prop : List esp_bt_gap_dev_prop_t) (s : Client.State)
    (hdev : maxlen < s.slave_device_name.length) :
    (Client.disc_res_loop maxlen bda prop s).1.master.slave_name = s.master.slave_name ∧
    (Client.disc_res_loop maxlen bda prop s).1.master.slave_name_len = s.master.slave_name_len ∧
    (Client.disc_res_loop maxlen bda prop s).1.master.slave_pin_code = s.master.slave_pin_code ∧
    (Client.disc_res_loop maxlen bda prop s).1.slave_device_name.length
      = s.slave_device_name.length := by
  induction prop generalizing s with
  | nil => exact ⟨rfl, rfl, rfl, rfl⟩
  | cons pr rest ih =>
    have hl := Client.get_name_from_eir_length maxlen pr.val s.slave_device_name
      s.slave_device_name_len hdev
    simp only [Client.disc_res_loop]
    split
    · split
      · split
        · obtain ⟨a, b, c, d⟩ := ih
            { s with
              slave_device_name := (Client.get_name_from_eir maxlen pr.val s.slave_device_name
                s.slave_device_name_len).2.1,
              slave_device_name_len := (Client.get_name_from_eir maxlen pr.val
                s.slave_device_name s.slave_device_name_len).2.2,
              master := { s.master with slave_addr := bda } }
            (by show maxlen < (Client.get_name_from_eir maxlen pr.val s.slave_device_name
                  s.slave_device_name_len).2.1.length
                rw [hl]; exact hdev)
          exact ⟨a, b, c, d.trans hl⟩
        · obtain ⟨a, b, c, d⟩ := ih
            { s with
              slave_device_name := (Client.get_name_from_eir maxlen pr.val s.slave_device_name
                s.slave_device_name_len).2.1,
              slave_device_name_len := (Client.get_name_from_eir maxlen pr.val
                s.slave_device_name s.slave_device_name_len).2.2 }
            (by show maxlen < (Client.get_name_from_eir maxlen pr.val s.slave_device_name
                  s.slave_device_name_len).2.1.length
                rw [hl]; exact hdev)
          exact ⟨a, b, c, d.trans hl⟩
      · obtain ⟨a, b, c, d⟩ := ih
          { s with
            slave_device_name := (Client.get_name_from_eir maxlen pr.val s.slave_device_name
              s.slave_device_name_len).2.1,
            slave_device_name_len := (Client.get_name_from_eir maxlen pr.val
              s.slave_device_name s.slave_device_name_len).2.2 }
          (by show maxlen < (Client.get_name_from_eir maxlen pr.val s.slave_device_name
                s.slave_device_name_len).2.1.length
              rw [hl]; exact hdev)
        exact ⟨a, b, c, d.trans hl⟩
    · exact ih s hdev

theorem Client.inquiry_results_target (maxlen : Nat)
    (evs : List (List Nat × List esp_bt_gap_dev_prop_t)) (s : Client.State)
    (hdev : maxlen < s.slave_device_name.length) :
    (Client.inquiry_results maxlen evs s).master.slave_name = s.master.slave_name ∧
    (Client.inquiry_results maxlen evs s).master.slave_name_len = s.master.slave_name_len ∧
    maxlen < (Client.inquiry_results maxlen evs s).slave_device_name.length := by
  induction evs generalizing s with
  | nil => exact ⟨rfl, rfl, hdev⟩
  | cons ev evs ih =>
    obtain ⟨a, b, -, d⟩ := Client.disc_res_loop_target maxlen ev.1 ev.2 s hdev
    simp only [Client.inquiry_results, Client.esp_bt_gap_cb]
    obtain ⟨a', b', d'⟩ := ih (Client.disc_res_loop maxlen ev.1 ev.2 s).1 (by rw [d]; exact hdev)
    exact ⟨a'.trans a, b'.trans b, d'⟩

/-- Counterexample to C16 as stated: after `init("M")`, `open("T", "1234")` and
an inquiry result named `T` from address 1.., which matches, a second
inquiry result named `T` from address 9.. makes the handler issue the
service-discovery and cancel-discovery commands again and replace the recorded
peer address. -/
theorem C16_counterexample :
    (Client.inquiry_results 248
      [([1, 2, 3, 4, 5, 6],
        [{ is_eir := true, val := some { cmpl_local_name := some [84],
                                          short_local_name := none } }])]
      (Client.btm_open [84] [49, 50, 51, 52]
        (Client.btm_init (Client.zero_obj 249) (some fun _ => 0) StartRets.ok [77]
          (Client.boot 248)).1).1).master.slave_addr = [1, 2, 3, 4, 5, 6] ∧
    (Client.esp_bt_gap_cb 248
      (.ESP_BT_GAP_DISC_RES_EVT [9, 8, 7, 6, 5, 4]
        [{ is_eir := true, val := some { cmpl_local_name := some [84],
                                          short_local_name := none } }])
      (Client.inquiry_results 248
        [([1, 2, 3, 4, 5, 6],
          [{ is_eir := true, val := some { cmpl_local_name := some [84],
                                            short_local_name := none } }])]
        (Client.btm_open [84] [49, 50, 51, 52]
          (Client.btm_init (Client.zero_obj 249) (some fun _ => 0) StartRets.ok [77]
            (Client.boot 248)).1).1)).2
      = [Cmd.esp_spp_start_discovery [9, 8, 7, 6, 5, 4], Cmd.esp_bt_gap_cancel_discovery] ∧
    (Client.esp_bt_gap_cb 248
      (.ESP_BT_GAP_DISC_RES_EVT [9, 8, 7, 6, 5, 4]
        [{ is_eir := true, val := some { cmpl_local_name := some [84],
                                          short_local_name := none } }])
      (Client.inquiry_results 248
        [([1, 2, 3, 4, 5, 6],
          [{ is_eir := true, val := some { cmpl_local_name := some [84],
                                            short_local_name := none } }])]
        (Client.btm_open [84] [49, 50, 51, 52]
          (Client.btm_init (Client.zero_obj 249) (some fun _ => 0) StartRets.ok [77]
            (Client.boot 248)).1).1)).1.master.slave_addr = [9, 8, 7, 6, 5, 4] := by
  decide

/-- C16 as amended (later inquiry results).  After `open(target, secret)` with
a target shorter than 256 bytes and any inquiry results of the scan, matched or
not, a later inquiry result with exactly one EIR property whose name (cut
after `maxlen` bytes and at its first NUL byte) differs from the target issues
no stack command and leaves the recorded peer address unchanged; one whose
name equals the target is handled like a first match: the service-discovery
and cancel-discovery commands are issued and its address is recorded. -/
theorem C16_later_results (maxlen : Nat) (s : Client.State) (target secret bda : List Nat)
    (evs : List (List Nat × List esp_bt_gap_dev_prop_t))
    (prop : List esp_bt_gap_dev_prop_t) (pr : esp_bt_gap_dev_prop_t) (e : eir_t) (d : List Nat)
    (hdev : maxlen < s.slave_device_name.length) (htl : strlen target < 256)
    (hone : prop.filter (fun q => q.is_eir) = [pr]) (hv : pr.val = some e)
    (hd : resolved_name e = some d) :
    (cstr (d.take maxlen) ≠ cstr target →
      (Client.esp_bt_gap_cb maxlen (.ESP_BT_GAP_DISC_RES_EVT bda prop)
        (Client.inquiry_results maxlen evs (Client.btm_open target secret s).1)).2 = [] ∧
      (Client.esp_bt_gap_cb maxlen (.ESP_BT_GAP_DISC_RES_EVT bda prop)
        (Client.inquiry_results maxlen evs (Client.btm_open target secret s).1)).1.master.slave_addr
        = (Client.inquiry_results maxlen evs
            (Client.btm_open target secret s).1).master.slave_addr) ∧
    (cstr (d.take maxlen) = cstr target →
      (Client.esp_bt_gap_cb maxlen (.ESP_BT_GAP_DISC_RES_EVT bda prop)
        (Client.inquiry_results maxlen evs (Client.btm_open target secret s).1)).2
        = [Cmd.esp_spp_start_discovery bda, Cmd.esp_bt_gap_cancel_discovery] ∧
      (Client.esp_bt_gap_cb maxlen (.ESP_BT_GAP_DISC_RES_EVT bda prop)
        (Client.inquiry_results maxlen evs (Client.btm_open target secret s).1)).1.master.slave_addr
        = bda) := by
  obtain ⟨o1, o2, o3, -⟩ := Client.btm_open_target target secret s htl
  obtain ⟨t1, t2, t3⟩ := Client.inquiry_results_target maxlen evs
    (Client.btm_open target secret s).1 (by rw [o3]; exact hdev)
  have hp : pr.is_eir = true := by
    have : pr ∈ prop.filter (fun q => q.is_eir) := by rw [hone]; simp
    simpa using (List.mem_filter.mp this).2
  obtain ⟨a1, a2⟩ := Client.disc_res_one maxlen bda target _ d e pr
    (Client.inquiry_results maxlen evs (Client.btm_open target secret s).1) t3
    (t1.trans o1) (t2.trans o2) hp hv hd
  simp only [Client.esp_bt_gap_cb]
  rw [Client.disc_res_loop_filter, hone]
  constructor
  · intro h
    refine ⟨(a2 h).2, ?_⟩
    rw [(a2 h).1]
  · intro h
    exact ⟨(a1 h).2, (a1 h).1⟩

set_option maxRecDepth 100000 in
/-- Witness of C16: after a first match, a result named `X` for the target `T`. -/
theorem C16_later_results_witness :
    248 < (Client.btm_init (Client.zero_obj 249) (some fun _ => 0) StartRets.ok [77]
      (Client.boot 248)).1.slave_device_name.length ∧
    strlen [84] < 256 ∧
    (Client.esp_bt_gap_cb 248
      (.ESP_BT_GAP_DISC_RES_EVT [9, 8, 7, 6, 5, 4]
        [{ is_eir := true, val := some { cmpl_local_name := some [88],
                                          short_local_name := none } }])
      (Client.inquiry_results 248
        [([1, 2, 3, 4, 5, 6],
          [{ is_eir := true, val := some { cmpl_local_name := some [84],
                                            short_local_name := none } }])]
        (Client.btm_open [84] [49, 50, 51, 52]
          (Client.btm_init (Client.zero_obj 249) (some fun _ => 0) StartRets.ok [77]
            (Client.boot 248)).1).1)).2 = [] :=
  ⟨by decide, by decide,
   ((C16_later_results 248 _ [84] [49, 50, 51, 52] [9, 8, 7, 6, 5, 4]
      [([1, 2, 3, 4, 5, 6],
        [{ is_eir := true, val := some { cmpl_local_name := some [84],
                                          short_local_name := none } }])]
      [{ is_eir := true, val := some { cmpl_local_name := some [88],
                                        short_local_name := none } }]
      { is_eir := true, val := some { cmpl_local_name := some [88],
                                      short_local_name := none } }
      { cmpl_local_name := some [88], short_local_name := none } [88]
      (by decide) (by decide) rfl rfl rfl).1 (by decide)).1⟩

/-! ### Closing and shutting down -/

/-- C17 (close).  For every connection state: if `ready` is true, `close()`
issues exactly one disconnect command (the master for the connection handle
`c_handle`, which is the handle stored at channel open also after later events
have moved the write handle; the slave for its current handle), sets `ready`
to false and clears the handles, and changes nothing else; if `ready` is false
it issues no command and changes nothing.  The pipe is unchanged either way. -/
theorem C17_close (sm : Client.State) (ss : Server.State) (h h2 : Nat) (data : List Nat) :
    (sm.master.ready = true →
      Client.btm_close sm
        = ({ sm with master := { sm.master with ready := false, handle := 0, c_handle := 0 } },
           [Cmd.esp_spp_disconnect sm.master.c_handle], true)) ∧
    (sm.master.ready = false → Client.btm_close sm = (sm, [], true)) ∧
    (Client.btm_close sm).1.pipe = sm.pipe ∧
    (Client.btm_close
      (Client.esp_spp_cb (.ESP_SPP_WRITE_EVT h2)
        (Client.esp_spp_cb (.ESP_SPP_DATA_IND_EVT h2 data)
          (Client.esp_spp_cb (.ESP_SPP_OPEN_EVT h) sm).1).1).1).2.1
      = [Cmd.esp_spp_disconnect h] ∧
    (ss.slave.ready = true →
      Server.bts_close ss
        = ({ ss with slave := { ss.slave with ready := false, handle := 0 } },
           [Cmd.esp_spp_disconnect ss.slave.handle], true)) ∧
    (ss.slave.ready = false → Server.bts_close ss = (ss, [], true)) ∧
    (Server.bts_close ss).1.pipe = ss.pipe := by
  refine ⟨?_, ?_, ?_, ?_, ?_, ?_, ?_⟩
  · intro hr; simp [Client.btm_close, hr]
  · intro hr; simp [Client.btm_close, hr]
  · simp only [Client.btm_close]; split <;> rfl
  · simp [Client.btm_close, Client.esp_spp_cb]
  · intro hr; simp [Server.bts_close, hr]
  · intro hr; simp [Server.bts_close, hr]
  · simp only [Server.bts_close]; split <;> rfl

/-- C18 (deinit).  `deinit` returns false if and only if the role is not up,
and then changes nothing and issues no command.  When the role is up it issues
the teardown commands, which are the teardown calls of the bring-up steps in
the reverse order of the bring-up, sets `ready` to false, clears the
handles, marks the role not-up and returns true; the stored names and secret,
the storage flag and the pipe are unchanged.  For the master and the slave. -/
theorem C18_deinit (sm : Client.State) (ss : Server.State) :
    ((Client.btm_deinit sm).2.2 = false ↔ sm.master_up = false) ∧
    (sm.master_up = false → Client.btm_deinit sm = (sm, [], false)) ∧
    (sm.master_up = true →
      Client.btm_deinit sm
        = ({ sm with master := { sm.master with ready := false, handle := 0, c_handle := 0 },
                     master_up := false },
           ((Client.btm_start StartRets.ok sm.master).1.filterMap teardown_of).reverse, true)) ∧
    ((Client.btm_start StartRets.ok sm.master).1.filterMap teardown_of).reverse
      = [Cmd.esp_spp_deinit, Cmd.esp_bluedroid_disable, Cmd.esp_bluedroid_deinit,
         Cmd.esp_bt_controller_disable, Cmd.esp_bt_controller_deinit] ∧
    ((Client.btm_deinit sm).1.master.name = sm.master.name ∧
     (Client.btm_deinit sm).1.master.slave_name = sm.master.slave_name ∧
     (Client.btm_deinit sm).1.master.slave_pin_code = sm.master.slave_pin_code ∧
     (Client.btm_deinit sm).1.master_storage = sm.master_storage ∧
     (Client.btm_deinit sm).1.pipe = sm.pipe) ∧
    ((Server.bts_deinit ss).2.2 = false ↔ ss.slave_up = false) ∧
    (ss.slave_up = false → Server.bts_deinit ss = (ss, [], false)) ∧
    (ss.slave_up = true →
      Server.bts_deinit ss
        = ({ ss with slave := { ss.slave with ready := false, handle := 0 }, slave_up := false },
           ((Server.bts_start StartRets.ok ss.slave).1.filterMap teardown_of).reverse, true)) ∧
    ((Server.bts_start StartRets.ok ss.slave).1.filterMap teardown_of).reverse
      = [Cmd.esp_spp_deinit, Cmd.esp_bluedroid_disable, Cmd.esp_bluedroid_deinit,
         Cmd.esp_bt_controller_disable, Cmd.esp_bt_controller_deinit] ∧
    ((Server.bts_deinit ss).1.slave.name = ss.slave.name ∧
     (Server.bts_deinit ss).1.slave.pin_code = ss.slave.pin_code ∧
     (Server.bts_deinit ss).1.slave_storage = ss.slave_storage ∧
     (Server.bts_deinit ss).1.pipe = ss.pipe) := by
  have tm : ((Client.btm_start StartRets.ok sm.master).1.filterMap teardown_of).reverse
      = [Cmd.esp_spp_deinit, Cmd.esp_bluedroid_disable, Cmd.esp_bluedroid_deinit,
         Cmd.esp_bt_controller_disable, Cmd.esp_bt_controller_deinit] := rfl
  have ts : ((Server.bts_start StartRets.ok ss.slave).1.filterMap teardown_of).reverse
      = [Cmd.esp_spp_deinit, Cmd.esp_bluedroid_disable, Cmd.esp_bluedroid_deinit,
         Cmd.esp_bt_controller_disable, Cmd.esp_bt_controller_deinit] := rfl
  refine ⟨?_, ?_, ?_, tm, ?_, ?_, ?_, ?_, ts, ?_⟩
  · by_cases hu : sm.master_up = false <;> simp [Client.btm_deinit, hu]
  · intro hu; simp [Client.btm_deinit, hu]
  · intro hu; rw [tm]; simp [Client.btm_deinit, hu]
  · simp only [Client.btm_deinit]
    split <;> exact ⟨rfl, rfl, rfl, rfl, rfl⟩
  · by_cases hu : ss.slave_up = false <;> simp [Server.bts_deinit, hu]
  · intro hu; simp [Server.bts_deinit, hu]
  · intro hu; rw [ts]; simp [Server.bts_deinit, hu]
  · simp only [Server.bts_deinit]
    split <;> exact ⟨rfl, rfl, rfl, rfl⟩

/-- Witness of C17: `close()` of the master after a channel-open event with
handle 5. -/
theorem C17_close_witness :
    Client.connected.master.ready = true ∧
    (Client.btm_close Client.connected).2.1 = [Cmd.esp_spp_disconnect 5] ∧
    (Client.btm_close Client.connected).1.master.ready = false :=
  ⟨rfl, by rw [(C17_close Client.connected Server.connected 5 5 []).1 rfl]; rfl,
   by rw [(C17_close Client.connected Server.connected 5 5 []).1 rfl]⟩

/-- Witness of C18: `deinit()` of the master that is up returns true and
leaves it not up. -/
theorem C18_deinit_witness :
    Client.connected.master_up = true ∧
    (Client.btm_deinit Client.connected).2.2 = true ∧
    (Client.btm_deinit Client.connected).1.master_up = false :=
  ⟨rfl, by rw [(C18_deinit Client.connected Server.connected).2.2.1 rfl],
   by rw [(C18_deinit Client.connected Server.connected).2.2.1 rfl]⟩

/-! ### Fail-fast bring-up -/

theorem Client.btm_start_fail_fast (r : StartRets) (m : Client.master_obj_t) :
    (Client.btm_start r m).1
      = fail_fast (checked_calls r)
          [Cmd.esp_bt_dev_set_device_name (cstr m.name),
           Cmd.esp_bt_gap_set_scan_mode .ESP_BT_CONNECTABLE .ESP_BT_GENERAL_DISCOVERABLE] := by
  simp only [Client.btm_start, checked_calls, apply_ite Prod.fst]
  by_cases h1 : r.nvs_flash_init = .ESP_ERR_NVS_NO_FREE_PAGES
      ∨ r.nvs_flash_init = .ESP_ERR_NVS_NEW_VERSION_FOUND
  · simp only [h1, if_true, true_and, List.cons_append, List.nil_append, fail_fast,
      decide_eq_true_eq, ne_eq, ite_not]
    by_cases k10 : r.nvs_flash_erase = .ESP_OK
    · simp only [k10, if_true]
      by_cases k9 : r.nvs_flash_init2 = .ESP_OK
      · simp only [k9, if_true]
        by_cases k8 : r.esp_bt_controller_mem_release = .ESP_OK
        · simp only [k8, if_true]
          by_cases k7 : r.esp_bt_controller_init = .ESP_OK
          · simp only [k7, if_true]
            by_cases k6 : r.esp_bt_controller_enable = .ESP_OK
            · simp only [k6, if_true]
              by_cases k5 : r.esp_bluedroid_init = .ESP_OK
              · simp only [k5, if_true]
                by_cases k4 : r.esp_bluedroid_enable = .ESP_OK
                · simp only [k4, if_true]
                  by_cases k3 : r.esp_bt_gap_register_callback = .ESP_OK
                  · simp only [k3, if_true]
                    by_cases k2 : r.esp_spp_register_callback = .ESP_OK
                    · simp only [k2, if_true]
                      by_cases k1 : r.esp_spp_init = .ESP_OK
                      · simp only [k1, if_true]
                      · simp only [k1, if_false]
                    · simp only [k2, if_false]
                  · simp only [k3, if_false]
                · simp only [k4, if_false]
              · simp only [k5, if_false]
            · simp only [k6, if_false]
          · simp only [k7, if_false]
        · simp only [k8, if_false]
      · simp only [k9, if_false]
    · simp only [k10, if_false]
  · simp only [h1, if_false, false_and, List.cons_append, List.nil_append, fail_fast,
      decide_eq_true_eq, ne_eq, ite_not]
    by_cases k9 : r.nvs_flash_init = .ESP_OK
    · simp only [k9, if_true]
      by_cases k8 : r.esp_bt_controller_mem_release = .ESP_OK
      · simp only [k8, if_true]
        by_cases k7 : r.esp_bt_controller_init = .ESP_OK
        · simp only [k7, if_true]
          by_cases k6 : r.esp_bt_controller_enable = .ESP_OK
          · simp only [k6, if_true]
            by_cases k5 : r.esp_bluedroid_init = .ESP_OK
            · simp only [k5, if_true]
              by_cases k4 : r.esp_bluedroid_enable = .ESP_OK
              · simp only [k4, if_true]
                by_cases k3 : r.esp_bt_gap_register_callback = .ESP_OK
                · simp only [k3, if_true]
                  by_cases k2 : r.esp_spp_register_callback = .ESP_OK
                  · simp only [k2, if_true]
                    by_cases k1 : r.esp_spp_init = .ESP_OK
                    · simp only [k1, if_true]
                    · simp only [k1, if_false]
                  · simp only [k2, if_false]
                · simp only [k3, if_false]
              · simp only [k4, if_false]
            · simp only [k5, if_false]
          · simp only [k6, if_false]
        · simp only [k7, if_false]
      · simp only [k8, if_false]
    · simp only [k9, if_false]

theorem Server.bts_start_fail_fast (r : StartRets) (m : Server.slave_obj_t) :
    (Server.bts_start r m).1
      = fail_fast (checked_calls r)
          [Cmd.esp_bt_gap_set_pin true 4 m.pin_code,
           Cmd.esp_bt_dev_set_device_name (cstr m.name),
           Cmd.esp_bt_gap_set_scan_mode .ESP_BT_CONNECTABLE .ESP_BT_GENERAL_DISCOVERABLE,
           Cmd.esp_spp_start_srv true .ESP_SPP_ROLE_SLAVE 0 (cstr m.name)] := by
  simp only [Server.bts_start, checked_calls, apply_ite Prod.fst]
  by_cases h1 : r.nvs_flash_init = .ESP_ERR_NVS_NO_FREE_PAGES
      ∨ r.nvs_flash_init = .ESP_ERR_NVS_NEW_VERSION_FOUND
  · simp only [h1, if_true, true_and, List.cons_append, List.nil_append, fail_fast,
      decide_eq_true_eq, ne_eq, ite_not]
    by_cases k10 : r.nvs_flash_erase = .ESP_OK
    · simp only [k10, if_true]
      by_cases k9 : r.nvs_flash_init2 = .ESP_OK
      · simp only [k9, if_true]
        by_cases k8 : r.esp_bt_controller_mem_release = .ESP_OK
        · simp only [k8, if_true]
          by_cases k7 : r.esp_bt_controller_init = .ESP_OK
          · simp only [k7, if_true]
            by_cases k6 : r.esp_bt_controller_enable = .ESP_OK
            · simp only [k6, if_true]
              by_cases k5 : r.esp_bluedroid_init = .ESP_OK
              · simp only [k5, if_true]
                by_cases k4 : r.esp_bluedroid_enable = .ESP_OK
                · simp only [k4, if_true]
                  by_cases k3 : r.esp_bt_gap_register_callback = .ESP_OK
                  · simp only [k3, if_true]
                    by_cases k2 : r.esp_spp_register_callback = .ESP_OK
                    · simp only [k2, if_true]
                      by_cases k1 : r.esp_spp_init = .ESP_OK
                      · simp only [k1, if_true]
                      · simp only [k1, if_false]
                    · simp only [k2, if_false]
                  · simp only [k3, if_false]
                · simp only [k4, if_false]
              · simp only [k5, if_false]
            · simp only [k6, if_false]
          · simp only [k7, if_false]
        · simp only [k8, if_false]
      · simp only [k9, if_false]
    · simp only [k10, if_false]
  · simp only [h1, if_false, false_and, List.cons_append, List.nil_append, fail_fast,
      decide_eq_true_eq, ne_eq, ite_not]
    by_cases k9 : r.nvs_flash_init = .ESP_OK
    · simp only [k9, if_true]
      by_cases k8 : r.esp_bt_controller_mem_release = .ESP_OK
      · simp only [k8, if_true]
        by_cases k7 : r.esp_bt_controller_init = .ESP_OK
        · simp only [k7, if_true]
          by_cases k6 : r.esp_bt_controller_enable = .ESP_OK
          · simp only [k6, if_true]
            by_cases k5 : r.esp_bluedroid_init = .ESP_OK
            · simp only [k5, if_true]
              by_cases k4 : r.esp_bluedroid_enable = .ESP_OK
              · simp only [k4, if_true]
                by_cases k3 : r.esp_bt_gap_register_callback = .ESP_OK
                · simp only [k3, if_true]
                  by_cases k2 : r.esp_spp_register_callback = .ESP_OK
                  · simp only [k2, if_true]
                    by_cases k1 : r.esp_spp_init = .ESP_OK
                    · simp only [k1, if_true]
                    · simp only [k1, if_false]
                  · simp only [k2, if_false]
                · simp only [k3, if_false]
              · simp only [k4, if_false]
            · simp only [k5, if_false]
          · simp only [k6, if_false]
        · simp only [k7, if_false]
      · simp only [k8, if_false]
    · simp only [k9, if_false]

/-- Once a checked call does not let the bring-up go on, every call made is
one of the checked calls, whatever was to follow them. -/
theorem fail_fast_stops (l : List (Cmd × Bool)) (rest : List Cmd)
    (h : ∃ p ∈ l, p.2 = false) : ∀ c ∈ fail_fast l rest, c ∈ l.map Prod.fst := by
  induction l with
  | nil => simp at h
  | cons p l ih =>
    obtain ⟨c0, ok⟩ := p
    cases ok with
    | false =>
      intro c hc
      simp only [fail_fast, Bool.false_eq_true, if_false, List.mem_singleton] at hc
      simp [hc]
    | true =>
      have h' : ∃ p ∈ l, p.2 = false := by
        obtain ⟨q, hq, hq2⟩ := h
        simp only [List.mem_cons] at hq
        rcases hq with hq | hq
        · subst hq; simp at hq2
        · exact ⟨q, hq, hq2⟩
      intro c hc
      simp only [fail_fast, if_true, List.mem_cons] at hc
      rcases hc with hc | hc
      · simp [hc]
      · simp only [List.map_cons, List.mem_cons]
        exact Or.inr (ih h' c hc)

theorem checked_calls_names (r : StartRets) :
    ∀ c ∈ (checked_calls r).map Prod.fst,
      (∀ n, c ≠ Cmd.esp_bt_dev_set_device_name n) ∧
      (∀ a b, c ≠ Cmd.esp_bt_gap_set_scan_mode a b) ∧
      (∀ f l p, c ≠ Cmd.esp_bt_gap_set_pin f l p) ∧
      (∀ a ro scn n, c ≠ Cmd.esp_spp_start_srv a ro scn n) := by
  intro c hc
  simp only [checked_calls, List.map_append, List.mem_append, List.map_cons, List.map_nil,
    List.mem_cons, List.mem_singleton, List.not_mem_nil, or_false] at hc
  rcases hc with hc | hc
  · split at hc
    · simp only [List.map_cons, List.map_nil, List.mem_cons, List.mem_singleton,
        List.not_mem_nil, or_false] at hc
      rcases hc with h | h | h <;> subst h <;> simp
    · simp only [List.map_cons, List.map_nil, List.mem_singleton] at hc
      subst hc; simp
  · rcases hc with h | h | h | h | h | h | h | h <;> subst h <;> simp

/-- Counterexample to C19 as stated: when the first `nvs_flash_init` returns
`ESP_ERR_NVS_NO_FREE_PAGES`, which is not success, and every other call
succeeds, the bring-up goes on: the flash is erased, `nvs_flash_init` is called
again and all later commands are issued, the device name is registered and the
scan mode set (and, in the slave, the PIN configured and the server started). -/
theorem C19_counterexample :
    ({ StartRets.ok with nvs_flash_init := .ESP_ERR_NVS_NO_FREE_PAGES } : StartRets).nvs_flash_init
      ≠ .ESP_OK ∧
    (Client.btm_start { StartRets.ok with nvs_flash_init := .ESP_ERR_NVS_NO_FREE_PAGES }
      (Client.zero_obj 249)).1
      = [Cmd.nvs_flash_init, Cmd.nvs_flash_erase, Cmd.nvs_flash_init,
         Cmd.esp_bt_controller_mem_release, Cmd.esp_bt_controller_init,
         Cmd.esp_bt_controller_enable, Cmd.esp_bluedroid_init, Cmd.esp_bluedroid_enable,
         Cmd.esp_bt_gap_register_callback, Cmd.esp_spp_register_callback, Cmd.esp_spp_init,
         Cmd.esp_bt_dev_set_device_name [],
         Cmd.esp_bt_gap_set_scan_mode .ESP_BT_CONNECTABLE .ESP_BT_GENERAL_DISCOVERABLE] ∧
    (Server.bts_start { StartRets.ok with nvs_flash_init := .ESP_ERR_NVS_NO_FREE_PAGES }
      (Server.zero_obj 249)).1.drop 11
      = [Cmd.esp_bt_gap_set_pin true 4 (List.replicate 17 0),
         Cmd.esp_bt_dev_set_device_name [],
         Cmd.esp_bt_gap_set_scan_mode .ESP_BT_CONNECTABLE .ESP_BT_GENERAL_DISCOVERABLE,
         Cmd.esp_spp_start_srv true .ESP_SPP_ROLE_SLAVE 0 []] := by
  decide

/-- C19 as amended (bring-up fail-fast).  In `btm_start` and `bts_start`, for
every assignment of status codes, the calls made are the checked calls in
order up to and including the first one that returns non-success, and the
closing calls (PIN, device name, scan mode, SPP server) only if there is none;
a first `nvs_flash_init` that reports no free pages or a new version does not
count as such a failure but is followed by `nvs_flash_erase` and a second
`nvs_flash_init`.  So if a checked call fails, only checked calls are made: the
device name is not registered, the scan mode is not set and, in the slave, the
PIN is not configured and the SPP server is not started. -/
theorem C19_fail_fast (r : StartRets) (m : Client.master_obj_t) (sl : Server.slave_obj_t) :
    (Client.btm_start r m).1
      = fail_fast (checked_calls r)
          [Cmd.esp_bt_dev_set_device_name (cstr m.name),
           Cmd.esp_bt_gap_set_scan_mode .ESP_BT_CONNECTABLE .ESP_BT_GENERAL_DISCOVERABLE] ∧
    (Server.bts_start r sl).1
      = fail_fast (checked_calls r)
          [Cmd.esp_bt_gap_set_pin true 4 sl.pin_code,
           Cmd.esp_bt_dev_set_device_name (cstr sl.name),
           Cmd.esp_bt_gap_set_scan_mode .ESP_BT_CONNECTABLE .ESP_BT_GENERAL_DISCOVERABLE,
           Cmd.esp_spp_start_srv true .ESP_SPP_ROLE_SLAVE 0 (cstr sl.name)] ∧
    ((∃ p ∈ checked_calls r, p.2 = false) →
      (∀ c ∈ (Client.btm_start r m).1,
        (∀ n, c ≠ Cmd.esp_bt_dev_set_device_name n) ∧
        (∀ a b, c ≠ Cmd.esp_bt_gap_set_scan_mode a b)) ∧
      (∀ c ∈ (Server.bts_start r sl).1,
        (∀ n, c ≠ Cmd.esp_bt_dev_set_device_name n) ∧
        (∀ a b, c ≠ Cmd.esp_bt_gap_set_scan_mode a b) ∧
        (∀ f l p, c ≠ Cmd.esp_bt_gap_set_pin f l p) ∧
        (∀ a ro scn n, c ≠ Cmd.esp_spp_start_srv a ro scn n))) ∧
    ((∃ p ∈ checked_calls r, p.2 = false) ↔
      ((if r.nvs_flash_init = .ESP_ERR_NVS_NO_FREE_PAGES
            ∨ r.nvs_flash_init = .ESP_ERR_NVS_NEW_VERSION_FOUND
        then r.nvs_flash_erase ≠ .ESP_OK ∨ r.nvs_flash_init2 ≠ .ESP_OK
        else r.nvs_flash_init ≠ .ESP_OK) ∨
       r.esp_bt_controller_mem_release ≠ .ESP_OK ∨ r.esp_bt_controller_init ≠ .ESP_OK ∨
       r.esp_bt_controller_enable ≠ .ESP_OK ∨ r.esp_bluedroid_init ≠ .ESP_OK ∨
       r.esp_bluedroid_enable ≠ .ESP_OK ∨ r.esp_bt_gap_register_callback ≠ .ESP_OK ∨
       r.esp_spp_register_callback ≠ .ESP_OK ∨ r.esp_spp_init ≠ .ESP_OK)) := by
  refine ⟨Client.btm_start_fail_fast r m, Server.bts_start_fail_fast r sl, ?_, ?_⟩
  · intro h
    constructor
    · intro c hc
      rw [Client.btm_start_fail_fast] at hc
      have := checked_calls_names r c (fail_fast_stops _ _ h c hc)
      exact ⟨this.1, this.2.1⟩
    · intro c hc
      rw [Server.bts_start_fail_fast] at hc
      exact checked_calls_names r c (fail_fast_stops _ _ h c hc)
  · by_cases h1 : r.nvs_flash_init = .ESP_ERR_NVS_NO_FREE_PAGES
        ∨ r.nvs_flash_init = .ESP_ERR_NVS_NEW_VERSION_FOUND
    · simp only [checked_calls, h1, if_true]
      simp
      tauto
    · simp only [checked_calls, h1, if_false]
      simp

/-- Witness of C19: `esp_bluedroid_init` fails; the bring-up ends with that
call. -/
theorem C19_fail_fast_witness :
    (∃ p ∈ checked_calls { StartRets.ok with esp_bluedroid_init := .ESP_FAIL 1 }, p.2 = false) ∧
    (Client.btm_start { StartRets.ok with esp_bluedroid_init := .ESP_FAIL 1 }
      (Client.zero_obj 249)).1
      = [Cmd.nvs_flash_init, Cmd.esp_bt_controller_mem_release, Cmd.esp_bt_controller_init,
         Cmd.esp_bt_controller_enable, Cmd.esp_bluedroid_init] :=
  ⟨⟨(Cmd.esp_bluedroid_init, false), by decide, rfl⟩, by
    rw [(C19_fail_fast { StartRets.ok with esp_bluedroid_init := .ESP_FAIL 1 }
      (Client.zero_obj 249) (Server.zero_obj 249)).1]
    decide⟩

/-! ### The PIN reply -/

theorem Client.disc_res_loop_pin (maxlen : Nat) (bda : List Nat)
    (prop : List esp_bt_gap_dev_prop_t) (s : Client.State) :
    (Client.disc_res_loop maxlen bda prop s).1.master.slave_pin_code = s.master.slave_pin_code := by
  induction prop generalizing s with
  | nil => rfl
  | cons pr rest ih =>
    simp only [Client.disc_res_loop]
    split
    · split
      · split
        · exact ih _
        · exact ih _
      · exact ih _
    · exact ih _

theorem Client.btm_init_pin (mo : Client.master_obj_t) (buff : Option (Int → Nat))
    (rets : StartRets) (name : List Nat) (s : Client.State) (h : s.master_storage = true) :
    (Client.btm_init mo buff rets name s).1.master_storage = true ∧
    (Client.btm_init mo buff rets name s).1.master.slave_pin_code = s.master.slave_pin_code := by
  unfold Client.btm_init
  simp only [h]
  split_ifs <;> first | contradiction | exact ⟨h, rfl⟩ | exact ⟨rfl, rfl⟩

theorem Client.step_pin (maxlen : Nat) (s : Client.State) (c : Client.Call)
    (r : Client.State × List Cmd) (hc : c.is_open = false) (h : s.master_storage = true)
    (hs : Client.step maxlen s c = some r) :
    r.1.master_storage = true ∧ r.1.master.slave_pin_code = s.master.slave_pin_code := by
  cases c with
  | init name mo buff rets =>
    simp only [Client.step] at hs
    split at hs
    · simp only [Option.some.injEq] at hs
      rw [← hs]
      exact Client.btm_init_pin mo buff rets name s h
    · simp at hs
  | open_ name pin => simp [Client.Call.is_open] at hc
  | spp event =>
    simp only [Client.step, Option.some.injEq] at hs
    subst hs
    cases event <;>
      first
      | (simp [Client.esp_spp_cb, h]; done)
      | (simp only [Client.esp_spp_cb]; split <;> exact ⟨h, rfl⟩)
  | gap event =>
    simp only [Client.step, Option.some.injEq] at hs
    subst hs
    cases event with
    | ESP_BT_GAP_DISC_RES_EVT bda prop =>
      simp only [Client.esp_bt_gap_cb]
      exact ⟨(Client.disc_res_loop_frame maxlen bda prop s).2.2.2.trans h,
        Client.disc_res_loop_pin maxlen bda prop s⟩
    | ESP_BT_GAP_AUTH_CMPL_EVT success =>
      simp only [Client.esp_bt_gap_cb]
      split <;> exact ⟨h, rfl⟩
    | ESP_BT_GAP_PIN_REQ_EVT bda m =>
      simp only [Client.esp_bt_gap_cb]
      split <;> exact ⟨h, rfl⟩
    | _ => exact ⟨h, rfl⟩
  | close =>
    simp only [Client.step, Client.btm_close, Option.some.injEq] at hs
    subst hs
    split <;> exact ⟨h, rfl⟩
  | deinit =>
    simp only [Client.step, Client.btm_deinit, Option.some.injEq] at hs
    subst hs
    split <;> exact ⟨h, rfl⟩
  | send_str data =>
    simp only [Client.step, Client.btm_send_str, Option.some.injEq] at hs
    subst hs
    split <;> exact ⟨h, rfl⟩
  | send_bin data =>
    simp only [Client.step, Client.btm_send_bin, Option.some.injEq] at hs
    subst hs
    split <;> exact ⟨h, rfl⟩
  | up => simp only [Client.step, Option.some.injEq] at hs; subst hs; exact ⟨h, rfl⟩
  | data => simp only [Client.step, Option.some.injEq] at hs; subst hs; exact ⟨h, rfl⟩
  | ready => simp only [Client.step, Option.some.injEq] at hs; subst hs; exact ⟨h, rfl⟩
  | get_str count => simp only [Client.step, Option.some.injEq] at hs; subst hs; exact ⟨h, rfl⟩
  | get_bin count => simp only [Client.step, Option.some.injEq] at hs; subst hs; exact ⟨h, rfl⟩
  | contend held => simp only [Client.step, Option.some.injEq] at hs; subst hs; exact ⟨h, rfl⟩

theorem Client.run_pin (maxlen : Nat) (calls : List Client.Call) (s s' : Client.State)
    (hc : ∀ c ∈ calls, c.is_open = false) (h : s.master_storage = true)
    (hr : Client.run maxlen calls s = some s') :
    s'.master.slave_pin_code = s.master.slave_pin_code := by
  induction calls generalizing s with
  | nil =>
    simp only [Client.run, Option.some.injEq] at hr
    rw [← hr]
  | cons c cs ih =>
    simp only [Client.run] at hr
    cases hs : Client.step maxlen s c with
    | none => rw [hs] at hr; simp at hr
    | some r =>
      rw [hs] at hr
      obtain ⟨a, b⟩ := Client.step_pin maxlen s c r (hc c (List.mem_cons_self _ _)) h hs
      rw [ih r.1 (fun c' hc' => hc c' (List.mem_cons_of_mem _ hc')) a hr, b]

/-- C20 (PIN reply of the master).  Take `open(name, pin)` on a state with the
storage allocated, followed by any steps that are not aborted and contain no
further `open`.  For every PIN-request event in the state reached, the master
issues exactly one PIN reply, accepting, addressed to the requesting peer,
with declared length 16 if the min-16-digit flag of the event is set and 4
otherwise, carrying the PIN array, and changes no state.  The array begins
with the secret stored by that last `open` (the bytes of `pin` up to its first
NUL byte); so the declared bytes are the first 16 resp. 4 bytes of the secret
whenever the secret has at least that many. -/
theorem C20_pin_reply (maxlen : Nat) (s s' : Client.State) (name pin bda : List Nat)
    (post : List Client.Call) (min_16_digit : Bool)
    (hst : s.master_storage = true) (hpost : ∀ c ∈ post, c.is_open = false)
    (hrun : Client.run maxlen post (Client.btm_open name pin s).1 = some s') :
    Client.esp_bt_gap_cb maxlen (.ESP_BT_GAP_PIN_REQ_EVT bda min_16_digit) s'
      = (s', [Cmd.esp_bt_gap_pin_reply bda true (if min_16_digit then 16 else 4)
                s'.master.slave_pin_code]) ∧
    s'.master.slave_pin_code.take (strlen pin) = cstr pin ∧
    ((if min_16_digit then 16 else 4) ≤ strlen pin →
      s'.master.slave_pin_code.take (if min_16_digit then 16 else 4)
        = (cstr pin).take (if min_16_digit then 16 else 4)) := by
  have hp : s'.master.slave_pin_code
      = cstr pin ++ s.master.slave_pin_code.drop (strlen pin) := by
    rw [Client.run_pin maxlen post (Client.btm_open name pin s).1 s' hpost
      (show (Client.btm_open name pin s).1.master_storage = true from hst) hrun]
    simp [Client.btm_open, memcpy, take_strlen]
  refine ⟨?_, ?_, ?_⟩
  · cases min_16_digit <;> simp [Client.esp_bt_gap_cb]
  · rw [hp]; exact cstr_append_self pin _
  · intro hle
    rw [hp]
    exact List.take_append_of_le_length hle

set_option maxRecDepth 100000 in
/-- Witness of C20: `init("M")`, `open("T", "1234")`, an inquiry result and a
channel-open event, then a PIN request without the min-16-digit flag. -/
theorem C20_pin_reply_witness :
    (Client.btm_init (Client.zero_obj 249) (some fun _ => 0) StartRets.ok [77]
      (Client.boot 248)).1.master_storage = true ∧
    (Client.run 248 [.gap (.ESP_BT_GAP_DISC_RES_EVT [1, 2, 3, 4, 5, 6] []),
        .spp (.ESP_SPP_OPEN_EVT 5)]
      (Client.btm_open [84] [49, 50, 51, 52]
        (Client.btm_init (Client.zero_obj 249) (some fun _ => 0) StartRets.ok [77]
          (Client.boot 248)).1).1).isSome = true ∧
    (Client.esp_bt_gap_cb 248 (.ESP_BT_GAP_PIN_REQ_EVT [1, 2, 3, 4, 5, 6] false)
      (Client.esp_spp_cb (.ESP_SPP_OPEN_EVT 5)
        (Client.btm_open [84] [49, 50, 51, 52]
          (Client.btm_init (Client.zero_obj 249) (some fun _ => 0) StartRets.ok [77]
            (Client.boot 248)).1).1).1).2
      = [Cmd.esp_bt_gap_pin_reply [1, 2, 3, 4, 5, 6] true 4
          ([49, 50, 51, 52] ++ List.replicate 13 0)] :=
  ⟨rfl, rfl,
   by
    have h := (C20_pin_reply 248
      (Client.btm_init (Client.zero_obj 249) (some fun _ => 0) StartRets.ok [77]
        (Client.boot 248)).1
      (Client.esp_spp_cb (.ESP_SPP_OPEN_EVT 5)
        (Client.btm_open [84] [49, 50, 51, 52]
          (Client.btm_init (Client.zero_obj 249) (some fun _ => 0) StartRets.ok [77]
            (Client.boot 248)).1).1).1
      [84] [49, 50, 51, 52] [1, 2, 3, 4, 5, 6]
      [.gap (.ESP_BT_GAP_DISC_RES_EVT [1, 2, 3, 4, 5, 6] []), .spp (.ESP_SPP_OPEN_EVT 5)]
      false rfl
      (by intro c hc
          simp only [List.mem_cons, List.mem_singleton, List.not_mem_nil, or_false] at hc
          rcases hc with h | h <;> subst h <;> rfl)
      rfl).1
    rw [h]
    decide⟩

/-! ### The slave's advertising cycle -/

/-- C21 (slave advertising cycle).  For every slave state, a channel-close
event sets `ready` to false, clears the handle, changes nothing else and issues
exactly one set-scan-mode command, connectable and generally discoverable; a
server-channel-opened event changes nothing and issues exactly one
set-scan-mode command, non-connectable and non-discoverable.  The pipe is the
same after either event. -/
theorem C21_advertising_cycle (ss : Server.State) :
    Server.esp_spp_cb .ESP_SPP_CLOSE_EVT ss
      = ({ ss with slave := { ss.slave with ready := false, handle := 0 } },
         [Cmd.esp_bt_gap_set_scan_mode .ESP_BT_CONNECTABLE .ESP_BT_GENERAL_DISCOVERABLE]) ∧
    (Server.esp_spp_cb .ESP_SPP_CLOSE_EVT ss).1.slave.ready = false ∧
    (Server.esp_spp_cb .ESP_SPP_CLOSE_EVT ss).1.slave.handle = 0 ∧
    (Server.esp_spp_cb .ESP_SPP_CLOSE_EVT ss).1.pipe = ss.pipe ∧
    Server.esp_spp_cb .ESP_SPP_SRV_OPEN_EVT ss
      = (ss, [Cmd.esp_bt_gap_set_scan_mode .ESP_BT_NON_CONNECTABLE .ESP_BT_NON_DISCOVERABLE]) ∧
    (Server.step ss (.spp .ESP_SPP_CLOSE_EVT)).map Prod.snd
      = some [Cmd.esp_bt_gap_set_scan_mode .ESP_BT_CONNECTABLE .ESP_BT_GENERAL_DISCOVERABLE] ∧
    (Server.step ss (.spp .ESP_SPP_SRV_OPEN_EVT)).map Prod.snd
      = some [Cmd.esp_bt_gap_set_scan_mode .ESP_BT_NON_CONNECTABLE .ESP_BT_NON_DISCOVERABLE] :=
  ⟨rfl, rfl, rfl, rfl, rfl, rfl, rfl⟩

/-! ### The index invariant of the pipe -/

/-- The inquiry-result loop leaves the pipe alone. -/
theorem Client.disc_res_loop_pipe (maxlen : Nat) (bda : List Nat)
    (prop : List esp_bt_gap_dev_prop_t) (s : Client.State) :
    (Client.disc_res_loop maxlen bda prop s).1.pipe = s.pipe ∧
    (Client.disc_res_loop maxlen bda prop s).1.master_storage = s.master_storage := by
  induction prop generalizing s with
  | nil => exact ⟨rfl, rfl⟩
  | cons pr rest ih =>
    simp only [Client.disc_res_loop]
    split
    · split
      · split
        · exact ih _
        · exact ih _
      · exact ih _
    · exact ih _

/-- A second or later `init` keeps the pipe well-formed and its mutex as it was. -/
theorem Client.btm_init_pipe_wf (mo : Client.master_obj_t) (buff : Option (Int → Nat))
    (rets : StartRets) (name : List Nat) (s : Client.State)
    (h : s.master_storage = true ∧ PipeWf s.pipe) :
    (Client.btm_init mo buff rets name s).1.master_storage = true ∧
    PipeWf (Client.btm_init mo buff rets name s).1.pipe ∧
    (Client.btm_init mo buff rets name s).1.pipe.lock = s.pipe.lock := by
  have hz : PipeWf { s.pipe with head := 0, tail := 0 } := by
    obtain ⟨h1, -, -, -, -⟩ := h.2
    refine ⟨h1, ?_, ?_, ?_, ?_⟩ <;> simp only [h1, DEFAULT_PIPE_SIZE] <;> omega
  unfold Client.btm_init
  simp only [h.1]
  split_ifs <;> first | exact ⟨h.1, h.2, rfl⟩ | contradiction | exact ⟨rfl, hz, rfl⟩

/-- A second or later `init` keeps the pipe well-formed and its mutex as it was. -/
theorem Server.bts_init_pipe_wf (so : Server.slave_obj_t) (buff : Option (Int → Nat))
    (rets : StartRets) (name pin : List Nat) (s : Server.State)
    (h : s.slave_storage = true ∧ PipeWf s.pipe) :
    (Server.bts_init so buff rets name pin s).1.slave_storage = true ∧
    PipeWf (Server.bts_init so buff rets name pin s).1.pipe ∧
    (Server.bts_init so buff rets name pin s).1.pipe.lock = s.pipe.lock := by
  have hz : PipeWf { s.pipe with head := 0, tail := 0 } := by
    obtain ⟨h1, -, -, -, -⟩ := h.2
    refine ⟨h1, ?_, ?_, ?_, ?_⟩ <;> simp only [h1, DEFAULT_PIPE_SIZE] <;> omega
  unfold Server.bts_init
  simp only [h.1]
  split_ifs <;> first | exact ⟨h.1, h.2, rfl⟩ | contradiction | exact ⟨rfl, hz, rfl⟩

/-- The write of a data-indication event keeps the pipe well-formed and its
mutex as it was. -/
theorem Client.data_ind_pipe_wf (items : List Nat) (p : pipe_obj_t) (h : PipeWf p) :
    PipeWf (Client.data_ind_pipe items p).1 ∧ (Client.data_ind_pipe items p).1.lock = p.lock := by
  simp only [Client.data_ind_pipe]
  split
  · exact ⟨(Client.data_ind_loop_spec items p h).1, (Client.data_ind_loop_spec items p h).2.2.1⟩
  · exact ⟨h, rfl⟩

/-- Every step of the master keeps the pipe well-formed; only another task
changes the state of the mutex between steps. -/
theorem Client.master_pipe_step_wf (maxlen : Nat) (s : Client.State) (c : Client.Call)
    (r : Client.State × List Cmd) (h : s.master_storage = true ∧ PipeWf s.pipe)
    (hs : Client.step maxlen s c = some r) :
    (r.1.master_storage = true ∧ PipeWf r.1.pipe) ∧
    (c.is_contend = false → r.1.pipe.lock = s.pipe.lock) := by
  cases c with
  | init name mo buff rets =>
    simp only [Client.step] at hs
    split at hs
    · simp only [Option.some.injEq] at hs
      rw [← hs]
      obtain ⟨i1, i2, i3⟩ := Client.btm_init_pipe_wf mo buff rets name s h
      exact ⟨⟨i1, i2⟩, fun _ => i3⟩
    · simp at hs
  | spp event =>
    simp only [Client.step, Option.some.injEq] at hs
    subst hs
    cases event with
    | ESP_SPP_DATA_IND_EVT handle data =>
      obtain ⟨d1, d2⟩ := Client.data_ind_pipe_wf data s.pipe h.2
      exact ⟨⟨h.1, d1⟩, fun _ => d2⟩
    | ESP_SPP_DISCOVERY_COMP_EVT success scn0 =>
      simp only [Client.esp_spp_cb]
      split <;> exact ⟨h, fun _ => rfl⟩
    | _ => exact ⟨h, fun _ => rfl⟩
  | gap event =>
    simp only [Client.step, Option.some.injEq] at hs
    subst hs
    cases event with
    | ESP_BT_GAP_DISC_RES_EVT bda prop =>
      obtain ⟨f1, f2⟩ := Client.disc_res_loop_pipe maxlen bda prop s
      simp only [Client.esp_bt_gap_cb, f1, f2]
      exact ⟨h, fun _ => trivial⟩
    | ESP_BT_GAP_AUTH_CMPL_EVT success =>
      simp only [Client.esp_bt_gap_cb]
      split <;> exact ⟨h, fun _ => rfl⟩
    | ESP_BT_GAP_PIN_REQ_EVT bda m =>
      simp only [Client.esp_bt_gap_cb]
      split <;> exact ⟨h, fun _ => rfl⟩
    | _ => exact ⟨h, fun _ => rfl⟩
  | close =>
    simp only [Client.step, Client.btm_close, Option.some.injEq] at hs
    subst hs
    split <;> exact ⟨h, fun _ => rfl⟩
  | deinit =>
    simp only [Client.step, Client.btm_deinit, Option.some.injEq] at hs
    subst hs
    split <;> exact ⟨h, fun _ => rfl⟩
  | send_str data =>
    simp only [Client.step, Client.btm_send_str, Option.some.injEq] at hs
    subst hs
    split <;> exact ⟨h, fun _ => rfl⟩
  | send_bin data =>
    simp only [Client.step, Client.btm_send_bin, Option.some.injEq] at hs
    subst hs
    split <;> exact ⟨h, fun _ => rfl⟩
  | open_ name pin =>
    simp only [Client.step, Client.btm_open, Option.some.injEq] at hs
    subst hs
    exact ⟨h, fun _ => rfl⟩
  | up => simp only [Client.step, Option.some.injEq] at hs; subst hs; exact ⟨h, fun _ => rfl⟩
  | data => simp only [Client.step, Option.some.injEq] at hs; subst hs; exact ⟨h, fun _ => rfl⟩
  | ready => simp only [Client.step, Option.some.injEq] at hs; subst hs; exact ⟨h, fun _ => rfl⟩
  | get_str count =>
    simp only [Client.step, Option.some.injEq] at hs
    subst hs
    obtain ⟨g1, g2, -⟩ := Client.btm_get_bin_spec count s.pipe h.2
    exact ⟨⟨h.1, g1⟩, fun _ => g2⟩
  | get_bin count =>
    simp only [Client.step, Option.some.injEq] at hs
    subst hs
    obtain ⟨g1, g2, -⟩ := Client.btm_get_bin_spec count s.pipe h.2
    exact ⟨⟨h.1, g1⟩, fun _ => g2⟩
  | contend held =>
    simp only [Client.step, Option.some.injEq] at hs
    subst hs
    exact ⟨⟨h.1, h.2⟩, fun hc => by simp [Client.Call.is_contend] at hc⟩

/-- Every run of the master keeps the pipe well-formed, and leaves the mutex
free when it was free and no other task took it. -/
theorem Client.master_pipe_run_wf (maxlen : Nat) (calls : List Client.Call)
    (s s' : Client.State) (h : s.master_storage = true ∧ PipeWf s.pipe)
    (hr : Client.run maxlen calls s = some s') :
    PipeWf s'.pipe ∧
    ((∀ c ∈ calls, c.is_contend = false) → s'.pipe.lock = s.pipe.lock) := by
  induction calls generalizing s with
  | nil =>
    simp only [Client.run, Option.some.injEq] at hr
    subst hr
    exact ⟨h.2, fun _ => rfl⟩
  | cons c cs ih =>
    simp only [Client.run] at hr
    cases hs : Client.step maxlen s c with
    | none => rw [hs] at hr; simp at hr
    | some r =>
      rw [hs] at hr
      obtain ⟨k1, k2⟩ := Client.master_pipe_step_wf maxlen s c r h hs
      obtain ⟨j1, j2⟩ := ih r.1 k1 hr
      refine ⟨j1, fun hc => ?_⟩
      rw [j2 (fun c' hc' => hc c' (List.mem_cons_of_mem _ hc')),
        k2 (hc c (List.mem_cons_self _ _))]

/-- Every step of the slave keeps the pipe well-formed; only another task
changes the state of the mutex between steps. -/
theorem Server.slave_pipe_step_wf (s : Server.State) (c : Server.Call)
    (r : Server.State × List Cmd) (h : s.slave_storage = true ∧ PipeWf s.pipe)
    (hs : Server.step s c = some r) :
    (r.1.slave_storage = true ∧ PipeWf r.1.pipe) ∧
    (c.is_contend = false → r.1.pipe.lock = s.pipe.lock) := by
  cases c with
  | init name pin so buff rets =>
    simp only [Server.step] at hs
    split at hs
    · simp only [Option.some.injEq] at hs
      rw [← hs]
      obtain ⟨i1, i2, i3⟩ := Server.bts_init_pipe_wf so buff rets name pin s h
      exact ⟨⟨i1, i2⟩, fun _ => i3⟩
    · simp at hs
  | spp event =>
    simp only [Server.step, Option.some.injEq] at hs
    subst hs
    cases event with
    | ESP_SPP_DATA_IND_EVT handle data =>
      obtain ⟨d1, d2⟩ := Client.data_ind_pipe_wf data s.pipe h.2
      simp only [Server.esp_spp_cb, Server.data_ind_pipe_eq]
      exact ⟨⟨h.1, d1⟩, fun _ => d2⟩
    | _ => exact ⟨h, fun _ => rfl⟩
  | gap event =>
    simp only [Server.step, Option.some.injEq] at hs
    subst hs
    cases event with
    | ESP_BT_GAP_AUTH_CMPL_EVT success =>
      simp only [Server.esp_bt_gap_cb]
      split <;> exact ⟨h, fun _ => rfl⟩
    | _ => exact ⟨h, fun _ => rfl⟩
  | close =>
    simp only [Server.step, Server.bts_close, Option.some.injEq] at hs
    subst hs
    split <;> exact ⟨h, fun _ => rfl⟩
  | deinit =>
    simp only [Server.step, Server.bts_deinit, Option.some.injEq] at hs
    subst hs
    split <;> exact ⟨h, fun _ => rfl⟩
  | send_str data =>
    simp only [Server.step, Server.bts_send_str, Option.some.injEq] at hs
    subst hs
    split <;> exact ⟨h, fun _ => rfl⟩
  | send_bin data =>
    simp only [Server.step, Server.bts_send_bin, Option.some.injEq] at hs
    subst hs
    split <;> exact ⟨h, fun _ => rfl⟩
  | up => simp only [Server.step, Option.some.injEq] at hs; subst hs; exact ⟨h, fun _ => rfl⟩
  | data => simp only [Server.step, Option.some.injEq] at hs; subst hs; exact ⟨h, fun _ => rfl⟩
  | ready => simp only [Server.step, Option.some.injEq] at hs; subst hs; exact ⟨h, fun _ => rfl⟩
  | get_str count =>
    simp only [Server.step, Option.some.injEq] at hs
    subst hs
    obtain ⟨g1, g2, -⟩ := Client.btm_get_bin_spec count s.pipe h.2
    rw [Server.bts_get_str_eq, Client.btm_get_str_eq_bin]
    exact ⟨⟨h.1, g1⟩, fun _ => g2⟩
  | get_bin count =>
    simp only [Server.step, Option.some.injEq] at hs
    subst hs
    obtain ⟨g1, g2, -⟩ := Client.btm_get_bin_spec count s.pipe h.2
    rw [Server.bts_get_bin_eq]
    exact ⟨⟨h.1, g1⟩, fun _ => g2⟩
  | contend held =>
    simp only [Server.step, Option.some.injEq] at hs
    subst hs
    exact ⟨⟨h.1, h.2⟩, fun hc => by simp [Server.Call.is_contend] at hc⟩

/-- Every run of the slave keeps the pipe well-formed, and leaves the mutex
free when it was free and no other task took it. -/
theorem Server.slave_pipe_run_wf (calls : List Server.Call)
    (s s' : Server.State) (h : s.slave_storage = true ∧ PipeWf s.pipe)
    (hr : Server.run calls s = some s') :
    PipeWf s'.pipe ∧
    ((∀ c ∈ calls, c.is_contend = false) → s'.pipe.lock = s.pipe.lock) := by
  induction calls generalizing s with
  | nil =>
    simp only [Server.run, Option.some.injEq] at hr
    subst hr
    exact ⟨h.2, fun _ => rfl⟩
  | cons c cs ih =>
    simp only [Server.run] at hr
    cases hs : Server.step s c with
    | none => rw [hs] at hr; simp at hr
    | some r =>
      rw [hs] at hr
      obtain ⟨k1, k2⟩ := Server.slave_pipe_step_wf s c r h hs
      obtain ⟨j1, j2⟩ := ih r.1 k1 hr
      refine ⟨j1, fun hc => ?_⟩
      rw [j2 (fun c' hc' => hc c' (List.mem_cons_of_mem _ hc')),
        k2 (hc c (List.mem_cons_self _ _))]

/-- The first `init` with a buffer from `malloc` makes the pipe well-formed,
with the mutex free. -/
theorem Client.master_first_init_wf (maxlen : Nat) (mo : Client.master_obj_t)
    (mem : Int → Nat) (rets : StartRets) (name : List Nat) :
    (Client.btm_init mo (some mem) rets name (Client.boot maxlen)).1.master_storage = true ∧
    PipeWf (Client.btm_init mo (some mem) rets name (Client.boot maxlen)).1.pipe ∧
    (Client.btm_init mo (some mem) rets name (Client.boot maxlen)).1.pipe.lock = false := by
  unfold Client.btm_init
  simp only [Client.boot]
  split_ifs <;> first | contradiction | exact ⟨rfl, new_pipe_wf mem, rfl⟩

/-- The first `init` with a buffer from `malloc` makes the pipe well-formed,
with the mutex free. -/
theorem Server.slave_first_init_wf (so : Server.slave_obj_t)
    (mem : Int → Nat) (rets : StartRets) (name pin : List Nat) :
    (Server.bts_init so (some mem) rets name pin Server.boot).1.slave_storage = true ∧
    PipeWf (Server.bts_init so (some mem) rets name pin Server.boot).1.pipe ∧
    (Server.bts_init so (some mem) rets name pin Server.boot).1.pipe.lock = false := by
  unfold Server.bts_init
  simp only [Server.boot]
  split_ifs <;> first | contradiction | exact ⟨rfl, new_pipe_wf mem, rfl⟩

/-- The count of `data` on a well-formed pipe with the mutex free. -/
theorem Client.btm_data_mod (p : pipe_obj_t) (h : PipeWf p) (hl : p.lock = false) :
    Client.btm_data p = (p.tail - p.head) % p.size := by
  rw [Client.btm_data_free p h hl, unread_length p h, h.size_eq]

/-- C22 (index invariant of the pipe).  Take any run of the master, or of the
slave, that starts on the freshly booted module with an `init` whose `malloc`
gave a buffer, is not aborted, and goes on with any calls and events:
data-indication events, `get_str`, `get_bin`, `deinit` and further `init`
among them.  In the state reached `0 <= head < size`, `0 <= tail < size` and
`size = DEFAULT_PIPE_SIZE + 1`; with the mutex free, `data()` is
`(tail - head) mod size`; and the mutex is free when no other task took it
during the run. -/
theorem C22_index_invariant (maxlen : Nat) (name : List Nat) (mo : Client.master_obj_t)
    (mem : Int → Nat) (rets : StartRets) (calls : List Client.Call) (s : Client.State)
    (sname spin : List Nat) (so : Server.slave_obj_t) (smem : Int → Nat)
    (srets : StartRets) (scalls : List Server.Call) (ss : Server.State)
    (hrun : Client.run maxlen (.init name mo (some mem) rets :: calls) (Client.boot maxlen)
      = some s)
    (hsrun : Server.run (.init sname spin so (some smem) srets :: scalls) Server.boot
      = some ss) :
    (0 ≤ s.pipe.head ∧ s.pipe.head < s.pipe.size ∧ 0 ≤ s.pipe.tail ∧ s.pipe.tail < s.pipe.size ∧
      s.pipe.size = DEFAULT_PIPE_SIZE + 1 ∧
      (s.pipe.lock = false → Client.btm_data s.pipe = (s.pipe.tail - s.pipe.head) % s.pipe.size) ∧
      ((∀ c ∈ calls, c.is_contend = false) → s.pipe.lock = false)) ∧
    (0 ≤ ss.pipe.head ∧ ss.pipe.head < ss.pipe.size ∧ 0 ≤ ss.pipe.tail ∧
      ss.pipe.tail < ss.pipe.size ∧ ss.pipe.size = DEFAULT_PIPE_SIZE + 1 ∧
      (ss.pipe.lock = false →
        Server.bts_data ss.pipe = (ss.pipe.tail - ss.pipe.head) % ss.pipe.size) ∧
      ((∀ c ∈ scalls, c.is_contend = false) → ss.pipe.lock = false)) := by
  have hm : PipeWf s.pipe ∧ ((∀ c ∈ calls, c.is_contend = false) → s.pipe.lock = false) := by
    simp only [Client.run] at hrun
    cases hs : Client.step maxlen (Client.boot maxlen) (.init name mo (some mem) rets) with
    | none => rw [hs] at hrun; simp at hrun
    | some r =>
      rw [hs] at hrun
      simp only [Client.step] at hs
      split at hs
      · simp only [Option.some.injEq] at hs
        obtain ⟨i1, i2, i3⟩ := Client.master_first_init_wf maxlen mo mem rets name
        subst hs
        obtain ⟨j1, j2⟩ := Client.master_pipe_run_wf maxlen calls _ s ⟨i1, i2⟩ hrun
        exact ⟨j1, fun hc => by rw [j2 hc, i3]⟩
      · simp at hs
  have hsl : PipeWf ss.pipe ∧ ((∀ c ∈ scalls, c.is_contend = false) → ss.pipe.lock = false) := by
    simp only [Server.run] at hsrun
    cases hs : Server.step Server.boot (.init sname spin so (some smem) srets) with
    | none => rw [hs] at hsrun; simp at hsrun
    | some r =>
      rw [hs] at hsrun
      simp only [Server.step] at hs
      split at hs
      · simp only [Option.some.injEq] at hs
        obtain ⟨i1, i2, i3⟩ := Server.slave_first_init_wf so smem srets sname spin
        subst hs
        obtain ⟨j1, j2⟩ := Server.slave_pipe_run_wf scalls _ ss ⟨i1, i2⟩ hsrun
        exact ⟨j1, fun hc => by rw [j2 hc, i3]⟩
      · simp at hs
  obtain ⟨⟨a1, a2, a3, a4, a5⟩, al⟩ := hm
  obtain ⟨⟨b1, b2, b3, b4, b5⟩, bl⟩ := hsl
  exact ⟨⟨a2, a3, a4, a5, a1, Client.btm_data_mod s.pipe ⟨a1, a2, a3, a4, a5⟩, al⟩,
    ⟨b2, b3, b4, b5, b1, fun hl => by
      rw [Server.bts_data_eq]; exact Client.btm_data_mod ss.pipe ⟨b1, b2, b3, b4, b5⟩ hl, bl⟩⟩

set_option maxRecDepth 100000 in
/-- Witness of C22: `init`, three bytes received, one read, `deinit`, a second
`init` and two more bytes received, on the master and on the slave; two bytes
are unread at the end, `head = 0` and `tail = 2`. -/
theorem C22_index_invariant_witness :
    Client.run 248 [.init [77] (Client.zero_obj 249) (some fun _ => 0) StartRets.ok,
      .spp (.ESP_SPP_DATA_IND_EVT 5 [1, 2, 3]), .get_bin 1, .deinit,
      .init [77] (Client.zero_obj 249) none StartRets.ok,
      .spp (.ESP_SPP_DATA_IND_EVT 5 [4, 5])] (Client.boot 248) = some Client.reinitialised ∧
    Server.run [.init [83] [49] (Server.zero_obj 249) (some fun _ => 0) StartRets.ok,
      .spp (.ESP_SPP_DATA_IND_EVT 5 [1, 2, 3]), .get_str 1, .deinit,
      .init [83] [49] (Server.zero_obj 249) none StartRets.ok,
      .spp (.ESP_SPP_DATA_IND_EVT 5 [4, 5])] Server.boot = some Server.reinitialised ∧
    Client.reinitialised.pipe.head = 0 ∧ Client.reinitialised.pipe.tail = 2 ∧
    Client.btm_data Client.reinitialised.pipe = 2 ∧
    Client.reinitialised.pipe.size = DEFAULT_PIPE_SIZE + 1 ∧
    Server.reinitialised.pipe.size = DEFAULT_PIPE_SIZE + 1 :=
  ⟨rfl, rfl, by decide, by decide, by decide,
   (C22_index_invariant 248 [77] (Client.zero_obj 249) (fun _ => 0) StartRets.ok
     [.spp (.ESP_SPP_DATA_IND_EVT 5 [1, 2, 3]), .get_bin 1, .deinit,
      .init [77] (Client.zero_obj 249) none StartRets.ok,
      .spp (.ESP_SPP_DATA_IND_EVT 5 [4, 5])] Client.reinitialised
     [83] [49] (Server.zero_obj 249) (fun _ => 0) StartRets.ok
     [.spp (.ESP_SPP_DATA_IND_EVT 5 [1, 2, 3]), .get_str 1, .deinit,
      .init [83] [49] (Server.zero_obj 249) none StartRets.ok,
      .spp (.ESP_SPP_DATA_IND_EVT 5 [4, 5])] Server.reinitialised rfl rfl).1.2.2.2.2.1,
   (C22_index_invariant 248 [77] (Client.zero_obj 249) (fun _ => 0) StartRets.ok
     [.spp (.ESP_SPP_DATA_IND_EVT 5 [1, 2, 3]), .get_bin 1, .deinit,
      .init [77] (Client.zero_obj 249) none StartRets.ok,
      .spp (.ESP_SPP_DATA_IND_EVT 5 [4, 5])] Client.reinitialised
     [83] [49] (Server.zero_obj 249) (fun _ => 0) StartRets.ok
     [.spp (.ESP_SPP_DATA_IND_EVT 5 [1, 2, 3]), .get_str 1, .deinit,
      .init [83] [49] (Server.zero_obj 249) none StartRets.ok,
      .spp (.ESP_SPP_DATA_IND_EVT 5 [4, 5])] Server.reinitialised rfl rfl).2.2.2.2.2.1⟩

/-! ### The modulus after a failed allocation -/

/-- Where the size of the pipe is not zero the loop with the explicit `%` is
the loop of the handler. -/
theorem Client.data_ind_loop_checked_eq (items : List Nat) (p : pipe_obj_t) (h : p.size ≠ 0) :
    Client.data_ind_loop_checked items p = some (Client.data_ind_loop items p) := by
  induction items generalizing p with
  | nil => rfl
  | cons x items ih =>
    simp only [Client.data_ind_loop_checked, Client.data_ind_loop, h, if_false]
    split
    · rfl
    · rw [ih { p with buffer := Function.update p.buffer p.tail x,
                      tail := (p.tail + 1) % p.size } h]

/-- Where the size of the pipe is not zero the loop with the explicit `%` is
the loop of the handler. -/
theorem Server.slave_loop_checked_eq (items : List Nat) (p : pipe_obj_t) (h : p.size ≠ 0) :
    Server.data_ind_loop_checked items p = some (Server.data_ind_loop items p) := by
  induction items generalizing p with
  | nil => rfl
  | cons x items ih =>
    simp only [Server.data_ind_loop_checked, Server.data_ind_loop, h, if_false]
    split
    · rfl
    · rw [ih { p with buffer := Function.update p.buffer p.tail x,
                      tail := (p.tail + 1) % p.size } h]

/-- The pipe after the first `init` is the one built from what `malloc` gave. -/
theorem Client.btm_init_first_pipe (maxlen : Nat) (mo : Client.master_obj_t)
    (buff : Option (Int → Nat)) (rets : StartRets) (name : List Nat) :
    (Client.btm_init mo buff rets name (Client.boot maxlen)).1.pipe = new_pipe buff := by
  unfold Client.btm_init
  simp only [Client.boot]
  split_ifs <;> first | contradiction | rfl

/-- The pipe after the first `init` is the one built from what `malloc` gave. -/
theorem Server.bts_init_first_pipe (so : Server.slave_obj_t)
    (buff : Option (Int → Nat)) (rets : StartRets) (name pin : List Nat) :
    (Server.bts_init so buff rets name pin Server.boot).1.pipe = new_pipe buff := by
  unfold Server.bts_init
  simp only [Server.boot]
  split_ifs <;> first | contradiction | rfl

/-- C23 (the modulus after a failed allocation).  When `malloc` returns `NULL`
in the first `init`, of the master or of the slave, `init` still returns true
(unless the bring-up aborts) and the pipe it leaves has size 0, no buffer and a
free mutex; the next data-indication event that carries at least one byte
evaluates `(tail + 1) % size` with `size` equal to zero.  With a buffer from
`malloc` the size is `DEFAULT_PIPE_SIZE + 1` and the event divides by it. -/
theorem C23_modulus_zero_after_failed_malloc (maxlen : Nat) (mo : Client.master_obj_t)
    (so : Server.slave_obj_t) (rets : StartRets) (name pin : List Nat) (x : Nat)
    (items : List Nat) (mem : Int → Nat) :
    (Client.btm_init mo none rets name (Client.boot maxlen)).2.2
      = (if rets.aborts = true then none else some true) ∧
    (Client.btm_init mo none rets name (Client.boot maxlen)).1.pipe.size = 0 ∧
    (Client.btm_init mo none rets name (Client.boot maxlen)).1.pipe.alloc = 0 ∧
    Client.data_ind_pipe_checked (x :: items)
      (Client.btm_init mo none rets name (Client.boot maxlen)).1.pipe = none ∧
    (Server.bts_init so none rets name pin Server.boot).2.2
      = (if rets.aborts = true then none else some true) ∧
    (Server.bts_init so none rets name pin Server.boot).1.pipe.size = 0 ∧
    (Server.bts_init so none rets name pin Server.boot).1.pipe.alloc = 0 ∧
    Server.data_ind_pipe_checked (x :: items)
      (Server.bts_init so none rets name pin Server.boot).1.pipe = none ∧
    (Client.btm_init mo (some mem) rets name (Client.boot maxlen)).1.pipe.size
      = DEFAULT_PIPE_SIZE + 1 ∧
    Client.data_ind_pipe_checked (x :: items)
      (Client.btm_init mo (some mem) rets name (Client.boot maxlen)).1.pipe
      = some (Client.data_ind_pipe (x :: items)
          (Client.btm_init mo (some mem) rets name (Client.boot maxlen)).1.pipe) := by
  refine ⟨?_, ?_, ?_, ?_, ?_, ?_, ?_, ?_, ?_, ?_⟩
  · have ha := Client.btm_start_aborts rets
    simp only [Client.btm_init, Client.boot, ha]
    cases rets.aborts <;> simp
  · rw [Client.btm_init_first_pipe]; rfl
  · rw [Client.btm_init_first_pipe]; rfl
  · rw [Client.btm_init_first_pipe]; rfl
  · have ha := Server.bts_start_aborts rets
    simp only [Server.bts_init, Server.boot, ha]
    cases rets.aborts <;> simp
  · rw [Server.bts_init_first_pipe]; rfl
  · rw [Server.bts_init_first_pipe]; rfl
  · rw [Server.bts_init_first_pipe]; rfl
  · rw [Client.btm_init_first_pipe]; rfl
  · rw [Client.btm_init_first_pipe]
    have h : (new_pipe (some mem)).size ≠ 0 := by
      simp [new_pipe, DEFAULT_PIPE_SIZE]
    simp only [Client.data_ind_pipe_checked, Client.data_ind_pipe]
    split
    · exact Client.data_ind_loop_checked_eq _ _ h
    · rfl

/-! ### init and the bring-up -/

/-- C24 (the result of `init` does not depend on the bring-up).  For every
assignment of status codes under which no `ESP_ERROR_CHECK` aborts the
program, `init` called while the role is not up returns true and sets the up
flag, whatever part of the bring-up was carried out; a following `init` then
returns false and a following `deinit` returns true.  For the master and for
the slave. -/
theorem C24_init_result (mo mo2 : Client.master_obj_t) (so so2 : Server.slave_obj_t)
    (buff buff2 : Option (Int → Nat)) (r r2 : StartRets) (name name2 pin pin2 : List Nat)
    (sm : Client.State) (ss : Server.State)
    (hm : sm.master_up = false) (hs : ss.slave_up = false) (ha : r.aborts = false) :
    (Client.btm_init mo buff r name sm).2.2 = some true ∧
    (Client.btm_init mo buff r name sm).1.master_up = true ∧
    (Client.btm_init mo2 buff2 r2 name2 (Client.btm_init mo buff r name sm).1).2.2
      = some false ∧
    (Client.btm_deinit (Client.btm_init mo buff r name sm).1).2.2 = true ∧
    (Server.bts_init so buff r name pin ss).2.2 = some true ∧
    (Server.bts_init so buff r name pin ss).1.slave_up = true ∧
    (Server.bts_init so2 buff2 r2 name2 pin2 (Server.bts_init so buff r name pin ss).1).2.2
      = some false ∧
    (Server.bts_deinit (Server.bts_init so buff r name pin ss).1).2.2 = true := by
  have m1 : (Client.btm_init mo buff r name sm).2.2 = some true
      ∧ (Client.btm_init mo buff r name sm).1.master_up = true := by
    simp [Client.btm_init, hm, Client.btm_start_aborts, ha]
  have s1 : (Server.bts_init so buff r name pin ss).2.2 = some true
      ∧ (Server.bts_init so buff r name pin ss).1.slave_up = true := by
    simp [Server.bts_init, hs, Server.bts_start_aborts, ha]
  refine ⟨m1.1, m1.2, ?_, ?_, s1.1, s1.2, ?_, ?_⟩
  · generalize Client.btm_init mo buff r name sm = x at m1
    simp [Client.btm_init, m1.2]
  · generalize Client.btm_init mo buff r name sm = x at m1
    simp [Client.btm_deinit, m1.2]
  · generalize Server.bts_init so buff r name pin ss = x at s1
    simp [Server.bts_init, s1.2]
  · generalize Server.bts_init so buff r name pin ss = x at s1
    simp [Server.bts_deinit, s1.2]

set_option maxRecDepth 100000 in
/-- Witness of C24: `esp_bt_controller_init`, the first call of the bring-up
that is not under `ESP_ERROR_CHECK`, fails; the bring-up ends there and `init`
returns true all the same. -/
theorem C24_init_result_witness :
    (Client.boot 248).master_up = false ∧ Server.boot.slave_up = false ∧
    ({ StartRets.ok with esp_bt_controller_init := .ESP_FAIL 1 } : StartRets).aborts = false ∧
    (Client.btm_init (Client.zero_obj 249) (some fun _ => 0)
      { StartRets.ok with esp_bt_controller_init := .ESP_FAIL 1 } [77] (Client.boot 248)).2.1
      = [Cmd.nvs_flash_init, Cmd.esp_bt_controller_mem_release, Cmd.esp_bt_controller_init] ∧
    (Client.btm_init (Client.zero_obj 249) (some fun _ => 0)
      { StartRets.ok with esp_bt_controller_init := .ESP_FAIL 1 } [77] (Client.boot 248)).2.2
      = some true :=
  ⟨rfl, rfl, rfl, by decide,
   (C24_init_result (Client.zero_obj 249) (Client.zero_obj 249) (Server.zero_obj 249)
     (Server.zero_obj 249) (some fun _ => 0) none
     { StartRets.ok with esp_bt_controller_init := .ESP_FAIL 1 } StartRets.ok
     [77] [77] [49] [49] (Client.boot 248) Server.boot rfl rfl rfl).1⟩

/-! ### Text and binary reads, master and slave -/

/-- C25 (text and binary reads agree).  For every pipe state and every count,
`get_str` and `get_bin` hand the same bytes to the object they return, or both
return no data, and leave the pipe in the same state; and the slave's pipe
operations (the write of the data-indication handler, `data`, `get_str`,
`get_bin`) are the same functions of the pipe state as the master's. -/
theorem C25_reads_agree (p : pipe_obj_t) (count : Int) (items : List Nat) :
    Client.btm_get_str count p = Client.btm_get_bin count p ∧
    Server.bts_get_str count p = Server.bts_get_bin count p ∧
    Server.data_ind_pipe items p = Client.data_ind_pipe items p ∧
    Server.bts_data p = Client.btm_data p ∧
    Server.bts_get_str count p = Client.btm_get_str count p ∧
    Server.bts_get_bin count p = Client.btm_get_bin count p ∧
    (∀ (sm : Client.State) (ss : Server.State) (handle : Nat), sm.pipe = ss.pipe →
      (Server.esp_spp_cb (.ESP_SPP_DATA_IND_EVT handle items) ss).1.pipe
        = (Client.esp_spp_cb (.ESP_SPP_DATA_IND_EVT handle items) sm).1.pipe) := by
  refine ⟨rfl, rfl, Server.data_ind_pipe_eq items p, rfl, Server.bts_get_str_eq count p,
    Server.bts_get_bin_eq count p, ?_⟩
  intro sm ss handle h
  simp only [Server.esp_spp_cb, Client.esp_spp_cb, Server.data_ind_pipe_eq, h]

end BtSpp
